import Mathlib

/-!
# Payment service: lifecycle core over its storage gateways

A shallow embedding of the use-case layer
(`internal/domain/usecase/payment_usecase.go`), of the SQL-backed repositories
it calls (`internal/infrastructure/database/*_repository_impl.go`), of the
error package (`pkg/errors/errors.go`) and of the create-payment handler
(`internal/delivery/http/payment_handler.go`).

The database is an explicit value (`World`): three tables as lists of rows, a
schedule of driver faults, the log of gateway calls issued so far, a logical
clock and the stream of identifiers `uuid.New` will hand out.  Every
repository method is a function `World → result × World`.
-/

namespace PaymentService

/-! ## Entities (`internal/domain/entity/payment.go`) -/

/-- A `uuid.UUID`, kept abstract as a number. -/
abbrev UUID := Nat

/-- A `time.Time`, as a reading of the logical clock. -/
abbrev Time := Nat

/-- Go declares `type PaymentStatus string`: any string is a value of the type. -/
abbrev PaymentStatus := String

def PaymentStatusPending : PaymentStatus := "pending"
def PaymentStatusCompleted : PaymentStatus := "completed"
def PaymentStatusFailed : PaymentStatus := "failed"
def PaymentStatusCancelled : PaymentStatus := "cancelled"

/-- Go declares `type PaymentMethod string`. -/
abbrev PaymentMethod := String

def PaymentMethodCreditCard : PaymentMethod := "credit_card"
def PaymentMethodBankTransfer : PaymentMethod := "bank_transfer"
def PaymentMethodDigitalWallet : PaymentMethod := "digital_wallet"

structure Payment where
  ID : UUID
  MerchantID : UUID
  CustomerID : UUID
  Amount : Int
  Currency : String
  Method : PaymentMethod
  Status : PaymentStatus
  Description : String
  Reference : String
  CreatedAt : Time
  UpdatedAt : Time
  CompletedAt : Option Time
  deriving DecidableEq, Repr

structure Merchant where
  ID : UUID
  Name : String
  Email : String
  APIKey : String
  IsActive : Bool
  CreatedAt : Time
  UpdatedAt : Time
  deriving DecidableEq, Repr

structure Customer where
  ID : UUID
  Name : String
  Email : String
  Phone : String
  CreatedAt : Time
  UpdatedAt : Time
  deriving DecidableEq, Repr

/-! ## Errors (`pkg/errors/errors.go`) -/

/-- The values of Go's `error` interface that occur in the service:
`sql.ErrNoRows`, any other error raised by `database/sql` or the driver,
and `*errors.AppError`. -/
inductive GoError where
  | ErrNoRows
  | driver (text : String)
  | AppError (Message : String) (Code : String) (Cause : Option GoError)
      (File : String) (Line : Nat)
  deriving Repr

namespace GoError

/-- The `Message` field of an `*AppError`; other errors have no such field. -/
def Message : GoError → Option String
  | .AppError m _ _ _ _ => some m
  | _ => none

/-- The `Cause` field of an `*AppError`. -/
def Cause : GoError → Option GoError
  | .AppError _ _ c _ _ => c
  | _ => none

/-- The `Error()` method: `AppError.Error` for an `*AppError`, the text of the
value otherwise (`sql.ErrNoRows` reads "sql: no rows in result set"). -/
def Error : GoError → String
  | .ErrNoRows => "sql: no rows in result set"
  | .driver text => text
  | .AppError m _ (some c) f l =>
      m ++ ": " ++ Error c ++ " (at " ++ f ++ ":" ++ toString l ++ ")"
  | .AppError m _ none f l => m ++ " (at " ++ f ++ ":" ++ toString l ++ ")"

end GoError

namespace errors

/-- `errors.New(message)`: an `*AppError` without cause.  `file` and `line` are
what `runtime.Caller(1)` reports, the place of the call to `New`. -/
def New (message : String) (file : String) (line : Nat) : GoError :=
  .AppError message "" none file line

/-- `errors.Wrap(err, message)`: nil for a nil `err`, otherwise an `*AppError`
whose cause is `err`. -/
def Wrap (err : Option GoError) (message : String) (file : String) (line : Nat) :
    Option GoError :=
  match err with
  | none => none
  | some e => some (.AppError message "" (some e) file line)

end errors

/-! ## The database and the environment of a request -/

/-- One call on a storage gateway, as the use case or the middleware issues it. -/
inductive Call where
  | MerchantGetByID (id : UUID)
  | MerchantGetByAPIKey (apiKey : String)
  | CustomerGetByID (id : UUID)
  | PaymentCreate (payment : Payment)
  | PaymentGetByID (id : UUID)
  | PaymentUpdateStatus (id : UUID) (status : PaymentStatus)
  | PaymentGetByMerchantID (merchantID : UUID) (limit : Int) (offset : Int)
  deriving DecidableEq, Repr

/-- The state the service runs against.

* `payments`, `merchants`, `customers`: the rows of the three tables;
* `faults`: what the driver will answer to the coming statements, oldest
  first: `none` lets the statement run, `some text` makes the driver return an
  error with that text (lost connection, cancelled context, refused statement)
  without touching the tables; an exhausted schedule means no fault;
* `calls`: the gateway calls issued so far, oldest first;
* `now`: the clock; every reading of `time.Now()` returns it and advances it;
* `uuids`: the identifiers `uuid.New()` will return, in order;
* `srcRoot`: the directory the binary was built from, under which
  `runtime.Caller` reports source files. -/
structure World where
  payments : List Payment
  merchants : List Merchant
  customers : List Customer
  faults : List (Option String)
  calls : List Call
  now : Time
  uuids : List UUID
  srcRoot : String
  deriving Repr

namespace World

/-- Appends a gateway call to the log. -/
def record (w : World) (c : Call) : World :=
  { w with calls := w.calls ++ [c] }

/-- Hands one statement to the driver: consumes the next entry of the fault
schedule and reports the driver error, if any. -/
def driver (w : World) : Option GoError × World :=
  match w.faults with
  | [] => (none, w)
  | f :: rest => (f.map GoError.driver, { w with faults := rest })

/-- `time.Now()`. -/
def timeNow (w : World) : Time × World :=
  (w.now, { w with now := w.now + 1 })

/-- `uuid.New()`. -/
def uuidNew (w : World) : UUID × World :=
  (w.uuids.headD 0, { w with uuids := w.uuids.tail })

/-- The row of table `payments` with the given id (the first one, as
`SELECT ... WHERE id = $1` scanned into a single struct yields). -/
def storedPayment (w : World) (id : UUID) : Option Payment :=
  w.payments.find? (fun p => p.ID == id)

/-- The row of table `merchants` with the given id. -/
def storedMerchant (w : World) (id : UUID) : Option Merchant :=
  w.merchants.find? (fun m => m.ID == id)

/-- The row of table `customers` with the given id. -/
def storedCustomer (w : World) (id : UUID) : Option Customer :=
  w.customers.find? (fun c => c.ID == id)

end World

def paymentRepoFile (w : World) : String :=
  w.srcRoot ++ "/internal/infrastructure/database/payment_repository_impl.go"

def merchantRepoFile (w : World) : String :=
  w.srcRoot ++ "/internal/infrastructure/database/merchant_repository_impl.go"

def usecaseFile (w : World) : String :=
  w.srcRoot ++ "/internal/domain/usecase/payment_usecase.go"

/-! ## Payment repository (`payment_repository_impl.go`) -/

namespace paymentRepository

/-- `Create`: `INSERT INTO payments (id, ..., updated_at)`.  The statement
lists eleven columns and leaves `completed_at` out, so the new row has it
NULL whatever the entity carries.  Every reason the database may have to
refuse the row is a driver fault. -/
def Create (payment : Payment) (w : World) : Option GoError × World :=
  let w := w.record (.PaymentCreate payment)
  match w.driver with
  | (some err, w) =>
      (errors.Wrap (some err) "failed to create payment" (paymentRepoFile w) 34, w)
  | (none, w) =>
      (none, { w with payments := w.payments ++ [{ payment with CompletedAt := none }] })

/-- `GetByID`: `SELECT ... FROM payments WHERE id = $1` into one struct. -/
def GetByID (id : UUID) (w : World) : (Option Payment × Option GoError) × World :=
  let w := w.record (.PaymentGetByID id)
  match w.driver with
  | (some err, w) =>
      ((none, errors.Wrap (some err) "failed to get payment by id" (paymentRepoFile w) 51), w)
  | (none, w) =>
      match w.storedPayment id with
      | none => ((none, some (errors.New "payment not found" (paymentRepoFile w) 49)), w)
      | some payment => ((some payment, none), w)

/-- The SET and WHERE clauses of the UPDATE in `UpdateStatus`, on one row:
a row with the given id gets the new status, update time and completion time
(NULL when `completedAt` is nil); any other row is left as it is. -/
def setStatus (id : UUID) (status : PaymentStatus) (updatedAt : Time)
    (completedAt : Option Time) (p : Payment) : Payment :=
  if p.ID == id then
    { p with Status := status, UpdatedAt := updatedAt, CompletedAt := completedAt }
  else p

/-- `UpdateStatus`: `completedAt` is the current time when the new status is
completed and nil otherwise; then `UPDATE payments SET status = $1,
updated_at = $2, completed_at = $3 WHERE id = $4`, and the check on the number
of rows affected. -/
def UpdateStatus (id : UUID) (status : PaymentStatus) (w : World) : Option GoError × World :=
  let w := w.record (.PaymentUpdateStatus id status)
  let (completedAt, w) :=
    if status == PaymentStatusCompleted then
      let (now, w) := w.timeNow
      (some now, w)
    else (none, w)
  let (updatedAt, w) := w.timeNow
  match w.driver with
  | (some err, w) =>
      (errors.Wrap (some err) "failed to update payment status" (paymentRepoFile w) 87, w)
  | (none, w) =>
      let rowsAffected := (w.payments.filter (fun p => p.ID == id)).length
      let w := { w with payments := w.payments.map (setStatus id status updatedAt completedAt) }
      match w.driver with
      | (some err, w) =>
          (errors.Wrap (some err) "failed to get affected rows" (paymentRepoFile w) 92, w)
      | (none, w) =>
          if rowsAffected == 0 then
            (some (errors.New "payment not found" (paymentRepoFile w) 95), w)
          else (none, w)

/-- `GetByMerchantID`: `SELECT ... WHERE merchant_id = $1 ORDER BY created_at
DESC LIMIT $2 OFFSET $3`.  PostgreSQL refuses a negative LIMIT or OFFSET; rows
with equal creation time keep their table order. -/
def GetByMerchantID (merchantID : UUID) (limit offset : Int) (w : World) :
    (List Payment × Option GoError) × World :=
  let w := w.record (.PaymentGetByMerchantID merchantID limit offset)
  match w.driver with
  | (some err, w) =>
      (([], errors.Wrap (some err) "failed to get payments by merchant id"
        (paymentRepoFile w) 113), w)
  | (none, w) =>
      if limit < 0 then
        (([], errors.Wrap (some (.driver "pq: LIMIT must not be negative"))
          "failed to get payments by merchant id" (paymentRepoFile w) 113), w)
      else if offset < 0 then
        (([], errors.Wrap (some (.driver "pq: OFFSET must not be negative"))
          "failed to get payments by merchant id" (paymentRepoFile w) 113), w)
      else
        let rows := (w.payments.filter (fun p => p.MerchantID == merchantID)).insertionSort
          (fun a b => b.CreatedAt ≤ a.CreatedAt)
        (((rows.drop offset.toNat).take limit.toNat, none), w)

end paymentRepository

/-! ## Merchant repository (`merchant_repository_impl.go`) -/

namespace merchantRepository

/-- `GetByID`: `SELECT ... FROM merchants WHERE id = $1`. -/
def GetByID (id : UUID) (w : World) : (Option Merchant × Option GoError) × World :=
  let w := w.record (.MerchantGetByID id)
  match w.driver with
  | (some err, w) =>
      ((none, errors.Wrap (some err) "failed to get merchant by id" (merchantRepoFile w) 49), w)
  | (none, w) =>
      match w.storedMerchant id with
      | none => ((none, some (errors.New "merchant not found" (merchantRepoFile w) 47)), w)
      | some merchant => ((some merchant, none), w)

end merchantRepository

/-! ## Customer repository (`customer_repository_impl.go`) -/

/-- The receiver of the customer repository methods; its only field is the
database handle, which is the `World` here. -/
structure customerRepositoryImpl where
  deriving DecidableEq, Repr

namespace customerRepositoryImpl

/-- The zero value of `entity.Customer`, what `var customer entity.Customer`
holds when nothing was scanned into it. -/
def zeroCustomer : Customer := ⟨0, "", "", "", 0, 0⟩

/-- `GetByID`: `sql.ErrNoRows` is returned as it is, with a nil customer; any
other outcome returns `&customer` together with `err`. -/
def GetByID (_r : customerRepositoryImpl) (id : UUID) (w : World) :
    (Option Customer × Option GoError) × World :=
  let w := w.record (.CustomerGetByID id)
  match w.driver with
  | (some err, w) => ((some zeroCustomer, some err), w)
  | (none, w) =>
      match w.storedCustomer id with
      | none => ((none, some .ErrNoRows), w)
      | some customer => ((some customer, none), w)

end customerRepositoryImpl

/-! ## Use case (`payment_usecase.go`) -/

/-- How a Go call ends: it returns, or it panics (here: a method call on a nil
interface value or a field read through a nil pointer). -/
inductive Outcome (α : Type) where
  | returned (value : α)
  | panicked
  deriving DecidableEq, Repr

structure CreatePaymentRequest where
  MerchantID : UUID
  CustomerID : UUID
  Amount : Int
  Currency : String
  Method : PaymentMethod
  Description : String
  Reference : String
  deriving DecidableEq, Repr

/-- The use case and its collaborators.  The payment and merchant repositories
are the SQL ones above; `customerRepo` is the interface value handed to
`NewPaymentUseCase`, `none` when it is nil. -/
structure paymentUseCase where
  customerRepo : Option customerRepositoryImpl
  deriving DecidableEq, Repr

def NewPaymentUseCase (customerRepo : Option customerRepositoryImpl) : paymentUseCase :=
  { customerRepo := customerRepo }

namespace paymentUseCase

/-- The entity `CreatePayment` builds once its checks have passed (the struct
literal of lines 67-79): a new identifier, the fields of the request, status
pending, two readings of the clock, no completion time. -/
def newPayment (req : CreatePaymentRequest) (w : World) : Payment × World :=
  let (id, w) := w.uuidNew
  let (createdAt, w) := w.timeNow
  let (updatedAt, w) := w.timeNow
  ({ ID := id
     MerchantID := req.MerchantID
     CustomerID := req.CustomerID
     Amount := req.Amount
     Currency := req.Currency
     Method := req.Method
     Status := PaymentStatusPending
     Description := req.Description
     Reference := req.Reference
     CreatedAt := createdAt
     UpdatedAt := updatedAt
     CompletedAt := none }, w)

def CreatePayment (uc : paymentUseCase) (req : CreatePaymentRequest) (w : World) :
    Outcome (Option Payment × Option GoError) × World :=
  match merchantRepository.GetByID req.MerchantID w with
  | ((_, some err), w) =>
      (.returned (none, errors.Wrap (some err) "failed to get merchant" (usecaseFile w) 54), w)
  | ((none, none), w) => (.panicked, w)
  | ((some merchant, none), w) =>
      if !merchant.IsActive then
        (.returned (none, some (errors.New "merchant is not active" (usecaseFile w) 57)), w)
      else
        match uc.customerRepo with
        | none => (.panicked, w)
        | some customerRepo =>
            match customerRepo.GetByID req.CustomerID w with
            | ((_, some err), w) =>
                (.returned (none,
                  errors.Wrap (some err) "failed to get customer" (usecaseFile w) 63), w)
            | ((_, none), w) =>
                let (payment, w) := newPayment req w
                match paymentRepository.Create payment w with
                | (some err, w) =>
                    (.returned (none,
                      errors.Wrap (some err) "failed to create payment" (usecaseFile w) 82), w)
                | (none, w) => (.returned (some payment, none), w)

def GetPayment (_uc : paymentUseCase) (id : UUID) (w : World) :
    (Option Payment × Option GoError) × World :=
  match paymentRepository.GetByID id w with
  | ((_, some err), w) =>
      ((none, errors.Wrap (some err) "failed to get payment" (usecaseFile w) 91), w)
  | ((payment, none), w) => ((payment, none), w)

def ProcessPayment (_uc : paymentUseCase) (id : UUID) (w : World) :
    Outcome (Option GoError) × World :=
  match paymentRepository.GetByID id w with
  | ((_, some err), w) =>
      (.returned (errors.Wrap (some err) "failed to get payment" (usecaseFile w) 99), w)
  | ((none, none), w) => (.panicked, w)
  | ((some payment, none), w) =>
      if payment.Status != PaymentStatusPending then
        (.returned (some (errors.New
          ("payment status is " ++ payment.Status ++ ", cannot process") (usecaseFile w) 103)), w)
      else
        match paymentRepository.UpdateStatus id PaymentStatusCompleted w with
        | (some err, w) =>
            (.returned (errors.Wrap (some err) "failed to update payment status"
              (usecaseFile w) 110), w)
        | (none, w) => (.returned none, w)

def CancelPayment (_uc : paymentUseCase) (id : UUID) (w : World) :
    Outcome (Option GoError) × World :=
  match paymentRepository.GetByID id w with
  | ((_, some err), w) =>
      (.returned (errors.Wrap (some err) "failed to get payment" (usecaseFile w) 119), w)
  | ((none, none), w) => (.panicked, w)
  | ((some payment, none), w) =>
      if payment.Status != PaymentStatusPending then
        (.returned (some (errors.New
          ("payment status is " ++ payment.Status ++ ", cannot cancel") (usecaseFile w) 123)), w)
      else
        match paymentRepository.UpdateStatus id PaymentStatusCancelled w with
        | (some err, w) =>
            (.returned (errors.Wrap (some err) "failed to update payment status"
              (usecaseFile w) 127), w)
        | (none, w) => (.returned none, w)

def GetMerchantPayments (_uc : paymentUseCase) (merchantID : UUID) (limit offset : Int)
    (w : World) : (List Payment × Option GoError) × World :=
  match paymentRepository.GetByMerchantID merchantID limit offset w with
  | ((_, some err), w) =>
      (([], errors.Wrap (some err) "failed to get merchant payments" (usecaseFile w) 136), w)
  | ((payments, none), w) => ((payments, none), w)

end paymentUseCase

/-! ## Create-payment boundary (`payment_handler.go`) -/

/-- A validation rule of a struct tag: `required`, `gt=n`, `len=n`. -/
inductive Rule where
  | required
  | gt (n : Int)
  | len (n : Nat)
  deriving DecidableEq, Repr

/-- The value of one request field, by Go type: `uuid.UUID`, `int64`, string. -/
inductive FieldValue where
  | uuid (u : UUID)
  | int (i : Int)
  | str (s : String)
  deriving DecidableEq, Repr

/-- What a rule asks of a value, after go-playground/validator: `required`
refuses the zero value, `gt` compares a number (the length, for a string or an
array), `len` the number (the length in characters, for a string). -/
def Rule.holds : Rule → FieldValue → Bool
  | .required, .uuid u => u != 0
  | .required, .int i => i != 0
  | .required, .str s => s != ""
  | .gt n, .int i => decide (n < i)
  | .gt n, .str s => decide (n < (s.length : Int))
  | .gt n, .uuid _ => decide (n < 16)
  | .len n, .int i => decide (i = (n : Int))
  | .len n, .str s => s.length == n
  | .len n, .uuid _ => n == 16

/-- The fields of `CreatePaymentRequest` (lines 22-30), each with its value and
with the validation rules its struct tag declares, by tag key.  The source
writes all of them under the key `validate`. -/
def CreatePaymentRequest.fields (req : CreatePaymentRequest) :
    List (String × FieldValue × List (String × List Rule)) :=
  [ ("MerchantID", .uuid req.MerchantID, [("validate", [.required])]),
    ("CustomerID", .uuid req.CustomerID, [("validate", [.required])]),
    ("Amount", .int req.Amount, [("validate", [.required, .gt 0])]),
    ("Currency", .str req.Currency, [("validate", [.required, .len 3])]),
    ("Method", .str req.Method, [("validate", [.required])]),
    ("Description", .str req.Description, []),
    ("Reference", .str req.Reference, []) ]

/-- Struct validation reading the rules declared under the tag key `tagName`. -/
def validateStruct (tagName : String) (req : CreatePaymentRequest) : Bool :=
  req.fields.all (fun f => ((f.2.2.lookup tagName).getD []).all (fun r => r.holds f.2.1))

/-- The tag key gin's default validator reads (`SetTagName("binding")`). -/
def ginTagName : String := "binding"

/-- `c.ShouldBindJSON(&req)`: `decoded` is what decoding the body into the
struct gave (the decoder's error text, or the struct); a decoded struct is then
validated by gin's validator. -/
def ShouldBindJSON (decoded : Except String CreatePaymentRequest) :
    Except String CreatePaymentRequest :=
  match decoded with
  | .error e => .error e
  | .ok req =>
      if validateStruct ginTagName req then .ok req
      else .error "Field validation failed"

/-- The `Data` member of a response (`interface{}` in the source). -/
inductive ResponseData where
  | absent
  | payment (p : Payment)
  | payments (ps : List Payment)
  deriving DecidableEq, Repr

/-- A `*entity.Payment` stored in `Data`: absent when the pointer is nil. -/
def ResponseData.ofPayment : Option Payment → ResponseData
  | some p => .payment p
  | none => .absent

structure CreatePaymentResponse where
  Success : Bool
  Data : ResponseData
  Message : String
  Error : String
  deriving DecidableEq, Repr

/-- What `c.JSON(status, body)` writes. -/
structure HTTPResponse where
  status : Nat
  body : CreatePaymentResponse
  deriving DecidableEq, Repr

/-- `c.JSON(status, CreatePaymentResponse{...})`; a member the source leaves
out of the literal has its zero value. -/
def JSON (status : Nat) (success : Bool) (data : ResponseData) (message error : String) :
    HTTPResponse :=
  { status := status
    body := { Success := success, Data := data, Message := message, Error := error } }

structure PaymentHandler where
  paymentUseCase : paymentUseCase
  deriving DecidableEq, Repr

def NewPaymentHandler (uc : paymentUseCase) : PaymentHandler :=
  { paymentUseCase := uc }

namespace PaymentHandler

def CreatePayment (h : PaymentHandler) (decoded : Except String CreatePaymentRequest)
    (w : World) : Outcome HTTPResponse × World :=
  match ShouldBindJSON decoded with
  | .error err =>
      (.returned (JSON 400 false .absent "" ("Invalid request body: " ++ err)), w)
  | .ok req =>
      match h.paymentUseCase.CreatePayment req w with
      | (.panicked, w) => (.panicked, w)
      | (.returned (_, some err), w) =>
          (.returned (JSON 500 false .absent "" err.Error), w)
      | (.returned (payment, none), w) =>
          (.returned (JSON 201 true (.ofPayment payment) "Payment created successfully" ""), w)

end PaymentHandler

/-! ## Sequences of core operations -/

/-- One call of a core operation, with its arguments. -/
inductive Op where
  | CreatePayment (req : CreatePaymentRequest)
  | GetPayment (id : UUID)
  | ProcessPayment (id : UUID)
  | CancelPayment (id : UUID)
  | GetMerchantPayments (merchantID : UUID) (limit : Int) (offset : Int)
  deriving DecidableEq, Repr

namespace paymentUseCase

/-- The state one core operation leaves behind, whether it returned a value,
returned an error or panicked. -/
def step (uc : paymentUseCase) (op : Op) (w : World) : World :=
  match op with
  | .CreatePayment req => (uc.CreatePayment req w).2
  | .GetPayment id => (uc.GetPayment id w).2
  | .ProcessPayment id => (uc.ProcessPayment id w).2
  | .CancelPayment id => (uc.CancelPayment id w).2
  | .GetMerchantPayments merchantID limit offset =>
      (uc.GetMerchantPayments merchantID limit offset w).2

/-- The state after a sequence of core operations, executed one after another. -/
def run (uc : paymentUseCase) (ops : List Op) (w : World) : World :=
  ops.foldl (fun w op => uc.step op w) w

end paymentUseCase

/-- The data-model invariant on completion: every row of `payments` has a
completion timestamp exactly when its status is completed. -/
def World.completionConsistent (w : World) : Prop :=
  ∀ p ∈ w.payments, p.CompletedAt ≠ none ↔ p.Status = PaymentStatusCompleted

instance (w : World) : Decidable w.completionConsistent := by
  unfold World.completionConsistent
  infer_instance

/-- The text `needle` occurs in `text`. -/
def occursIn (needle text : String) : Prop :=
  needle.toList <:+: text.toList

instance (needle text : String) : Decidable (occursIn needle text) := by
  unfold occursIn
  infer_instance

/-- The status changes of the state machine: none, pending to completed,
pending to cancelled. -/
def allowedChange (s t : PaymentStatus) : Prop :=
  t = s ∨ (s = PaymentStatusPending ∧
    (t = PaymentStatusCompleted ∨ t = PaymentStatusCancelled))

instance (s t : PaymentStatus) : Decidable (allowedChange s t) := by
  unfold allowedChange
  infer_instance

/-! ## Sample data -/

def sampleMerchant : Merchant :=
  { ID := 1, Name := "Test Merchant", Email := "merchant@example.com", APIKey := "key-1",
    IsActive := true, CreatedAt := 0, UpdatedAt := 0 }

def sampleInactiveMerchant : Merchant :=
  { ID := 3, Name := "Closed Merchant", Email := "closed@example.com", APIKey := "key-3",
    IsActive := false, CreatedAt := 0, UpdatedAt := 0 }

def sampleCustomer : Customer :=
  { ID := 2, Name := "Test Customer", Email := "customer@example.com", Phone := "",
    CreatedAt := 0, UpdatedAt := 0 }

def samplePayment (id : UUID) (status : PaymentStatus) (completedAt : Option Time) : Payment :=
  { ID := id, MerchantID := 1, CustomerID := 2, Amount := 10000, Currency := "USD",
    Method := PaymentMethodCreditCard, Status := status, Description := "Test payment",
    Reference := "REF001", CreatedAt := 3, UpdatedAt := 4, CompletedAt := completedAt }

/-- A store with one completed, one pending and one cancelled payment, an
active and an inactive merchant and one customer; no fault is scheduled. -/
def sampleWorld : World :=
  { payments := [samplePayment 7 PaymentStatusCompleted (some 4),
      samplePayment 8 PaymentStatusPending none,
      samplePayment 9 PaymentStatusCancelled none]
    merchants := [sampleMerchant, sampleInactiveMerchant]
    customers := [sampleCustomer]
    faults := []
    calls := []
    now := 10
    uuids := [50, 51]
    srcRoot := "/app" }

/-- The sample store with a driver fault scheduled for the statement after the
next `n` ones. -/
def faultyWorld (n : Nat) : World :=
  { sampleWorld with faults := List.replicate n none ++ [some "connection reset by peer"] }

/-- The request of the use-case test "successful payment creation". -/
def sampleRequest : CreatePaymentRequest :=
  { MerchantID := 1, CustomerID := 2, Amount := 10000, Currency := "USD",
    Method := PaymentMethodCreditCard, Description := "Test payment", Reference := "REF002" }

/-! ## Merchant lookup by key and the authentication middleware (`middleware.go`) -/

/-- The row of table `merchants` with the given API key. -/
def World.merchantByKey (w : World) (apiKey : String) : Option Merchant :=
  w.merchants.find? (fun m => m.APIKey == apiKey)

/-- `merchantRepository.GetByAPIKey`: `SELECT ... FROM merchants WHERE api_key = $1`. -/
def merchantRepository.GetByAPIKey (apiKey : String) (w : World) :
    (Option Merchant × Option GoError) × World :=
  let w := w.record (.MerchantGetByAPIKey apiKey)
  match w.driver with
  | (some err, w) =>
      ((none, errors.Wrap (some err) "failed to get merchant by api key"
        (merchantRepoFile w) 65), w)
  | (none, w) =>
      match w.merchantByKey apiKey with
      | none => ((none, some (errors.New "merchant not found" (merchantRepoFile w) 63)), w)
      | some merchant => ((some merchant, none), w)

namespace strings

/-- `strings.HasPrefix`. -/
def HasPrefix (s p : String) : Bool :=
  p.toList.isPrefixOf s.toList

/-- `strings.TrimPrefix`. -/
def TrimPrefix (s p : String) : String :=
  if HasPrefix s p then String.mk (s.toList.drop p.length) else s

end strings

/-- The two request headers the middleware reads; `c.GetHeader` gives the empty
string for a header that is absent. -/
structure AuthHeaders where
  XAPIKey : String
  Authorization : String
  deriving DecidableEq, Repr

/-- What the middleware does with a request: `c.JSON(status, ...)` followed by
`c.Abort()`, or `c.Set("merchant", merchant)` followed by `c.Next()`, or a
panic on reading through a nil merchant. -/
inductive AuthDecision where
  | abort (status : Nat) (error : String)
  | next (merchant : Merchant)
  | panicked
  deriving DecidableEq, Repr

namespace AuthMiddleware

/-- The key the middleware looks the merchant up by (lines 24-31): the
`X-API-Key` header or, when that is empty and the `Authorization` header starts
with "Bearer ", the rest of that header. -/
def apiKey (hdr : AuthHeaders) : String :=
  if hdr.XAPIKey == "" then
    if strings.HasPrefix hdr.Authorization "Bearer " then
      strings.TrimPrefix hdr.Authorization "Bearer "
    else hdr.XAPIKey
  else hdr.XAPIKey

/-- `AuthMiddleware.APIKeyAuth`. -/
def APIKeyAuth (hdr : AuthHeaders) (w : World) : AuthDecision × World :=
  let apiKey := apiKey hdr
  if apiKey == "" then
    (.abort 401 "API key is required", w)
  else
    match merchantRepository.GetByAPIKey apiKey w with
    | ((_, some _), w) => (.abort 401 "Invalid API key", w)
    | ((none, none), w) => (.panicked, w)
    | ((some merchant, none), w) =>
        if !merchant.IsActive then
          (.abort 403 "Merchant account is inactive", w)
        else
          (.next merchant, w)

end AuthMiddleware

/-- A route of the groups `/payments` and `/merchants` (`router.go`, lines
39-54): the middleware runs first and the handler runs only if the middleware
did not abort. -/
def authenticated (hdr : AuthHeaders) (handler : World → Outcome HTTPResponse × World)
    (w : World) : Outcome HTTPResponse × World :=
  match AuthMiddleware.APIKeyAuth hdr w with
  | (.abort status error, w) => (.returned (JSON status false .absent "" error), w)
  | (.panicked, w) => (.panicked, w)
  | (.next _, w) => handler w

/-! ## The other handlers (`payment_handler.go`) -/

namespace strconv

/-- The value of a non-empty run of decimal digits. -/
def parseDigits (cs : List Char) : Option Nat :=
  if cs.isEmpty then none
  else cs.foldl (fun acc c =>
    match acc with
    | none => none
    | some n => if c.isDigit then some (n * 10 + (c.toNat - 48)) else none) (some 0)

/-- The integer a text denotes in base 10: an optional sign and one or more
digits; `none` for any other text. -/
def parseDecimal (s : String) : Option Int :=
  match s.toList with
  | '+' :: ds => (parseDigits ds).map (fun n => (n : Int))
  | '-' :: ds => (parseDigits ds).map (fun n => -(n : Int))
  | ds => (parseDigits ds).map (fun n => (n : Int))

/-- The largest and the smallest value of Go's `int` on a 64-bit platform. -/
def maxInt : Int := 2 ^ 63 - 1
def minInt : Int := -(2 ^ 63)

/-- `strconv.Atoi`: the value, or `none` when it returns an error, which is
the case for a text that is not a decimal integer and for an integer outside
the range of `int`. -/
def Atoi (s : String) : Option Int :=
  match parseDecimal s with
  | none => none
  | some v => if minInt ≤ v ∧ v ≤ maxInt then some v else none

end strconv

/-- `c.DefaultQuery(key, defaultValue)`: `value` is the query parameter,
`none` when the key is absent from the query string. -/
def DefaultQuery (value : Option String) (defaultValue : String) : String :=
  value.getD defaultValue

namespace PaymentHandler

/-- The limit `GetMerchantPayments` passes on (lines 145-151). -/
def pageLimit (limitQuery : Option String) : Int :=
  match strconv.Atoi (DefaultQuery limitQuery "20") with
  | none => 20
  | some limit => if limit ≤ 0 then 20 else limit

/-- The offset `GetMerchantPayments` passes on (lines 146-156). -/
def pageOffset (offsetQuery : Option String) : Int :=
  match strconv.Atoi (DefaultQuery offsetQuery "0") with
  | none => 0
  | some offset => if offset < 0 then 0 else offset

/-- `GetPayment`; `idParam` is what `uuid.Parse` made of the path parameter,
`none` when it returned an error. -/
def GetPayment (h : PaymentHandler) (idParam : Option UUID) (w : World) :
    Outcome HTTPResponse × World :=
  match idParam with
  | none => (.returned (JSON 400 false .absent "" "Invalid payment ID format"), w)
  | some id =>
      match h.paymentUseCase.GetPayment id w with
      | ((_, some err), w) => (.returned (JSON 404 false .absent "" err.Error), w)
      | ((payment, none), w) => (.returned (JSON 200 true (.ofPayment payment) "" ""), w)

def ProcessPayment (h : PaymentHandler) (idParam : Option UUID) (w : World) :
    Outcome HTTPResponse × World :=
  match idParam with
  | none => (.returned (JSON 400 false .absent "" "Invalid payment ID format"), w)
  | some id =>
      match h.paymentUseCase.ProcessPayment id w with
      | (.panicked, w) => (.panicked, w)
      | (.returned (some err), w) => (.returned (JSON 500 false .absent "" err.Error), w)
      | (.returned none, w) =>
          (.returned (JSON 200 true .absent "Payment processed successfully" ""), w)

def CancelPayment (h : PaymentHandler) (idParam : Option UUID) (w : World) :
    Outcome HTTPResponse × World :=
  match idParam with
  | none => (.returned (JSON 400 false .absent "" "Invalid payment ID format"), w)
  | some id =>
      match h.paymentUseCase.CancelPayment id w with
      | (.panicked, w) => (.panicked, w)
      | (.returned (some err), w) => (.returned (JSON 500 false .absent "" err.Error), w)
      | (.returned none, w) =>
          (.returned (JSON 200 true .absent "Payment cancelled successfully" ""), w)

def GetMerchantPayments (h : PaymentHandler) (merchantIDParam : Option UUID)
    (limitQuery offsetQuery : Option String) (w : World) : Outcome HTTPResponse × World :=
  match merchantIDParam with
  | none => (.returned (JSON 400 false .absent "" "Invalid merchant ID format"), w)
  | some merchantID =>
      let limit := pageLimit limitQuery
      let offset := pageOffset offsetQuery
      match h.paymentUseCase.GetMerchantPayments merchantID limit offset w with
      | ((_, some err), w) => (.returned (JSON 500 false .absent "" err.Error), w)
      | ((payments, none), w) => (.returned (JSON 200 true (.payments payments) "" ""), w)

end PaymentHandler

/-! ## The wiring of `main` and the two halves of a status transition -/

/-- The use case as `main` builds it (`main.go`, line 66): the customer
repository handed to `NewPaymentUseCase` is nil. -/
def mainUseCase : paymentUseCase := NewPaymentUseCase none

namespace paymentUseCase

/-- ProcessPayment up to its status check (lines 97-104): `some r` when the
call returns `r` there, `none` when it goes on to the status update. -/
def ProcessPaymentCheck (_uc : paymentUseCase) (id : UUID) (w : World) :
    Option (Outcome (Option GoError)) × World :=
  match paymentRepository.GetByID id w with
  | ((_, some err), w) =>
      (some (.returned (errors.Wrap (some err) "failed to get payment" (usecaseFile w) 99)), w)
  | ((none, none), w) => (some .panicked, w)
  | ((some payment, none), w) =>
      if payment.Status != PaymentStatusPending then
        (some (.returned (some (errors.New
          ("payment status is " ++ payment.Status ++ ", cannot process")
          (usecaseFile w) 103))), w)
      else (none, w)

/-- ProcessPayment from its status update on (lines 109-113). -/
def ProcessPaymentUpdate (_uc : paymentUseCase) (id : UUID) (w : World) :
    Outcome (Option GoError) × World :=
  match paymentRepository.UpdateStatus id PaymentStatusCompleted w with
  | (some err, w) =>
      (.returned (errors.Wrap (some err) "failed to update payment status"
        (usecaseFile w) 110), w)
  | (none, w) => (.returned none, w)

/-- CancelPayment up to its status check (lines 117-124). -/
def CancelPaymentCheck (_uc : paymentUseCase) (id : UUID) (w : World) :
    Option (Outcome (Option GoError)) × World :=
  match paymentRepository.GetByID id w with
  | ((_, some err), w) =>
      (some (.returned (errors.Wrap (some err) "failed to get payment" (usecaseFile w) 119)), w)
  | ((none, none), w) => (some .panicked, w)
  | ((some payment, none), w) =>
      if payment.Status != PaymentStatusPending then
        (some (.returned (some (errors.New
          ("payment status is " ++ payment.Status ++ ", cannot cancel")
          (usecaseFile w) 123))), w)
      else (none, w)

/-- CancelPayment from its status update on (lines 126-130). -/
def CancelPaymentUpdate (_uc : paymentUseCase) (id : UUID) (w : World) :
    Outcome (Option GoError) × World :=
  match paymentRepository.UpdateStatus id PaymentStatusCancelled w with
  | (some err, w) =>
      (.returned (errors.Wrap (some err) "failed to update payment status"
        (usecaseFile w) 127), w)
  | (none, w) => (.returned none, w)

/-- One interleaving of a ProcessPayment call and a CancelPayment call on the
same id, the gateway calls being the points at which a call can be suspended:
both calls run up to their status check, ProcessPayment first; then both run
their update, in the order `processUpdatesFirst` says.  A call whose check made
it return takes no further step.  The result is what ProcessPayment returned,
what CancelPayment returned, and the state. -/
def raceProcessCancel (uc : paymentUseCase) (id : UUID) (processUpdatesFirst : Bool)
    (w : World) : (Outcome (Option GoError) × Outcome (Option GoError)) × World :=
  let (checkP, w) := uc.ProcessPaymentCheck id w
  let (checkC, w) := uc.CancelPaymentCheck id w
  let updateP := fun (w : World) =>
    match checkP with
    | some r => (r, w)
    | none => uc.ProcessPaymentUpdate id w
  let updateC := fun (w : World) =>
    match checkC with
    | some r => (r, w)
    | none => uc.CancelPaymentUpdate id w
  if processUpdatesFirst then
    let (rP, w) := updateP w
    let (rC, w) := updateC w
    ((rP, rC), w)
  else
    let (rC, w) := updateC w
    let (rP, w) := updateP w
    ((rP, rC), w)

end paymentUseCase

/-- A Create or UpdateStatus call: the calls that write to the store. -/
def Call.mutating : Call → Bool
  | .PaymentCreate _ => true
  | .PaymentUpdateStatus _ _ => true
  | _ => false

/-- Two states that agree on everything but the log of gateway calls: the same
three tables, fault schedule, clock, identifier stream and source root. -/
def World.sameStore (w w' : World) : Prop :=
  w.payments = w'.payments ∧ w.merchants = w'.merchants ∧ w.customers = w'.customers ∧
    w.faults = w'.faults ∧ w.now = w'.now ∧ w.uuids = w'.uuids ∧ w.srcRoot = w'.srcRoot

instance (w w' : World) : Decidable (w.sameStore w') := by
  unfold World.sameStore
  infer_instance

/-- A second active merchant, owner of none of the sample payments. -/
def sampleOtherMerchant : Merchant :=
  { ID := 4, Name := "Other Merchant", Email := "other@example.com", APIKey := "key-4",
    IsActive := true, CreatedAt := 0, UpdatedAt := 0 }

/-- A third active merchant, owner of none of the sample payments either. -/
def sampleThirdMerchant : Merchant :=
  { ID := 5, Name := "Third Merchant", Email := "third@example.com", APIKey := "key-5",
    IsActive := true, CreatedAt := 0, UpdatedAt := 0 }

/-- The sample store with the two further active merchants added; every payment
in it belongs to merchant 1. -/
def severalMerchantWorld : World :=
  { sampleWorld with
    merchants := [sampleMerchant, sampleInactiveMerchant, sampleOtherMerchant,
      sampleThirdMerchant] }

/-! # Theorems -/

/-! ## Frame lemmas for the driver and the lookups -/

theorem World.driver_eq (w : World) :
    w.driver = (none, w) ∨
      ∃ f rest, w.faults = f :: rest ∧
        w.driver = (f.map GoError.driver, { w with faults := rest }) := by
  unfold World.driver
  cases hf : w.faults with
  | nil => left; rfl
  | cons f rest => right; exact ⟨f, rest, rfl, rfl⟩

theorem World.driver_frame (w : World) :
    w.driver.2.payments = w.payments ∧ w.driver.2.merchants = w.merchants ∧
      w.driver.2.customers = w.customers ∧ w.driver.2.calls = w.calls ∧
      w.driver.2.now = w.now ∧ w.driver.2.uuids = w.uuids ∧
      w.driver.2.srcRoot = w.srcRoot := by
  unfold World.driver
  cases w.faults <;> simp

theorem GetByID_frame (id : UUID) (w : World) :
    (paymentRepository.GetByID id w).2.payments = w.payments ∧
      (paymentRepository.GetByID id w).2.merchants = w.merchants ∧
      (paymentRepository.GetByID id w).2.customers = w.customers ∧
      (paymentRepository.GetByID id w).2.calls = w.calls ++ [.PaymentGetByID id] ∧
      (paymentRepository.GetByID id w).2.now = w.now ∧
      (paymentRepository.GetByID id w).2.uuids = w.uuids ∧
      (paymentRepository.GetByID id w).2.srcRoot = w.srcRoot := by
  have hd := World.driver_frame (w.record (.PaymentGetByID id))
  simp only [paymentRepository.GetByID]
  rcases hdr : (w.record (.PaymentGetByID id)).driver with ⟨f, w2⟩
  rw [hdr] at hd
  simp only [World.record] at hd
  cases f with
  | some err => simpa using hd
  | none =>
    simp only
    cases World.storedPayment w2 id <;> simpa using hd

theorem GetByID_found {id : UUID} {w w1 : World} {p : Payment} {e : Option GoError}
    (h : paymentRepository.GetByID id w = ((some p, e), w1)) :
    e = none ∧ w.storedPayment id = some p := by
  have hd := World.driver_frame (w.record (.PaymentGetByID id))
  simp only [paymentRepository.GetByID] at h
  rcases hdr : (w.record (.PaymentGetByID id)).driver with ⟨f, w2⟩
  rw [hdr] at h hd
  simp only [World.record] at hd
  cases f with
  | some err => simp at h
  | none =>
    simp only at h
    cases hs : World.storedPayment w2 id with
    | none => simp [hs] at h
    | some q =>
      simp [hs] at h
      obtain ⟨⟨rfl, rfl⟩, rfl⟩ := h
      refine ⟨rfl, ?_⟩
      simp only [World.storedPayment] at hs ⊢
      rw [← hd.1]; exact hs

theorem World.driver_out {w w2 : World} {f : Option GoError} (h : w.driver = (f, w2)) :
    w2.payments = w.payments ∧ w2.merchants = w.merchants ∧
      w2.customers = w.customers ∧ w2.calls = w.calls ∧
      w2.now = w.now ∧ w2.uuids = w.uuids ∧ w2.srcRoot = w.srcRoot := by
  have hd := World.driver_frame w
  rw [h] at hd
  exact hd

theorem UpdateStatus_spec (id : UUID) (st : PaymentStatus) (w : World) :
    ((paymentRepository.UpdateStatus id st w).2.merchants = w.merchants ∧
      (paymentRepository.UpdateStatus id st w).2.customers = w.customers ∧
      (paymentRepository.UpdateStatus id st w).2.calls =
        w.calls ++ [.PaymentUpdateStatus id st] ∧
      (paymentRepository.UpdateStatus id st w).2.srcRoot = w.srcRoot) ∧
    (((paymentRepository.UpdateStatus id st w).2.payments = w.payments ∧
        (paymentRepository.UpdateStatus id st w).1 ≠ none) ∨
      ∃ t, (paymentRepository.UpdateStatus id st w).2.payments =
          w.payments.map (paymentRepository.setStatus id st t
            (if st == PaymentStatusCompleted then some w.now else none))) := by
  simp only [paymentRepository.UpdateStatus]
  cases hc : (st == PaymentStatusCompleted)
  · simp only [Bool.false_eq_true, if_false]
    split
    · rename_i err w2 heq
      have hd := World.driver_out heq
      simp only [World.record, World.timeNow] at hd
      simp [errors.Wrap, hd]
    · rename_i w2 heq
      have hd := World.driver_out heq
      simp only [World.record, World.timeNow] at hd
      split
      · rename_i err w3 heq2
        have hd2 := World.driver_out heq2
        simp only at hd2
        simp only [hd2, hd, true_and, and_self]
        right; exact ⟨_, rfl⟩
      · rename_i w3 heq2
        have hd2 := World.driver_out heq2
        simp only at hd2
        split <;> (simp only [hd2, hd, true_and, and_self]; right; exact ⟨_, rfl⟩)
  · simp only [if_true]
    split
    · rename_i err w2 heq
      have hd := World.driver_out heq
      simp only [World.record, World.timeNow] at hd
      simp [errors.Wrap, hd]
    · rename_i w2 heq
      have hd := World.driver_out heq
      simp only [World.record, World.timeNow] at hd
      split
      · rename_i err w3 heq2
        have hd2 := World.driver_out heq2
        simp only at hd2
        simp only [hd2, hd, true_and, and_self]
        right; exact ⟨_, rfl⟩
      · rename_i w3 heq2
        have hd2 := World.driver_out heq2
        simp only at hd2
        split <;> (simp only [hd2, hd, true_and, and_self]; right; exact ⟨_, rfl⟩)

/-- When `UpdateStatus` reports no error the UPDATE was applied. -/
theorem UpdateStatus_ok {id : UUID} {st : PaymentStatus} {w : World}
    (h : (paymentRepository.UpdateStatus id st w).1 = none) :
    ∃ t, (paymentRepository.UpdateStatus id st w).2.payments =
      w.payments.map (paymentRepository.setStatus id st t
        (if st == PaymentStatusCompleted then some w.now else none)) := by
  rcases (UpdateStatus_spec id st w).2 with h1 | h1
  · exact absurd h h1.2
  · exact h1

theorem find_setStatus (id : UUID) (st : PaymentStatus) (u : Time) (c : Option Time)
    (l : List Payment) (p : Payment)
    (h : l.find? (fun x => x.ID == id) = some p) :
    (l.map (paymentRepository.setStatus id st u c)).find? (fun x => x.ID == id) =
      some (paymentRepository.setStatus id st u c p) := by
  induction l with
  | nil => simp at h
  | cons a l ih =>
    cases hb : (a.ID == id)
    · simp only [List.find?_cons, hb] at h
      have hb2 : ((paymentRepository.setStatus id st u c a).ID == id) = false := by
        simp only [paymentRepository.setStatus, hb, Bool.false_eq_true, if_false]
      simp only [List.map_cons, List.find?_cons, hb2]
      exact ih h
    · simp only [List.find?_cons, hb, Option.some.injEq] at h
      subst h
      have hb2 : ((paymentRepository.setStatus id st u c a).ID == id) = true := by
        simp only [paymentRepository.setStatus, hb, if_true]
      simp only [List.map_cons, List.find?_cons, hb2]

theorem World.driver_record (w : World) (c : Call) :
    (w.record c).driver.1 = w.driver.1 := by
  unfold World.driver World.record
  cases w.faults <;> rfl

theorem merchant_GetByID_frame (id : UUID) (w : World) :
    (merchantRepository.GetByID id w).2.payments = w.payments ∧
      (merchantRepository.GetByID id w).2.merchants = w.merchants ∧
      (merchantRepository.GetByID id w).2.customers = w.customers ∧
      (merchantRepository.GetByID id w).2.calls = w.calls ++ [.MerchantGetByID id] ∧
      (merchantRepository.GetByID id w).2.now = w.now ∧
      (merchantRepository.GetByID id w).2.uuids = w.uuids ∧
      (merchantRepository.GetByID id w).2.srcRoot = w.srcRoot := by
  simp only [merchantRepository.GetByID]
  split
  · rename_i err w2 heq
    simpa [World.record] using World.driver_out heq
  · rename_i w2 heq
    have hd := World.driver_out heq
    split <;> simpa [World.record] using hd

/-- A merchant that is not stored, looked up without a driver fault, is
reported by the error "merchant not found". -/
theorem merchant_GetByID_missing {id : UUID} {w : World}
    (hm : w.storedMerchant id = none) (hq : w.driver.1 = none) :
    (merchantRepository.GetByID id w).1 =
      (none, some (errors.New "merchant not found" (merchantRepoFile w) 47)) := by
  simp only [merchantRepository.GetByID]
  have hq2 : (w.record (.MerchantGetByID id)).driver.1 = none := by
    rw [World.driver_record]; exact hq
  split
  · rename_i err w2 heq
    rw [heq] at hq2
    simp at hq2
  · rename_i w2 heq
    have hd := World.driver_out heq
    have hs : w2.storedMerchant id = none := by
      simp only [World.storedMerchant] at hm ⊢
      rw [hd.2.1]; exact hm
    simp only [hs, merchantRepoFile, hd.2.2.2.2.2.2]
    rfl

theorem customer_GetByID_frame (r : customerRepositoryImpl) (id : UUID) (w : World) :
    (r.GetByID id w).2.payments = w.payments ∧
      (r.GetByID id w).2.merchants = w.merchants ∧
      (r.GetByID id w).2.customers = w.customers ∧
      (r.GetByID id w).2.calls = w.calls ++ [.CustomerGetByID id] ∧
      (r.GetByID id w).2.now = w.now ∧
      (r.GetByID id w).2.uuids = w.uuids ∧
      (r.GetByID id w).2.srcRoot = w.srcRoot := by
  simp only [customerRepositoryImpl.GetByID]
  split
  · rename_i err w2 heq
    simpa [World.record] using World.driver_out heq
  · rename_i w2 heq
    have hd := World.driver_out heq
    split <;> simpa [World.record] using hd

theorem Create_spec (p : Payment) (w : World) :
    ((paymentRepository.Create p w).2.merchants = w.merchants ∧
      (paymentRepository.Create p w).2.customers = w.customers ∧
      (paymentRepository.Create p w).2.calls = w.calls ++ [.PaymentCreate p] ∧
      (paymentRepository.Create p w).2.srcRoot = w.srcRoot) ∧
    (((paymentRepository.Create p w).2.payments = w.payments ∧
        (paymentRepository.Create p w).1 ≠ none) ∨
      ((paymentRepository.Create p w).2.payments =
          w.payments ++ [{ p with CompletedAt := none }] ∧
        (paymentRepository.Create p w).1 = none)) := by
  simp only [paymentRepository.Create]
  split
  · rename_i err w2 heq
    have hd := World.driver_out heq
    simp only [World.record] at hd
    simp [errors.Wrap, hd]
  · rename_i w2 heq
    have hd := World.driver_out heq
    simp only [World.record] at hd
    simp [hd]

theorem newPayment_frame (req : CreatePaymentRequest) (w : World) :
    (paymentUseCase.newPayment req w).2.payments = w.payments ∧
      (paymentUseCase.newPayment req w).2.merchants = w.merchants ∧
      (paymentUseCase.newPayment req w).2.customers = w.customers ∧
      (paymentUseCase.newPayment req w).2.calls = w.calls ∧
      (paymentUseCase.newPayment req w).2.srcRoot = w.srcRoot ∧
      (paymentUseCase.newPayment req w).2.faults = w.faults := by
  simp [paymentUseCase.newPayment, World.uuidNew, World.timeNow]

/-! ## The claims -/

/-- C1: when the payment gateway returns, for an id, a payment whose status S is
not pending (completed, failed, cancelled or any other text), ProcessPayment
returns an error whose message is "payment status is S, cannot process" and
CancelPayment an error whose message is "payment status is S, cannot cancel";
the lookup is the only gateway call either of them issues (no UpdateStatus),
and the table of payments, hence the stored payment and its status, is
unchanged. -/
theorem transition_refused_unless_pending (uc : paymentUseCase) (id : UUID) (w w1 : World)
    (p : Payment)
    (hget : paymentRepository.GetByID id w = ((some p, none), w1))
    (hst : p.Status ≠ PaymentStatusPending) :
    (∃ e, uc.ProcessPayment id w = (.returned (some e), w1) ∧
        e.Message = some ("payment status is " ++ p.Status ++ ", cannot process") ∧
        e.Cause = none) ∧
      (∃ e, uc.CancelPayment id w = (.returned (some e), w1) ∧
        e.Message = some ("payment status is " ++ p.Status ++ ", cannot cancel") ∧
        e.Cause = none) ∧
      w1.calls = w.calls ++ [.PaymentGetByID id] ∧
      w1.payments = w.payments ∧
      w.storedPayment id = some p ∧ w1.storedPayment id = some p := by
  have hfr := GetByID_frame id w
  have hfd := GetByID_found hget
  rw [hget] at hfr
  simp only at hfr
  refine ⟨⟨errors.New ("payment status is " ++ p.Status ++ ", cannot process")
      (usecaseFile w1) 103, ?_, rfl, rfl⟩,
    ⟨errors.New ("payment status is " ++ p.Status ++ ", cannot cancel")
      (usecaseFile w1) 123, ?_, rfl, rfl⟩, hfr.2.2.2.1, hfr.1, hfd.2, ?_⟩
  · simp [paymentUseCase.ProcessPayment, hget, hst]
  · simp [paymentUseCase.CancelPayment, hget, hst]
  · simp only [World.storedPayment] at hfd ⊢
    rw [hfr.1]; exact hfd.2

/-- C2: when the payment gateway returns a pending payment for the id and the
status update then does not fail, ProcessPayment returns no error, and the
payment stored under the id afterwards has status completed and a completion
timestamp (the clock reading taken by the update). -/
theorem process_pending_completes (uc : paymentUseCase) (id : UUID) (w w1 : World)
    (p : Payment)
    (hget : paymentRepository.GetByID id w = ((some p, none), w1))
    (hst : p.Status = PaymentStatusPending)
    (hupd : (paymentRepository.UpdateStatus id PaymentStatusCompleted w1).1 = none) :
    (uc.ProcessPayment id w).1 = .returned none ∧
      ∃ q, (uc.ProcessPayment id w).2.storedPayment id = some q ∧
        q.Status = PaymentStatusCompleted ∧ q.CompletedAt = some w1.now ∧
        q.CompletedAt ≠ none := by
  have hfr := GetByID_frame id w
  have hfd := GetByID_found hget
  rw [hget] at hfr
  simp only at hfr
  obtain ⟨t, ht⟩ := UpdateStatus_ok hupd
  have hs1 : w1.payments.find? (fun x => x.ID == id) = some p := by
    rw [hfr.1]; exact hfd.2
  have hrun : uc.ProcessPayment id w =
      (.returned none, (paymentRepository.UpdateStatus id PaymentStatusCompleted w1).2) := by
    simp only [paymentUseCase.ProcessPayment, hget, hst]
    rcases hu : paymentRepository.UpdateStatus id PaymentStatusCompleted w1 with ⟨e, w2⟩
    rw [hu] at hupd
    simp only at hupd
    subst hupd
    simp
  have hid : p.ID = id := by
    have := List.find?_some hs1
    simpa using this
  rw [hrun]
  refine ⟨rfl, paymentRepository.setStatus id PaymentStatusCompleted t (some w1.now) p,
    ?_, ?_, ?_, ?_⟩
  rotate_left
  · simp [paymentRepository.setStatus, hid]
  · simp [paymentRepository.setStatus, hid]
  · simp [paymentRepository.setStatus, hid]
  simp only [World.storedPayment, ht]
  exact find_setStatus id _ t _ _ p hs1

/-- C3: when the payment gateway returns a pending payment for the id and the
status update then does not fail, CancelPayment returns no error, and the
payment stored under the id afterwards has status cancelled and no completion
timestamp. -/
theorem cancel_pending_cancels (uc : paymentUseCase) (id : UUID) (w w1 : World)
    (p : Payment)
    (hget : paymentRepository.GetByID id w = ((some p, none), w1))
    (hst : p.Status = PaymentStatusPending)
    (hupd : (paymentRepository.UpdateStatus id PaymentStatusCancelled w1).1 = none) :
    (uc.CancelPayment id w).1 = .returned none ∧
      ∃ q, (uc.CancelPayment id w).2.storedPayment id = some q ∧
        q.Status = PaymentStatusCancelled ∧ q.CompletedAt = none := by
  have hfr := GetByID_frame id w
  have hfd := GetByID_found hget
  rw [hget] at hfr
  simp only at hfr
  obtain ⟨t, ht⟩ := UpdateStatus_ok hupd
  have hs1 : w1.payments.find? (fun x => x.ID == id) = some p := by
    rw [hfr.1]; exact hfd.2
  have hrun : uc.CancelPayment id w =
      (.returned none, (paymentRepository.UpdateStatus id PaymentStatusCancelled w1).2) := by
    simp only [paymentUseCase.CancelPayment, hget, hst]
    rcases hu : paymentRepository.UpdateStatus id PaymentStatusCancelled w1 with ⟨e, w2⟩
    rw [hu] at hupd
    simp only at hupd
    subst hupd
    simp
  have hid : p.ID = id := by
    have := List.find?_some hs1
    simpa using this
  rw [hrun]
  refine ⟨rfl, paymentRepository.setStatus id PaymentStatusCancelled t none p, ?_, ?_, ?_⟩
  rotate_left
  · simp [paymentRepository.setStatus, hid]
  · simp [paymentRepository.setStatus, hid]
  simp only [World.storedPayment, ht]
  exact find_setStatus id _ t _ _ p hs1

/-- C4: when the merchant gateway returns the request's merchant and the
merchant is inactive, CreatePayment returns no payment and the error with
message "merchant is not active"; the merchant lookup is the only gateway call
it issues (no customer lookup, no payment Create) and the table of payments is
unchanged.  Nothing is assumed about the customers stored, nor about the
customer repository the use case was built with. -/
theorem inactive_merchant_refused (uc : paymentUseCase) (req : CreatePaymentRequest)
    (w w1 : World) (m : Merchant)
    (hm : merchantRepository.GetByID req.MerchantID w = ((some m, none), w1))
    (hinactive : m.IsActive = false) :
    uc.CreatePayment req w =
        (.returned (none, some (errors.New "merchant is not active" (usecaseFile w1) 57)), w1) ∧
      (errors.New "merchant is not active" (usecaseFile w1) 57).Message =
        some "merchant is not active" ∧
      w1.calls = w.calls ++ [.MerchantGetByID req.MerchantID] ∧
      w1.payments = w.payments := by
  have hfr := merchant_GetByID_frame req.MerchantID w
  rw [hm] at hfr
  simp only at hfr
  refine ⟨?_, rfl, hfr.2.2.2.1, hfr.1⟩
  simp [paymentUseCase.CreatePayment, hm, hinactive]

theorem transition_refused_unless_pending_witness :
    paymentRepository.GetByID 7 sampleWorld =
        ((some (samplePayment 7 PaymentStatusCompleted (some 4)), none),
          sampleWorld.record (.PaymentGetByID 7)) ∧
      (samplePayment 7 PaymentStatusCompleted (some 4)).Status ≠ PaymentStatusPending ∧
      (∃ e, (NewPaymentUseCase none).ProcessPayment 7 sampleWorld =
          (.returned (some e), sampleWorld.record (.PaymentGetByID 7)) ∧
        e.Message = some ("payment status is " ++ "completed" ++ ", cannot process") ∧
        e.Cause = none) ∧
      (sampleWorld.record (.PaymentGetByID 7)).payments = sampleWorld.payments :=
  have h := transition_refused_unless_pending (NewPaymentUseCase none) 7 sampleWorld
    (sampleWorld.record (.PaymentGetByID 7)) (samplePayment 7 PaymentStatusCompleted (some 4))
    rfl (by decide)
  ⟨rfl, by decide, h.1, h.2.2.2.1⟩

theorem process_pending_completes_witness :
    paymentRepository.GetByID 8 sampleWorld =
        ((some (samplePayment 8 PaymentStatusPending none), none),
          sampleWorld.record (.PaymentGetByID 8)) ∧
      ((NewPaymentUseCase none).ProcessPayment 8 sampleWorld).1 = .returned none ∧
      ∃ q, ((NewPaymentUseCase none).ProcessPayment 8 sampleWorld).2.storedPayment 8 = some q ∧
        q.Status = PaymentStatusCompleted ∧ q.CompletedAt = some 10 ∧ q.CompletedAt ≠ none :=
  ⟨rfl, process_pending_completes (NewPaymentUseCase none) 8 sampleWorld
    (sampleWorld.record (.PaymentGetByID 8)) (samplePayment 8 PaymentStatusPending none)
    rfl rfl rfl⟩

theorem cancel_pending_cancels_witness :
    paymentRepository.GetByID 8 sampleWorld =
        ((some (samplePayment 8 PaymentStatusPending none), none),
          sampleWorld.record (.PaymentGetByID 8)) ∧
      ((NewPaymentUseCase none).CancelPayment 8 sampleWorld).1 = .returned none ∧
      ∃ q, ((NewPaymentUseCase none).CancelPayment 8 sampleWorld).2.storedPayment 8 = some q ∧
        q.Status = PaymentStatusCancelled ∧ q.CompletedAt = none :=
  ⟨rfl, cancel_pending_cancels (NewPaymentUseCase none) 8 sampleWorld
    (sampleWorld.record (.PaymentGetByID 8)) (samplePayment 8 PaymentStatusPending none)
    rfl rfl rfl⟩

theorem inactive_merchant_refused_witness :
    merchantRepository.GetByID 3 sampleWorld =
        ((some sampleInactiveMerchant, none), sampleWorld.record (.MerchantGetByID 3)) ∧
      sampleInactiveMerchant.IsActive = false ∧
      (NewPaymentUseCase none).CreatePayment { sampleRequest with MerchantID := 3, CustomerID := 99 }
          sampleWorld =
        (.returned (none, some (errors.New "merchant is not active"
          (usecaseFile (sampleWorld.record (.MerchantGetByID 3))) 57)),
          sampleWorld.record (.MerchantGetByID 3)) ∧
      (sampleWorld.record (.MerchantGetByID 3)).calls = sampleWorld.calls ++ [.MerchantGetByID 3] :=
  have h := inactive_merchant_refused (NewPaymentUseCase none)
    { sampleRequest with MerchantID := 3, CustomerID := 99 } sampleWorld
    (sampleWorld.record (.MerchantGetByID 3)) sampleInactiveMerchant rfl rfl
  ⟨rfl, rfl, h.1, h.2.2.1⟩

/-- C5: when the merchant gateway returns the request's merchant, the merchant
is active, the customer lookup returns no error and the store's Create of the
new payment does not fail, CreatePayment returns that payment and no error; the
payment has status pending, no completion timestamp, and the merchant id,
customer id, amount, currency, method, description and reference of the
request; the gateway calls issued are the merchant lookup, the customer lookup
and one Create, whose argument is the payment returned; and the row added to
the table is that payment. -/
theorem create_payment_returns_pending (uc : paymentUseCase) (repo : customerRepositoryImpl)
    (req : CreatePaymentRequest) (w w1 w2 : World) (m : Merchant) (c : Option Customer)
    (hrepo : uc.customerRepo = some repo)
    (hm : merchantRepository.GetByID req.MerchantID w = ((some m, none), w1))
    (hactive : m.IsActive = true)
    (hc : repo.GetByID req.CustomerID w1 = ((c, none), w2))
    (hcreate : (paymentRepository.Create (paymentUseCase.newPayment req w2).1
      (paymentUseCase.newPayment req w2).2).1 = none) :
    ∃ p, (uc.CreatePayment req w).1 = .returned (some p, none) ∧
      p = (paymentUseCase.newPayment req w2).1 ∧
      p.Status = PaymentStatusPending ∧ p.CompletedAt = none ∧
      p.MerchantID = req.MerchantID ∧ p.CustomerID = req.CustomerID ∧
      p.Amount = req.Amount ∧ p.Currency = req.Currency ∧ p.Method = req.Method ∧
      p.Description = req.Description ∧ p.Reference = req.Reference ∧
      (uc.CreatePayment req w).2.calls =
        w.calls ++ [.MerchantGetByID req.MerchantID, .CustomerGetByID req.CustomerID,
          .PaymentCreate p] ∧
      (uc.CreatePayment req w).2.payments = w.payments ++ [p] := by
  have hfm := merchant_GetByID_frame req.MerchantID w
  rw [hm] at hfm
  simp only at hfm
  have hfc := customer_GetByID_frame repo req.CustomerID w1
  rw [hc] at hfc
  simp only at hfc
  have hfn := newPayment_frame req w2
  have hcs := Create_spec (paymentUseCase.newPayment req w2).1 (paymentUseCase.newPayment req w2).2
  have hrun : uc.CreatePayment req w =
      (.returned (some (paymentUseCase.newPayment req w2).1, none),
        (paymentRepository.Create (paymentUseCase.newPayment req w2).1
          (paymentUseCase.newPayment req w2).2).2) := by
    simp only [paymentUseCase.CreatePayment, hm, hactive, hrepo, hc]
    rcases hn : paymentUseCase.newPayment req w2 with ⟨p, w3⟩
    rw [hn] at hcreate
    simp only at hcreate
    rcases hcr : paymentRepository.Create p w3 with ⟨e, w4⟩
    rw [hcr] at hcreate
    simp only at hcreate
    subst hcreate
    simp
  refine ⟨(paymentUseCase.newPayment req w2).1, by rw [hrun], rfl, rfl, rfl, rfl, rfl, rfl,
    rfl, rfl, rfl, rfl, ?_, ?_⟩
  · rw [hrun]
    simp only [hcs.1.2.2.1, hfn.2.2.2.1, hfc.2.2.2.1, hfm.2.2.2.1, List.append_assoc,
      List.singleton_append, List.cons_append, List.nil_append]
  · rw [hrun]
    rcases hcs.2 with h | h
    · exact absurd hcreate h.2
    · rw [h.1, hfn.1, hfc.1, hfm.1]
      rfl

theorem create_payment_returns_pending_witness :
    (NewPaymentUseCase (some {})).customerRepo = some {} ∧
      merchantRepository.GetByID sampleRequest.MerchantID sampleWorld =
        ((some sampleMerchant, none), sampleWorld.record (.MerchantGetByID 1)) ∧
      sampleMerchant.IsActive = true ∧
      ∃ p, ((NewPaymentUseCase (some {})).CreatePayment sampleRequest sampleWorld).1 =
          .returned (some p, none) ∧
        p.Status = PaymentStatusPending ∧ p.Amount = 10000 ∧
        ((NewPaymentUseCase (some {})).CreatePayment sampleRequest sampleWorld).2.payments =
          sampleWorld.payments ++ [p] :=
  have h := create_payment_returns_pending (NewPaymentUseCase (some {})) {} sampleRequest
    sampleWorld (sampleWorld.record (.MerchantGetByID 1))
    ((sampleWorld.record (.MerchantGetByID 1)).record (.CustomerGetByID 2))
    sampleMerchant (some sampleCustomer) rfl rfl rfl rfl rfl
  ⟨rfl, rfl, rfl, h.choose, h.choose_spec.1, h.choose_spec.2.2.1,
    h.choose_spec.2.2.2.2.2.2.1.trans (by rfl), h.choose_spec.2.2.2.2.2.2.2.2.2.2.2.2⟩

theorem occursIn_mid (a needle b : String) : occursIn needle (a ++ needle ++ b) := by
  unfold occursIn
  refine ⟨a.toList, b.toList, ?_⟩
  simp [String.toList, String.data_append]

/-- C6: when no merchant is stored under the request's merchant id (and the
lookup query itself runs), CreatePayment returns no payment and an error that
wraps, as its cause, the domain error with message "merchant not found"; the
text of the returned error contains "merchant not found".  The merchant lookup
is the only gateway call issued: no customer lookup and no payment Create,
whatever customers are stored and whatever customer repository the use case
was built with; the table of payments is unchanged. -/
theorem missing_merchant_refused (uc : paymentUseCase) (req : CreatePaymentRequest)
    (w : World)
    (hm : w.storedMerchant req.MerchantID = none)
    (hq : w.driver.1 = none) :
    ∃ e d, (uc.CreatePayment req w).1 = .returned (none, some e) ∧
      e.Message = some "failed to get merchant" ∧
      e.Cause = some d ∧ d.Message = some "merchant not found" ∧ d.Cause = none ∧
      occursIn "merchant not found" e.Error ∧
      (uc.CreatePayment req w).2.calls = w.calls ++ [.MerchantGetByID req.MerchantID] ∧
      (uc.CreatePayment req w).2.payments = w.payments := by
  have hfm := merchant_GetByID_frame req.MerchantID w
  have hmiss := merchant_GetByID_missing hm hq
  rcases hg : merchantRepository.GetByID req.MerchantID w with ⟨r, w1⟩
  rw [hg] at hfm hmiss
  simp only at hfm hmiss
  subst hmiss
  have hrun : uc.CreatePayment req w =
      (.returned (none, some (.AppError "failed to get merchant" ""
        (some (errors.New "merchant not found" (merchantRepoFile w) 47)) (usecaseFile w1) 54)),
        w1) := by
    simp [paymentUseCase.CreatePayment, hg, errors.Wrap]
  rw [hrun]
  refine ⟨_, _, rfl, rfl, rfl, rfl, rfl, ?_, hfm.2.2.2.1, hfm.1⟩
  simp only [GoError.Error, errors.New]
  have := occursIn_mid "failed to get merchant: " "merchant not found"
    (" (at " ++ merchantRepoFile w ++ ":" ++ toString 47 ++ ")" ++ " (at " ++ usecaseFile w1 ++
      ":" ++ toString 54 ++ ")")
  simpa [String.append_assoc] using this

theorem missing_merchant_refused_witness :
    sampleWorld.storedMerchant 44 = none ∧ sampleWorld.driver.1 = none ∧
      ∃ e d, ((NewPaymentUseCase none).CreatePayment { sampleRequest with MerchantID := 44 }
          sampleWorld).1 = .returned (none, some e) ∧
        e.Message = some "failed to get merchant" ∧
        e.Cause = some d ∧ d.Message = some "merchant not found" ∧ d.Cause = none ∧
        occursIn "merchant not found" e.Error ∧
        ((NewPaymentUseCase none).CreatePayment { sampleRequest with MerchantID := 44 }
          sampleWorld).2.calls = sampleWorld.calls ++ [.MerchantGetByID 44] ∧
        ((NewPaymentUseCase none).CreatePayment { sampleRequest with MerchantID := 44 }
          sampleWorld).2.payments = sampleWorld.payments :=
  ⟨rfl, rfl, missing_merchant_refused (NewPaymentUseCase none)
    { sampleRequest with MerchantID := 44 } sampleWorld rfl rfl⟩

set_option maxRecDepth 20000 in
/-- C7 on the code: for a request whose merchant is stored and active and whose
customer is not stored, CreatePayment returns no payment and issues no Create,
but the error it returns wraps `sql.ErrNoRows` as it came from the customer
repository: its text is "failed to get customer: sql: no rows in result set
(at ...)" and does not contain "customer not found". -/
theorem missing_customer_error_text :
    sampleWorld.storedMerchant 1 = some sampleMerchant ∧ sampleMerchant.IsActive = true ∧
      sampleWorld.storedCustomer 99 = none ∧
      ∃ e, (NewPaymentUseCase (some {})).CreatePayment { sampleRequest with CustomerID := 99 }
          sampleWorld =
          (.returned (none, some e),
            (sampleWorld.record (.MerchantGetByID 1)).record (.CustomerGetByID 99)) ∧
        e.Message = some "failed to get customer" ∧ e.Cause = some .ErrNoRows ∧
        e.Error = "failed to get customer: sql: no rows in result set (at /app/internal/domain/usecase/payment_usecase.go:63)" ∧
        ¬ occursIn "customer not found" e.Error :=
  ⟨rfl, rfl, rfl, _, rfl, rfl, rfl, rfl, by decide⟩

theorem CreatePayment_effect (uc : paymentUseCase) (req : CreatePaymentRequest) (w : World) :
    (uc.CreatePayment req w).2.payments = w.payments ∨
      ∃ p, (uc.CreatePayment req w).2.payments = w.payments ++ [p] ∧
        (uc.CreatePayment req w).1 = .returned (some p, none) ∧
        p.Status = PaymentStatusPending ∧ p.CompletedAt = none ∧
        p.MerchantID = req.MerchantID ∧ p.CustomerID = req.CustomerID ∧
        p.Amount = req.Amount ∧ p.Currency = req.Currency ∧ p.Method = req.Method := by
  have hfm := merchant_GetByID_frame req.MerchantID w
  simp only [paymentUseCase.CreatePayment]
  rcases hg : merchantRepository.GetByID req.MerchantID w with ⟨⟨m, e⟩, w1⟩
  rw [hg] at hfm
  simp only at hfm
  cases e with
  | some err => left; simpa using hfm.1
  | none =>
    cases m with
    | none => left; simpa using hfm.1
    | some m =>
      simp only
      cases hact : m.IsActive with
      | false => left; simpa using hfm.1
      | true =>
        simp only [Bool.not_true, Bool.false_eq_true, if_false]
        cases hr : uc.customerRepo with
        | none => left; simpa using hfm.1
        | some repo =>
          simp only
          have hfc := customer_GetByID_frame repo req.CustomerID w1
          rcases hcg : repo.GetByID req.CustomerID w1 with ⟨⟨c, e2⟩, w2⟩
          rw [hcg] at hfc
          simp only at hfc
          cases e2 with
          | some err => left; simp [hfc.1, hfm.1]
          | none =>
            simp only
            have hfn := newPayment_frame req w2
            have hcs := Create_spec (paymentUseCase.newPayment req w2).1
              (paymentUseCase.newPayment req w2).2
            rcases hn : paymentUseCase.newPayment req w2 with ⟨p, w3⟩
            have hp : p = (paymentUseCase.newPayment req w2).1 := by rw [hn]
            rw [hn] at hfn hcs
            simp only at hfn hcs
            rcases hcr : paymentRepository.Create p w3 with ⟨e3, w4⟩
            rw [hcr] at hcs
            simp only at hcs
            rcases hcs.2 with h | h
            · left
              cases e3 with
              | none => exact absurd rfl h.2
              | some err => simp [errors.Wrap, h.1, hfn.1, hfc.1, hfm.1]
            · right
              obtain ⟨h1, h2⟩ := h
              subst h2
              refine ⟨p, ?_, rfl, ?_⟩
              · simp only [h1, hfn.1, hfc.1, hfm.1]
                rw [hp]; rfl
              · rw [hp]; exact ⟨rfl, rfl, rfl, rfl, rfl, rfl, rfl⟩

set_option maxRecDepth 20000 in
/-- C8 fails as stated: the request of the use-case test with method "cash",
which is none of credit_card, bank_transfer, digital_wallet, passes the
create-payment boundary (it satisfies every rule the request struct declares,
under the tag key gin reads and under the key the source writes), is answered
201 and is persisted with method "cash". -/
theorem unlisted_method_is_persisted :
    ("cash" ≠ PaymentMethodCreditCard ∧ "cash" ≠ PaymentMethodBankTransfer ∧
        "cash" ≠ PaymentMethodDigitalWallet) ∧
      validateStruct "validate" { sampleRequest with Method := "cash" } = true ∧
      ShouldBindJSON (.ok { sampleRequest with Method := "cash" }) =
        .ok { sampleRequest with Method := "cash" } ∧
      ∃ p, ((NewPaymentHandler (NewPaymentUseCase (some {}))).CreatePayment
            (.ok { sampleRequest with Method := "cash" }) sampleWorld).1 =
          .returned (JSON 201 true (.payment p) "Payment created successfully" "") ∧
        p.Method = "cash" ∧
        ((NewPaymentHandler (NewPaymentUseCase (some {}))).CreatePayment
            (.ok { sampleRequest with Method := "cash" }) sampleWorld).2.payments =
          sampleWorld.payments ++ [p] :=
  ⟨by decide, by decide, rfl, _, rfl, rfl, rfl⟩

/-- C8 as amended: a body that does not bind is answered 400 with the state
untouched (no gateway call, nothing persisted); a body that binds to a request
is handed to CreatePayment as it is, the state the handler leaves is the one
CreatePayment leaves, and the table of payments is either unchanged or has
gained exactly one row, which carries the amount, the currency and the method
of the request, whatever they are, with status pending. -/
theorem boundary_persists_the_bound_request (h : PaymentHandler)
    (decoded : Except String CreatePaymentRequest) (w : World) :
    match ShouldBindJSON decoded with
    | .error err =>
        h.CreatePayment decoded w =
          (.returned (JSON 400 false .absent "" ("Invalid request body: " ++ err)), w)
    | .ok req =>
        (h.CreatePayment decoded w).2 = (h.paymentUseCase.CreatePayment req w).2 ∧
          ((h.CreatePayment decoded w).2.payments = w.payments ∨
            ∃ p, (h.CreatePayment decoded w).2.payments = w.payments ++ [p] ∧
              p.Amount = req.Amount ∧ p.Currency = req.Currency ∧ p.Method = req.Method ∧
              p.Status = PaymentStatusPending) := by
  cases hb : ShouldBindJSON decoded with
  | error err => simp [PaymentHandler.CreatePayment, hb]
  | ok req =>
    have hrun : (h.CreatePayment decoded w).2 = (h.paymentUseCase.CreatePayment req w).2 := by
      simp only [PaymentHandler.CreatePayment, hb]
      rcases h.paymentUseCase.CreatePayment req w with ⟨o, w1⟩
      cases o with
      | panicked => rfl
      | returned r =>
        rcases r with ⟨pay, e⟩
        cases e <;> rfl
    refine ⟨hrun, ?_⟩
    rw [hrun]
    rcases CreatePayment_effect h.paymentUseCase req w with he | ⟨p, he⟩
    · left; exact he
    · right; exact ⟨p, he.1, he.2.2.2.2.2.2.1, he.2.2.2.2.2.2.2.1, he.2.2.2.2.2.2.2.2, he.2.2.1⟩

theorem GetByMerchantID_frame (mid : UUID) (limit offset : Int) (w : World) :
    (paymentRepository.GetByMerchantID mid limit offset w).2.payments = w.payments := by
  simp only [paymentRepository.GetByMerchantID]
  split
  · rename_i err w2 heq
    simpa [World.record] using (World.driver_out heq).1
  · rename_i w2 heq
    have hd := World.driver_out heq
    simp only [World.record] at hd
    split
    · exact hd.1
    · split <;> exact hd.1

theorem GetPayment_effect (uc : paymentUseCase) (id : UUID) (w : World) :
    (uc.GetPayment id w).2.payments = w.payments := by
  have hf := GetByID_frame id w
  simp only [paymentUseCase.GetPayment]
  rcases hg : paymentRepository.GetByID id w with ⟨⟨p, e⟩, w1⟩
  rw [hg] at hf
  cases e <;> exact hf.1

theorem GetMerchantPayments_effect (uc : paymentUseCase) (mid : UUID) (limit offset : Int)
    (w : World) : (uc.GetMerchantPayments mid limit offset w).2.payments = w.payments := by
  have hf := GetByMerchantID_frame mid limit offset w
  simp only [paymentUseCase.GetMerchantPayments]
  rcases hg : paymentRepository.GetByMerchantID mid limit offset w with ⟨⟨p, e⟩, w1⟩
  rw [hg] at hf
  cases e <;> exact hf

/-- What ProcessPayment may do to the table: nothing, or, when the payment
stored under the id is pending, the UPDATE to completed with a completion time. -/
theorem ProcessPayment_effect (uc : paymentUseCase) (id : UUID) (w : World) :
    (uc.ProcessPayment id w).2.payments = w.payments ∨
      ∃ p t c, w.storedPayment id = some p ∧ p.Status = PaymentStatusPending ∧
        (uc.ProcessPayment id w).2.payments =
          w.payments.map (paymentRepository.setStatus id PaymentStatusCompleted t (some c)) := by
  have hf := GetByID_frame id w
  simp only [paymentUseCase.ProcessPayment]
  rcases hg : paymentRepository.GetByID id w with ⟨⟨p, e⟩, w1⟩
  rw [hg] at hf
  simp only at hf
  cases e with
  | some err => left; cases p <;> exact hf.1
  | none =>
    cases p with
    | none => left; exact hf.1
    | some p =>
      have hfd := GetByID_found hg
      simp only
      by_cases hst : p.Status = PaymentStatusPending
      · simp only [hst, bne_self_eq_false, Bool.false_eq_true, if_false]
        have hu := UpdateStatus_spec id PaymentStatusCompleted w1
        rcases hus : paymentRepository.UpdateStatus id PaymentStatusCompleted w1 with ⟨e2, w2⟩
        rw [hus] at hu
        simp only at hu
        rcases hu.2 with h | ⟨t, h⟩
        · left
          cases e2 <;> simp [h.1, hf.1]
        · right
          refine ⟨p, t, w1.now, hfd.2, hst, ?_⟩
          have h' : w2.payments = w.payments.map
              (paymentRepository.setStatus id PaymentStatusCompleted t (some w1.now)) := by
            rw [h, hf.1]; simp
          cases e2 <;> exact h'
      · left
        have : (p.Status != PaymentStatusPending) = true := by simpa using hst
        simp only [this, if_true]
        exact hf.1

/-- What CancelPayment may do to the table: nothing, or, when the payment
stored under the id is pending, the UPDATE to cancelled with no completion time. -/
theorem CancelPayment_effect (uc : paymentUseCase) (id : UUID) (w : World) :
    (uc.CancelPayment id w).2.payments = w.payments ∨
      ∃ p t, w.storedPayment id = some p ∧ p.Status = PaymentStatusPending ∧
        (uc.CancelPayment id w).2.payments =
          w.payments.map (paymentRepository.setStatus id PaymentStatusCancelled t none) := by
  have hf := GetByID_frame id w
  simp only [paymentUseCase.CancelPayment]
  rcases hg : paymentRepository.GetByID id w with ⟨⟨p, e⟩, w1⟩
  rw [hg] at hf
  simp only at hf
  cases e with
  | some err => left; cases p <;> exact hf.1
  | none =>
    cases p with
    | none => left; exact hf.1
    | some p =>
      have hfd := GetByID_found hg
      simp only
      by_cases hst : p.Status = PaymentStatusPending
      · simp only [hst, bne_self_eq_false, Bool.false_eq_true, if_false]
        have hu := UpdateStatus_spec id PaymentStatusCancelled w1
        rcases hus : paymentRepository.UpdateStatus id PaymentStatusCancelled w1 with ⟨e2, w2⟩
        rw [hus] at hu
        simp only at hu
        rcases hu.2 with h | ⟨t, h⟩
        · left
          cases e2 <;> simp [h.1, hf.1]
        · right
          refine ⟨p, t, hfd.2, hst, ?_⟩
          have h' : w2.payments = w.payments.map
              (paymentRepository.setStatus id PaymentStatusCancelled t none) := by
            rw [h, hf.1]
            simp [PaymentStatusCancelled, PaymentStatusCompleted]
          cases e2 <;> exact h'
      · left
        have : (p.Status != PaymentStatusPending) = true := by simpa using hst
        simp only [this, if_true]
        exact hf.1

theorem setStatus_ID (id : UUID) (st : PaymentStatus) (u : Time) (c : Option Time)
    (p : Payment) : (paymentRepository.setStatus id st u c p).ID = p.ID := by
  unfold paymentRepository.setStatus
  split <;> rfl

theorem find_map_setStatus (id0 id : UUID) (st : PaymentStatus) (u : Time) (c : Option Time)
    (l : List Payment) :
    (l.map (paymentRepository.setStatus id0 st u c)).find? (fun x => x.ID == id) =
      (l.find? (fun x => x.ID == id)).map (paymentRepository.setStatus id0 st u c) := by
  induction l with
  | nil => rfl
  | cons a l ih =>
    simp only [List.map_cons, List.find?_cons, setStatus_ID]
    cases (a.ID == id)
    · simpa using ih
    · rfl

/-- The invariant on completion survives the UPDATE of `UpdateStatus`, whatever
the new status: the completion time written is non-nil exactly for completed. -/
theorem consistent_map_setStatus (id : UUID) (st : PaymentStatus) (u : Time)
    (c : Option Time) (hc : c ≠ none ↔ st = PaymentStatusCompleted) (l : List Payment)
    (h : ∀ p ∈ l, p.CompletedAt ≠ none ↔ p.Status = PaymentStatusCompleted) :
    ∀ p ∈ l.map (paymentRepository.setStatus id st u c),
      p.CompletedAt ≠ none ↔ p.Status = PaymentStatusCompleted := by
  intro q hq
  obtain ⟨p, hp, rfl⟩ := List.mem_map.1 hq
  unfold paymentRepository.setStatus
  split
  · exact hc
  · exact h p hp

/-- C9: if every row of the table of payments has a completion timestamp
exactly when its status is completed, the same holds after any one core
operation (CreatePayment, GetPayment, ProcessPayment, CancelPayment,
GetMerchantPayments), whether it returned a value, returned an error or did not
return, and hence after any sequence of them. -/
theorem completion_timestamp_invariant (uc : paymentUseCase) (w : World)
    (h : w.completionConsistent) :
    (∀ op, (uc.step op w).completionConsistent) ∧
      ∀ ops, (uc.run ops w).completionConsistent := by
  have hstep : ∀ (w : World), w.completionConsistent →
      ∀ op, (uc.step op w).completionConsistent := by
    intro w h op
    unfold World.completionConsistent at h ⊢
    cases op with
    | CreatePayment req =>
      simp only [paymentUseCase.step]
      rcases CreatePayment_effect uc req w with he | ⟨p, he⟩
      · rw [he]; exact h
      · rw [he.1]
        intro q hq
        rcases List.mem_append.1 hq with hq | hq
        · exact h q hq
        · have hqp : q = p := by simpa using hq
          subst hqp
          rw [he.2.2.1, he.2.2.2.1]
          simp [PaymentStatusPending, PaymentStatusCompleted]
    | GetPayment id =>
      simp only [paymentUseCase.step, GetPayment_effect]
      exact h
    | ProcessPayment id =>
      simp only [paymentUseCase.step]
      rcases ProcessPayment_effect uc id w with he | ⟨p, t, c, _, _, he⟩
      · rw [he]; exact h
      · rw [he]
        exact consistent_map_setStatus id _ t _ (by simp) _ h
    | CancelPayment id =>
      simp only [paymentUseCase.step]
      rcases CancelPayment_effect uc id w with he | ⟨p, t, _, _, he⟩
      · rw [he]; exact h
      · rw [he]
        exact consistent_map_setStatus id _ t _
          (by simp [PaymentStatusCancelled, PaymentStatusCompleted]) _ h
    | GetMerchantPayments mid limit offset =>
      simp only [paymentUseCase.step, GetMerchantPayments_effect]
      exact h
  refine ⟨hstep w h, ?_⟩
  intro ops
  induction ops generalizing w with
  | nil => exact h
  | cons op ops ih => exact ih (uc.step op w) (hstep w h op)

theorem completion_timestamp_invariant_witness :
    sampleWorld.completionConsistent ∧
      ((NewPaymentUseCase (some {})).step (.ProcessPayment 8) sampleWorld).completionConsistent ∧
      ((NewPaymentUseCase (some {})).run
        [.CreatePayment sampleRequest, .CancelPayment 50, .ProcessPayment 8, .GetPayment 7]
        sampleWorld).completionConsistent :=
  have h := completion_timestamp_invariant (NewPaymentUseCase (some {})) sampleWorld
    (by decide)
  ⟨by decide, h.1 _, h.2 _⟩

theorem allowedChange_trans {a b c : PaymentStatus} (h1 : allowedChange a b)
    (h2 : allowedChange b c) : allowedChange a c := by
  unfold allowedChange at *
  rcases h1 with h1 | ⟨ha, h1⟩
  · subst h1; exact h2
  · rcases h2 with h2 | ⟨hb, _⟩
    · subst h2; right; exact ⟨ha, h1⟩
    · exfalso
      rcases h1 with h1 | h1 <;>
        (rw [h1] at hb; revert hb;
         simp [PaymentStatusPending, PaymentStatusCompleted, PaymentStatusCancelled])

/-- One core operation changes the status of the payment stored under an id
along an allowed edge only, and never removes the payment. -/
theorem step_status (uc : paymentUseCase) (op : Op) (w : World) (id : UUID) (p : Payment)
    (hp : w.storedPayment id = some p) :
    ∃ q, (uc.step op w).storedPayment id = some q ∧ allowedChange p.Status q.Status := by
  have hsame : ∀ w2 : World, w2.payments = w.payments →
      ∃ q, w2.storedPayment id = some q ∧ allowedChange p.Status q.Status := by
    intro w2 h2
    refine ⟨p, ?_, Or.inl rfl⟩
    simp only [World.storedPayment] at hp ⊢
    rw [h2]; exact hp
  have hmap : ∀ (w2 : World) (id0 : UUID) (st : PaymentStatus) (t : Time) (c : Option Time)
      (p0 : Payment), w.storedPayment id0 = some p0 → p0.Status = PaymentStatusPending →
      (st = PaymentStatusCompleted ∨ st = PaymentStatusCancelled) →
      w2.payments = w.payments.map (paymentRepository.setStatus id0 st t c) →
      ∃ q, w2.storedPayment id = some q ∧ allowedChange p.Status q.Status := by
    intro w2 id0 st t c p0 h0 hpend hst h2
    refine ⟨paymentRepository.setStatus id0 st t c p, ?_, ?_⟩
    · simp only [World.storedPayment] at hp ⊢
      rw [h2, find_map_setStatus, hp]; rfl
    · have hid : p.ID = id := by
        have := List.find?_some hp
        simpa using this
      by_cases h : p.ID = id0
      · have hidd : id = id0 := hid.symm.trans h
        subst hidd
        have hpp : p0 = p := by
          rw [hp] at h0
          exact (Option.some.inj h0).symm
        subst hpp
        right
        refine ⟨hpend, ?_⟩
        simpa [paymentRepository.setStatus, h] using hst
      · left
        simp [paymentRepository.setStatus, h]
  cases op with
  | CreatePayment req =>
    simp only [paymentUseCase.step]
    rcases CreatePayment_effect uc req w with he | ⟨x, he⟩
    · exact hsame _ he
    · refine ⟨p, ?_, Or.inl rfl⟩
      simp only [World.storedPayment] at hp ⊢
      rw [he.1, List.find?_append, hp]; rfl
  | GetPayment id1 =>
    simp only [paymentUseCase.step]
    exact hsame _ (GetPayment_effect uc id1 w)
  | ProcessPayment id0 =>
    simp only [paymentUseCase.step]
    rcases ProcessPayment_effect uc id0 w with he | ⟨p0, t, c, h0, hpend, he⟩
    · exact hsame _ he
    · exact hmap _ id0 _ t _ p0 h0 hpend (Or.inl rfl) he
  | CancelPayment id0 =>
    simp only [paymentUseCase.step]
    rcases CancelPayment_effect uc id0 w with he | ⟨p0, t, h0, hpend, he⟩
    · exact hsame _ he
    · exact hmap _ id0 _ t _ p0 h0 hpend (Or.inr rfl) he
  | GetMerchantPayments mid limit offset =>
    simp only [paymentUseCase.step]
    exact hsame _ (GetMerchantPayments_effect uc mid limit offset w)

theorem run_status (uc : paymentUseCase) (ops : List Op) (w : World) (id : UUID) (p : Payment)
    (hp : w.storedPayment id = some p) :
    ∃ q, (uc.run ops w).storedPayment id = some q ∧ allowedChange p.Status q.Status := by
  induction ops generalizing w p with
  | nil => exact ⟨p, hp, Or.inl rfl⟩
  | cons op ops ih =>
    obtain ⟨q, hq, hpq⟩ := step_status uc op w id p hp
    obtain ⟨r, hr, hqr⟩ := ih (uc.step op w) q hq
    exact ⟨r, hr, allowedChange_trans hpq hqr⟩

theorem run_append (uc : paymentUseCase) (xs ys : List Op) (w : World) :
    uc.run (xs ++ ys) w = uc.run ys (uc.run xs w) := by
  simp [paymentUseCase.run, List.foldl_append]

/-- C10: take any sequence of core operations run on a store, split at any
point into what was executed so far and what follows.  If a payment is stored
under an id at that point with status S, then after the rest of the sequence,
however long, a payment is still stored under the id and its status is S, or S
was pending and the status is now completed or cancelled.  In particular a
status completed, cancelled or failed is kept for the rest of the sequence. -/
theorem terminal_states_absorbing (uc : paymentUseCase) (sofar rest : List Op) (w : World)
    (id : UUID) (p : Payment)
    (hp : (uc.run sofar w).storedPayment id = some p) :
    ∃ q, (uc.run (sofar ++ rest) w).storedPayment id = some q ∧
      (q.Status = p.Status ∨
        (p.Status = PaymentStatusPending ∧
          (q.Status = PaymentStatusCompleted ∨ q.Status = PaymentStatusCancelled))) ∧
      (p.Status = PaymentStatusCompleted ∨ p.Status = PaymentStatusCancelled ∨
        p.Status = PaymentStatusFailed → q.Status = p.Status) := by
  rw [run_append]
  obtain ⟨q, hq, hpq⟩ := run_status uc rest (uc.run sofar w) id p hp
  refine ⟨q, hq, hpq, ?_⟩
  intro hterm
  rcases hpq with h | ⟨hpend, _⟩
  · exact h
  · exfalso
    rcases hterm with h | h | h <;>
      (rw [h] at hpend; revert hpend;
       simp [PaymentStatusPending, PaymentStatusCompleted, PaymentStatusCancelled,
         PaymentStatusFailed])

theorem terminal_states_absorbing_witness :
    ((NewPaymentUseCase (some {})).run [.ProcessPayment 8] sampleWorld).storedPayment 8 =
        some { samplePayment 8 PaymentStatusCompleted (some 10) with UpdatedAt := 11 } ∧
      ∃ q, ((NewPaymentUseCase (some {})).run
          ([.ProcessPayment 8] ++ [.CancelPayment 8, .ProcessPayment 8,
            .CreatePayment sampleRequest]) sampleWorld).storedPayment 8 = some q ∧
        q.Status = PaymentStatusCompleted :=
  have h := terminal_states_absorbing (NewPaymentUseCase (some {})) [.ProcessPayment 8]
    [.CancelPayment 8, .ProcessPayment 8, .CreatePayment sampleRequest] sampleWorld 8
    { samplePayment 8 PaymentStatusCompleted (some 10) with UpdatedAt := 11 } rfl
  ⟨rfl, h.choose, h.choose_spec.1, h.choose_spec.2.2 (Or.inl rfl)⟩

/-- The validation rules of the request struct are not the ones gin applies:
a request with amount -5 and a two-letter currency violates the rules written
under the key `validate`, yet `ShouldBindJSON`, which reads the key `binding`,
accepts it. -/
theorem nonpositive_amount_binds :
    validateStruct "validate" { sampleRequest with Amount := -5, Currency := "US" } = false ∧
      ShouldBindJSON (.ok { sampleRequest with Amount := -5, Currency := "US" }) =
        .ok { sampleRequest with Amount := -5, Currency := "US" } :=
  ⟨by decide, rfl⟩

/-! ## Case analyses of the operations -/

theorem GetByID_not_nil {id : UUID} {w w1 : World}
    (h : paymentRepository.GetByID id w = ((none, none), w1)) : False := by
  simp only [paymentRepository.GetByID] at h
  split at h
  · simp [errors.Wrap] at h
  · split at h <;> simp at h

theorem merchant_GetByID_not_nil {id : UUID} {w w1 : World}
    (h : merchantRepository.GetByID id w = ((none, none), w1)) : False := by
  simp only [merchantRepository.GetByID] at h
  split at h
  · simp [errors.Wrap] at h
  · split at h <;> simp at h

/-- The three ways ProcessPayment ends: the lookup failed, the payment is not
pending, or the status update was issued and its result returned. -/
theorem ProcessPayment_cases (uc : paymentUseCase) (id : UUID) (w : World) :
    (∃ x e w1, paymentRepository.GetByID id w = ((x, some e), w1) ∧
        uc.ProcessPayment id w =
          (.returned (errors.Wrap (some e) "failed to get payment" (usecaseFile w1) 99), w1)) ∨
      (∃ p w1, paymentRepository.GetByID id w = ((some p, none), w1) ∧
        p.Status ≠ PaymentStatusPending ∧
        uc.ProcessPayment id w =
          (.returned (some (errors.New
            ("payment status is " ++ p.Status ++ ", cannot process") (usecaseFile w1) 103)),
            w1)) ∨
      (∃ p w1, paymentRepository.GetByID id w = ((some p, none), w1) ∧
        p.Status = PaymentStatusPending ∧
        uc.ProcessPayment id w =
          (.returned (errors.Wrap (paymentRepository.UpdateStatus id PaymentStatusCompleted w1).1
            "failed to update payment status"
            (usecaseFile (paymentRepository.UpdateStatus id PaymentStatusCompleted w1).2) 110),
            (paymentRepository.UpdateStatus id PaymentStatusCompleted w1).2)) := by
  rcases hg : paymentRepository.GetByID id w with ⟨⟨p, e⟩, w1⟩
  cases e with
  | some e =>
    left
    refine ⟨p, e, w1, rfl, ?_⟩
    cases p <;> simp [paymentUseCase.ProcessPayment, hg]
  | none =>
    cases p with
    | none => exact absurd hg (fun h => GetByID_not_nil h)
    | some p =>
      right
      by_cases hst : p.Status = PaymentStatusPending
      · right
        refine ⟨p, w1, rfl, hst, ?_⟩
        simp only [paymentUseCase.ProcessPayment, hg, hst, bne_self_eq_false,
          Bool.false_eq_true, if_false]
        rcases paymentRepository.UpdateStatus id PaymentStatusCompleted w1 with ⟨e2, w2⟩
        cases e2 <;> rfl
      · left
        refine ⟨p, w1, rfl, hst, ?_⟩
        simp [paymentUseCase.ProcessPayment, hg, hst]

/-- The three ways CancelPayment ends. -/
theorem CancelPayment_cases (uc : paymentUseCase) (id : UUID) (w : World) :
    (∃ x e w1, paymentRepository.GetByID id w = ((x, some e), w1) ∧
        uc.CancelPayment id w =
          (.returned (errors.Wrap (some e) "failed to get payment" (usecaseFile w1) 119), w1)) ∨
      (∃ p w1, paymentRepository.GetByID id w = ((some p, none), w1) ∧
        p.Status ≠ PaymentStatusPending ∧
        uc.CancelPayment id w =
          (.returned (some (errors.New
            ("payment status is " ++ p.Status ++ ", cannot cancel") (usecaseFile w1) 123)),
            w1)) ∨
      (∃ p w1, paymentRepository.GetByID id w = ((some p, none), w1) ∧
        p.Status = PaymentStatusPending ∧
        uc.CancelPayment id w =
          (.returned (errors.Wrap (paymentRepository.UpdateStatus id PaymentStatusCancelled w1).1
            "failed to update payment status"
            (usecaseFile (paymentRepository.UpdateStatus id PaymentStatusCancelled w1).2) 127),
            (paymentRepository.UpdateStatus id PaymentStatusCancelled w1).2)) := by
  rcases hg : paymentRepository.GetByID id w with ⟨⟨p, e⟩, w1⟩
  cases e with
  | some e =>
    left
    refine ⟨p, e, w1, rfl, ?_⟩
    cases p <;> simp [paymentUseCase.CancelPayment, hg]
  | none =>
    cases p with
    | none => exact absurd hg (fun h => GetByID_not_nil h)
    | some p =>
      right
      by_cases hst : p.Status = PaymentStatusPending
      · right
        refine ⟨p, w1, rfl, hst, ?_⟩
        simp only [paymentUseCase.CancelPayment, hg, hst, bne_self_eq_false,
          Bool.false_eq_true, if_false]
        rcases paymentRepository.UpdateStatus id PaymentStatusCancelled w1 with ⟨e2, w2⟩
        cases e2 <;> rfl
      · left
        refine ⟨p, w1, rfl, hst, ?_⟩
        simp [paymentUseCase.CancelPayment, hg, hst]

/-- The ways CreatePayment ends: the merchant lookup failed; the merchant is
inactive; the customer repository is nil; the customer lookup failed; or the
Create was issued, and either failed or succeeded. -/
theorem CreatePayment_cases (uc : paymentUseCase) (req : CreatePaymentRequest) (w : World) :
    (∃ x e w1, merchantRepository.GetByID req.MerchantID w = ((x, some e), w1) ∧
        uc.CreatePayment req w =
          (.returned (none, errors.Wrap (some e) "failed to get merchant" (usecaseFile w1) 54),
            w1)) ∨
      (∃ m w1, merchantRepository.GetByID req.MerchantID w = ((some m, none), w1) ∧
        m.IsActive = false ∧
        uc.CreatePayment req w =
          (.returned (none, some (errors.New "merchant is not active" (usecaseFile w1) 57)),
            w1)) ∨
      (∃ m w1, merchantRepository.GetByID req.MerchantID w = ((some m, none), w1) ∧
        m.IsActive = true ∧ uc.customerRepo = none ∧
        uc.CreatePayment req w = (.panicked, w1)) ∨
      (∃ m w1 repo x e w2, merchantRepository.GetByID req.MerchantID w = ((some m, none), w1) ∧
        m.IsActive = true ∧ uc.customerRepo = some repo ∧
        repo.GetByID req.CustomerID w1 = ((x, some e), w2) ∧
        uc.CreatePayment req w =
          (.returned (none, errors.Wrap (some e) "failed to get customer" (usecaseFile w2) 63),
            w2)) ∨
      (∃ m w1 repo x w2, merchantRepository.GetByID req.MerchantID w = ((some m, none), w1) ∧
        m.IsActive = true ∧ uc.customerRepo = some repo ∧
        repo.GetByID req.CustomerID w1 = ((x, none), w2) ∧
        ((∃ e, (paymentRepository.Create (paymentUseCase.newPayment req w2).1
              (paymentUseCase.newPayment req w2).2).1 = some e ∧
            uc.CreatePayment req w =
              (.returned (none, errors.Wrap (some e) "failed to create payment"
                (usecaseFile (paymentRepository.Create (paymentUseCase.newPayment req w2).1
                  (paymentUseCase.newPayment req w2).2).2) 82),
                (paymentRepository.Create (paymentUseCase.newPayment req w2).1
                  (paymentUseCase.newPayment req w2).2).2)) ∨
          ((paymentRepository.Create (paymentUseCase.newPayment req w2).1
              (paymentUseCase.newPayment req w2).2).1 = none ∧
            uc.CreatePayment req w =
              (.returned (some (paymentUseCase.newPayment req w2).1, none),
                (paymentRepository.Create (paymentUseCase.newPayment req w2).1
                  (paymentUseCase.newPayment req w2).2).2)))) := by
  rcases hg : merchantRepository.GetByID req.MerchantID w with ⟨⟨m, e⟩, w1⟩
  cases e with
  | some e =>
    left
    refine ⟨m, e, w1, rfl, ?_⟩
    cases m <;> simp [paymentUseCase.CreatePayment, hg]
  | none =>
    cases m with
    | none => exact absurd hg (fun h => merchant_GetByID_not_nil h)
    | some m =>
      right
      cases hact : m.IsActive with
      | false =>
        left
        exact ⟨m, w1, rfl, hact, by simp [paymentUseCase.CreatePayment, hg, hact]⟩
      | true =>
        right
        cases hr : uc.customerRepo with
        | none =>
          left
          exact ⟨m, w1, rfl, hact, rfl, by simp [paymentUseCase.CreatePayment, hg, hact, hr]⟩
        | some repo =>
          right
          rcases hc : repo.GetByID req.CustomerID w1 with ⟨⟨x, e2⟩, w2⟩
          cases e2 with
          | some e2 =>
            left
            exact ⟨m, w1, repo, x, e2, w2, rfl, hact, rfl, hc,
              by simp [paymentUseCase.CreatePayment, hg, hact, hr, hc]⟩
          | none =>
            right
            refine ⟨m, w1, repo, x, w2, rfl, hact, rfl, hc, ?_⟩
            simp only [paymentUseCase.CreatePayment, hg, hact, hr, hc, Bool.not_true,
              Bool.false_eq_true, if_false]
            rcases paymentUseCase.newPayment req w2 with ⟨p, w3⟩
            simp only
            rcases paymentRepository.Create p w3 with ⟨e3, w4⟩
            cases e3 with
            | some e3 => left; exact ⟨e3, rfl, rfl⟩
            | none => right; exact ⟨rfl, rfl⟩

theorem GetByMerchantID_calls (mid : UUID) (limit offset : Int) (w : World) :
    (paymentRepository.GetByMerchantID mid limit offset w).2.calls =
      w.calls ++ [.PaymentGetByMerchantID mid limit offset] := by
  simp only [paymentRepository.GetByMerchantID]
  split
  · rename_i err w2 heq
    simpa [World.record] using (World.driver_out heq).2.2.2.1
  · rename_i w2 heq
    have hd := World.driver_out heq
    simp only [World.record] at hd
    split
    · exact hd.2.2.2.1
    · split <;> exact hd.2.2.2.1

/-- The gateway calls ProcessPayment adds to the log: the lookup alone, or the
lookup followed by the update to completed. -/
theorem ProcessPayment_calls (uc : paymentUseCase) (id : UUID) (w : World) :
    (uc.ProcessPayment id w).2.calls = w.calls ++ [.PaymentGetByID id] ∨
      (uc.ProcessPayment id w).2.calls =
        w.calls ++ [.PaymentGetByID id, .PaymentUpdateStatus id PaymentStatusCompleted] := by
  have hf := GetByID_frame id w
  rcases ProcessPayment_cases uc id w with ⟨x, e, w1, hg, hr⟩ | ⟨p, w1, hg, _, hr⟩ |
    ⟨p, w1, hg, _, hr⟩
  · left; rw [hr]; rw [hg] at hf; exact hf.2.2.2.1
  · left; rw [hr]; rw [hg] at hf; exact hf.2.2.2.1
  · right
    rw [hr]; rw [hg] at hf
    simp only at hf ⊢
    rw [(UpdateStatus_spec id PaymentStatusCompleted w1).1.2.2.1, hf.2.2.2.1]
    simp

theorem CancelPayment_calls (uc : paymentUseCase) (id : UUID) (w : World) :
    (uc.CancelPayment id w).2.calls = w.calls ++ [.PaymentGetByID id] ∨
      (uc.CancelPayment id w).2.calls =
        w.calls ++ [.PaymentGetByID id, .PaymentUpdateStatus id PaymentStatusCancelled] := by
  have hf := GetByID_frame id w
  rcases CancelPayment_cases uc id w with ⟨x, e, w1, hg, hr⟩ | ⟨p, w1, hg, _, hr⟩ |
    ⟨p, w1, hg, _, hr⟩
  · left; rw [hr]; rw [hg] at hf; exact hf.2.2.2.1
  · left; rw [hr]; rw [hg] at hf; exact hf.2.2.2.1
  · right
    rw [hr]; rw [hg] at hf
    simp only at hf ⊢
    rw [(UpdateStatus_spec id PaymentStatusCancelled w1).1.2.2.1, hf.2.2.2.1]
    simp

theorem GetPayment_calls (uc : paymentUseCase) (id : UUID) (w : World) :
    (uc.GetPayment id w).2.calls = w.calls ++ [.PaymentGetByID id] := by
  have hf := GetByID_frame id w
  simp only [paymentUseCase.GetPayment]
  rcases hg : paymentRepository.GetByID id w with ⟨⟨p, e⟩, w1⟩
  rw [hg] at hf
  cases e <;> exact hf.2.2.2.1

theorem GetMerchantPayments_calls (uc : paymentUseCase) (mid : UUID) (limit offset : Int)
    (w : World) :
    (uc.GetMerchantPayments mid limit offset w).2.calls =
      w.calls ++ [.PaymentGetByMerchantID mid limit offset] := by
  have hf := GetByMerchantID_calls mid limit offset w
  simp only [paymentUseCase.GetMerchantPayments]
  rcases hg : paymentRepository.GetByMerchantID mid limit offset w with ⟨⟨p, e⟩, w1⟩
  rw [hg] at hf
  cases e <;> exact hf

/-- The gateway calls CreatePayment adds to the log: the merchant lookup; then
the customer lookup; then one Create. -/
theorem CreatePayment_calls (uc : paymentUseCase) (req : CreatePaymentRequest) (w : World) :
    (uc.CreatePayment req w).2.calls = w.calls ++ [.MerchantGetByID req.MerchantID] ∨
      (uc.CreatePayment req w).2.calls =
        w.calls ++ [.MerchantGetByID req.MerchantID, .CustomerGetByID req.CustomerID] ∨
      ∃ p, (uc.CreatePayment req w).2.calls =
        w.calls ++ [.MerchantGetByID req.MerchantID, .CustomerGetByID req.CustomerID,
          .PaymentCreate p] := by
  have hfm := merchant_GetByID_frame req.MerchantID w
  rcases CreatePayment_cases uc req w with ⟨x, e, w1, hg, hr⟩ | ⟨m, w1, hg, _, hr⟩ |
    ⟨m, w1, hg, _, _, hr⟩ | ⟨m, w1, repo, x, e, w2, hg, _, _, hc, hr⟩ |
    ⟨m, w1, repo, x, w2, hg, _, _, hc, hr⟩
  · left; rw [hr]; rw [hg] at hfm; exact hfm.2.2.2.1
  · left; rw [hr]; rw [hg] at hfm; exact hfm.2.2.2.1
  · left; rw [hr]; rw [hg] at hfm; exact hfm.2.2.2.1
  · right; left
    have hfc := customer_GetByID_frame repo req.CustomerID w1
    rw [hr]; rw [hg] at hfm; rw [hc] at hfc
    simp only at hfm hfc ⊢
    rw [hfc.2.2.2.1, hfm.2.2.2.1]; simp
  · right; right
    have hfc := customer_GetByID_frame repo req.CustomerID w1
    rw [hg] at hfm; rw [hc] at hfc
    simp only at hfm hfc
    refine ⟨(paymentUseCase.newPayment req w2).1, ?_⟩
    have hcs := (Create_spec (paymentUseCase.newPayment req w2).1
      (paymentUseCase.newPayment req w2).2).1.2.2.1
    have hfn := (newPayment_frame req w2).2.2.2.1
    rcases hr with ⟨e, _, hr⟩ | ⟨_, hr⟩ <;>
      (rw [hr]; simp only; rw [hcs, hfn, hfc.2.2.2.1, hfm.2.2.2.1]; simp)

theorem step_no_failed (uc : paymentUseCase) (op : Op) (w : World)
    (h : ∀ p ∈ w.payments, p.Status ≠ PaymentStatusFailed) :
    ∀ p ∈ (uc.step op w).payments, p.Status ≠ PaymentStatusFailed := by
  have hmap : ∀ (id : UUID) (st : PaymentStatus) (t : Time) (c : Option Time),
      st ≠ PaymentStatusFailed →
      ∀ p ∈ w.payments.map (paymentRepository.setStatus id st t c),
        p.Status ≠ PaymentStatusFailed := by
    intro id st t c hst q hq
    obtain ⟨p, hp, rfl⟩ := List.mem_map.1 hq
    unfold paymentRepository.setStatus
    split
    · exact hst
    · exact h p hp
  cases op with
  | CreatePayment req =>
    simp only [paymentUseCase.step]
    rcases CreatePayment_effect uc req w with he | ⟨p, he⟩
    · rw [he]; exact h
    · rw [he.1]
      intro q hq
      rcases List.mem_append.1 hq with hq | hq
      · exact h q hq
      · have hqp : q = p := by simpa using hq
        subst hqp
        rw [he.2.2.1]
        simp [PaymentStatusPending, PaymentStatusFailed]
  | GetPayment id =>
    simp only [paymentUseCase.step, GetPayment_effect]
    exact h
  | ProcessPayment id =>
    simp only [paymentUseCase.step]
    rcases ProcessPayment_effect uc id w with he | ⟨p, t, c, _, _, he⟩
    · rw [he]; exact h
    · rw [he]
      exact hmap id _ t _ (by simp [PaymentStatusCompleted, PaymentStatusFailed])
  | CancelPayment id =>
    simp only [paymentUseCase.step]
    rcases CancelPayment_effect uc id w with he | ⟨p, t, _, _, he⟩
    · rw [he]; exact h
    · rw [he]
      exact hmap id _ t _ (by simp [PaymentStatusCancelled, PaymentStatusFailed])
  | GetMerchantPayments mid limit offset =>
    simp only [paymentUseCase.step, GetMerchantPayments_effect]
    exact h

/-- The calls one operation adds to the log contain no UpdateStatus with a
status other than completed or cancelled. -/
theorem step_update_statuses (uc : paymentUseCase) (op : Op) (w : World) :
    ∃ added, (uc.step op w).calls = w.calls ++ added ∧
      ∀ id st, Call.PaymentUpdateStatus id st ∈ added →
        st = PaymentStatusCompleted ∨ st = PaymentStatusCancelled := by
  cases op with
  | CreatePayment req =>
    simp only [paymentUseCase.step]
    rcases CreatePayment_calls uc req w with h | h | ⟨p, h⟩ <;>
      exact ⟨_, h, by intro id st hmem; simp at hmem⟩
  | GetPayment id =>
    exact ⟨_, GetPayment_calls uc id w, by intro id st hmem; simp at hmem⟩
  | ProcessPayment id =>
    simp only [paymentUseCase.step]
    rcases ProcessPayment_calls uc id w with h | h
    · exact ⟨_, h, by intro id st hmem; simp at hmem⟩
    · refine ⟨_, h, ?_⟩
      intro id' st hmem
      simp at hmem
      exact Or.inl hmem.2
  | CancelPayment id =>
    simp only [paymentUseCase.step]
    rcases CancelPayment_calls uc id w with h | h
    · exact ⟨_, h, by intro id st hmem; simp at hmem⟩
    · refine ⟨_, h, ?_⟩
      intro id' st hmem
      simp at hmem
      exact Or.inr hmem.2
  | GetMerchantPayments mid limit offset =>
    exact ⟨_, GetMerchantPayments_calls uc mid limit offset w,
      by intro id st hmem; simp at hmem⟩

/-- C11: on a store in which no payment has status failed, after any finite
sequence of core operations no payment has status failed; and, on any store,
every UpdateStatus call the sequence adds to the call log carries the status
completed or the status cancelled. -/
theorem failed_status_never_produced (uc : paymentUseCase) (ops : List Op) (w : World)
    (h : ∀ p ∈ w.payments, p.Status ≠ PaymentStatusFailed) :
    (∀ p ∈ (uc.run ops w).payments, p.Status ≠ PaymentStatusFailed) ∧
      ∃ added, (uc.run ops w).calls = w.calls ++ added ∧
        ∀ id st, Call.PaymentUpdateStatus id st ∈ added →
          st = PaymentStatusCompleted ∨ st = PaymentStatusCancelled := by
  induction ops generalizing w with
  | nil => exact ⟨h, [], by simp [paymentUseCase.run], by intro id st hmem; simp at hmem⟩
  | cons op ops ih =>
    obtain ⟨hp, added2, hc2, hu2⟩ := ih (uc.step op w) (step_no_failed uc op w h)
    obtain ⟨added1, hc1, hu1⟩ := step_update_statuses uc op w
    refine ⟨hp, added1 ++ added2, ?_, ?_⟩
    · have : uc.run (op :: ops) w = uc.run ops (uc.step op w) := rfl
      rw [this, hc2, hc1, List.append_assoc]
    · intro id st hmem
      rcases List.mem_append.1 hmem with hm | hm
      · exact hu1 id st hm
      · exact hu2 id st hm

theorem failed_status_never_produced_witness :
    (∀ p ∈ sampleWorld.payments, p.Status ≠ PaymentStatusFailed) ∧
      (∀ p ∈ ((NewPaymentUseCase (some {})).run
          [.CreatePayment sampleRequest, .ProcessPayment 50, .CancelPayment 8,
            .CancelPayment 7] sampleWorld).payments, p.Status ≠ PaymentStatusFailed) :=
  ⟨by decide, (failed_status_never_produced (NewPaymentUseCase (some {}))
    [.CreatePayment sampleRequest, .ProcessPayment 50, .CancelPayment 8, .CancelPayment 7]
    sampleWorld (by decide)).1⟩

/-- A ProcessPayment that returned no error left the payment completed. -/
theorem ProcessPayment_success {uc : paymentUseCase} {id : UUID} {w : World}
    (h : (uc.ProcessPayment id w).1 = .returned none) :
    ∃ q, (uc.ProcessPayment id w).2.storedPayment id = some q ∧
      q.Status = PaymentStatusCompleted := by
  rcases ProcessPayment_cases uc id w with ⟨x, e, w1, hg, hr⟩ | ⟨p, w1, hg, _, hr⟩ |
    ⟨p, w1, hg, hst, hr⟩
  · rw [hr] at h; simp [errors.Wrap] at h
  · rw [hr] at h; simp at h
  · have hupd : (paymentRepository.UpdateStatus id PaymentStatusCompleted w1).1 = none := by
      rw [hr] at h
      cases hu : (paymentRepository.UpdateStatus id PaymentStatusCompleted w1).1 with
      | none => rfl
      | some e => rw [hu] at h; simp [errors.Wrap] at h
    obtain ⟨t, ht⟩ := UpdateStatus_ok hupd
    have hf := GetByID_frame id w
    rw [hg] at hf
    have hs1 : w1.payments.find? (fun x => x.ID == id) = some p := by
      rw [hf.1]; exact (GetByID_found hg).2
    have hid : p.ID = id := by simpa using List.find?_some hs1
    refine ⟨paymentRepository.setStatus id PaymentStatusCompleted t (some w1.now) p, ?_, ?_⟩
    · rw [hr]
      simp only [World.storedPayment, ht]
      exact find_setStatus id _ t _ _ p hs1
    · simp [paymentRepository.setStatus, hid]

/-- A CancelPayment that returned no error left the payment cancelled. -/
theorem CancelPayment_success {uc : paymentUseCase} {id : UUID} {w : World}
    (h : (uc.CancelPayment id w).1 = .returned none) :
    ∃ q, (uc.CancelPayment id w).2.storedPayment id = some q ∧
      q.Status = PaymentStatusCancelled := by
  rcases CancelPayment_cases uc id w with ⟨x, e, w1, hg, hr⟩ | ⟨p, w1, hg, _, hr⟩ |
    ⟨p, w1, hg, hst, hr⟩
  · rw [hr] at h; simp [errors.Wrap] at h
  · rw [hr] at h; simp at h
  · have hupd : (paymentRepository.UpdateStatus id PaymentStatusCancelled w1).1 = none := by
      rw [hr] at h
      cases hu : (paymentRepository.UpdateStatus id PaymentStatusCancelled w1).1 with
      | none => rfl
      | some e => rw [hu] at h; simp [errors.Wrap] at h
    obtain ⟨t, ht⟩ := UpdateStatus_ok hupd
    have hf := GetByID_frame id w
    rw [hg] at hf
    have hs1 : w1.payments.find? (fun x => x.ID == id) = some p := by
      rw [hf.1]; exact (GetByID_found hg).2
    have hid : p.ID = id := by simpa using List.find?_some hs1
    refine ⟨paymentRepository.setStatus id PaymentStatusCancelled t none p, ?_, ?_⟩
    · rw [hr]
      simp only [World.storedPayment, ht]
      exact find_setStatus id _ t _ _ p hs1
    · simp [paymentRepository.setStatus, hid]

/-- A lookup that returns no error returns the payment stored under the id. -/
theorem GetByID_answered {id : UUID} {w : World} {p : Payment}
    (hs : w.storedPayment id = some p) (hq : (paymentRepository.GetByID id w).1.2 = none) :
    paymentRepository.GetByID id w = ((some p, none), (paymentRepository.GetByID id w).2) := by
  rcases hg : paymentRepository.GetByID id w with ⟨⟨x, e⟩, w1⟩
  rw [hg] at hq
  simp only at hq
  subst hq
  cases x with
  | none => exact absurd hg (fun h => GetByID_not_nil h)
  | some p' =>
    have := (GetByID_found hg).2
    rw [hs] at this
    rw [Option.some.inj this]

theorem occursIn_status_text (st tail file : String) (line : Nat) :
    occursIn st (errors.New ("payment status is " ++ st ++ tail) file line).Error := by
  simp only [errors.New, GoError.Error]
  have := occursIn_mid "payment status is " st
    (tail ++ " (at " ++ file ++ ":" ++ toString line ++ ")")
  simpa [String.append_assoc] using this

theorem occursIn_tail_text (st tail file : String) (line : Nat) :
    occursIn tail (errors.New ("payment status is " ++ st ++ tail) file line).Error := by
  simp only [errors.New, GoError.Error]
  have := occursIn_mid ("payment status is " ++ st) tail
    (" (at " ++ file ++ ":" ++ toString line ++ ")")
  simpa [String.append_assoc] using this

theorem occursIn_after_text (st pre needle file : String) (line : Nat) :
    occursIn needle (errors.New ("payment status is " ++ st ++ (pre ++ needle)) file line).Error := by
  simp only [errors.New, GoError.Error]
  have := occursIn_mid ("payment status is " ++ st ++ pre) needle
    (" (at " ++ file ++ ":" ++ toString line ++ ")")
  simpa [String.append_assoc] using this

/-- What a later ProcessPayment and CancelPayment return for a payment whose
stored status is a given non-pending text, when their lookup is answered. -/
theorem later_calls_refused (uc : paymentUseCase) (id : UUID) (w : World) (r : Payment)
    (hs : w.storedPayment id = some r) (hst : r.Status ≠ PaymentStatusPending)
    (hq : (paymentRepository.GetByID id w).1.2 = none) :
    (uc.ProcessPayment id w).1 = .returned (some (errors.New
        ("payment status is " ++ r.Status ++ ", cannot process")
        (usecaseFile (paymentRepository.GetByID id w).2) 103)) ∧
      (uc.CancelPayment id w).1 = .returned (some (errors.New
        ("payment status is " ++ r.Status ++ ", cannot cancel")
        (usecaseFile (paymentRepository.GetByID id w).2) 123)) := by
  have hg := GetByID_answered hs hq
  constructor
  · simp only [paymentUseCase.ProcessPayment]
    rw [hg]
    simp [hst]
  · simp only [paymentUseCase.CancelPayment]
    rw [hg]
    simp [hst]

/-- C12: let ProcessPayment(id) succeed on a store, let any sequence of core
operations follow, and let the lookup of a later call on the same id be
answered by the store.  Then a later ProcessPayment(id) returns the error with
message "payment status is completed, cannot process", whose text mentions
"completed" and "cannot process", and a later CancelPayment(id) returns the
error with message "payment status is completed, cannot cancel", whose text
mentions "completed".  Likewise after a CancelPayment(id) that succeeded a
later ProcessPayment(id) returns the error with message
"payment status is cancelled, cannot process", whose text mentions "cancelled". -/
theorem transition_not_repeated_nor_reversed (uc : paymentUseCase) (id : UUID) (w : World)
    (between : List Op) :
    ((uc.ProcessPayment id w).1 = .returned none →
      (paymentRepository.GetByID id (uc.run between (uc.ProcessPayment id w).2)).1.2 = none →
      (∃ e, (uc.ProcessPayment id (uc.run between (uc.ProcessPayment id w).2)).1 =
          .returned (some e) ∧
        e.Message = some "payment status is completed, cannot process" ∧
        occursIn "completed" e.Error ∧ occursIn "cannot process" e.Error) ∧
      (∃ e, (uc.CancelPayment id (uc.run between (uc.ProcessPayment id w).2)).1 =
          .returned (some e) ∧
        e.Message = some "payment status is completed, cannot cancel" ∧
        occursIn "completed" e.Error)) ∧
    ((uc.CancelPayment id w).1 = .returned none →
      (paymentRepository.GetByID id (uc.run between (uc.CancelPayment id w).2)).1.2 = none →
      ∃ e, (uc.ProcessPayment id (uc.run between (uc.CancelPayment id w).2)).1 =
          .returned (some e) ∧
        e.Message = some "payment status is cancelled, cannot process" ∧
        occursIn "cancelled" e.Error) := by
  constructor
  · intro hok hq
    obtain ⟨q, hq1, hqs⟩ := ProcessPayment_success hok
    obtain ⟨r, hr, hqr⟩ := run_status uc between _ id q hq1
    have hrs : r.Status = "completed" := by
      rcases hqr with h | ⟨h, _⟩
      · rw [h, hqs]; rfl
      · rw [hqs] at h
        exact absurd h (by decide)
    have hne : r.Status ≠ PaymentStatusPending := by rw [hrs]; decide
    have hl := later_calls_refused uc id _ r hr hne hq
    rw [hrs] at hl
    refine ⟨⟨_, hl.1, rfl, ?_, ?_⟩, ⟨_, hl.2, rfl, ?_⟩⟩
    · exact occursIn_status_text "completed" ", cannot process" _ 103
    · exact occursIn_after_text "completed" ", " "cannot process" _ 103
    · exact occursIn_status_text "completed" ", cannot cancel" _ 123
  · intro hok hq
    obtain ⟨q, hq1, hqs⟩ := CancelPayment_success hok
    obtain ⟨r, hr, hqr⟩ := run_status uc between _ id q hq1
    have hrs : r.Status = "cancelled" := by
      rcases hqr with h | ⟨h, _⟩
      · rw [h, hqs]; rfl
      · rw [hqs] at h
        exact absurd h (by decide)
    have hne : r.Status ≠ PaymentStatusPending := by rw [hrs]; decide
    have hl := later_calls_refused uc id _ r hr hne hq
    rw [hrs] at hl
    exact ⟨_, hl.1, rfl, occursIn_status_text "cancelled" ", cannot process" _ 103⟩

theorem transition_not_repeated_nor_reversed_witness :
    (∃ p, ((NewPaymentUseCase (some {})).CreatePayment sampleRequest sampleWorld).1 =
        .returned (some p, none) ∧ p.ID = 50 ∧ p.Amount = 10000 ∧ p.Currency = "USD" ∧
        p.Method = PaymentMethodCreditCard ∧ p.Status = PaymentStatusPending) ∧
      ((NewPaymentUseCase (some {})).ProcessPayment 50
        ((NewPaymentUseCase (some {})).CreatePayment sampleRequest sampleWorld).2).1 =
          .returned none ∧
      (∃ e, ((NewPaymentUseCase (some {})).ProcessPayment 50
          ((NewPaymentUseCase (some {})).run [.GetPayment 50]
            ((NewPaymentUseCase (some {})).ProcessPayment 50
              ((NewPaymentUseCase (some {})).CreatePayment sampleRequest sampleWorld).2).2)).1 =
          .returned (some e) ∧
        e.Message = some "payment status is completed, cannot process" ∧
        occursIn "completed" e.Error ∧ occursIn "cannot process" e.Error) ∧
      ((NewPaymentUseCase (some {})).CancelPayment 50
        ((NewPaymentUseCase (some {})).CreatePayment sampleRequest sampleWorld).2).1 =
          .returned none ∧
      (∃ e, ((NewPaymentUseCase (some {})).ProcessPayment 50
          ((NewPaymentUseCase (some {})).run [.GetPayment 50]
            ((NewPaymentUseCase (some {})).CancelPayment 50
              ((NewPaymentUseCase (some {})).CreatePayment sampleRequest sampleWorld).2).2)).1 =
          .returned (some e) ∧
        e.Message = some "payment status is cancelled, cannot process" ∧
        occursIn "cancelled" e.Error) :=
  have h := transition_not_repeated_nor_reversed (NewPaymentUseCase (some {})) 50
    ((NewPaymentUseCase (some {})).CreatePayment sampleRequest sampleWorld).2 [.GetPayment 50]
  ⟨⟨_, rfl, rfl, rfl, rfl, rfl, rfl⟩, rfl, (h.1 rfl rfl).1, rfl, h.2 rfl rfl⟩

/-- C13 fails as stated: the limit parameter 9223372036854775808 denotes an
integer greater than 0, yet the limit passed to the core is 20, and with the
same text as offset the offset passed is 0: `strconv.Atoi` reports a range
error for an integer that does not fit Go's `int`. -/
theorem pagination_out_of_range :
    strconv.parseDecimal "9223372036854775808" = some 9223372036854775808 ∧
      PaymentHandler.pageLimit (some "9223372036854775808") = 20 ∧
      PaymentHandler.pageOffset (some "9223372036854775808") = 0 ∧
      ((NewPaymentHandler mainUseCase).GetMerchantPayments (some 1)
          (some "9223372036854775808") (some "9223372036854775808") sampleWorld).2.calls =
        [.PaymentGetByMerchantID 1 20 0] := by
  decide

theorem pageLimit_eq (s : String) :
    PaymentHandler.pageLimit (some s) =
      match strconv.parseDecimal s with
      | none => 20
      | some v => if 0 < v ∧ v ≤ strconv.maxInt then v else 20 := by
  simp only [PaymentHandler.pageLimit, DefaultQuery, Option.getD_some, strconv.Atoi]
  cases strconv.parseDecimal s with
  | none => rfl
  | some v =>
    simp only [strconv.minInt, strconv.maxInt]
    split_ifs <;> dsimp only <;> (try split_ifs) <;> omega

theorem pageOffset_eq (s : String) :
    PaymentHandler.pageOffset (some s) =
      match strconv.parseDecimal s with
      | none => 0
      | some v => if 0 ≤ v ∧ v ≤ strconv.maxInt then v else 0 := by
  simp only [PaymentHandler.pageOffset, DefaultQuery, Option.getD_some, strconv.Atoi]
  cases strconv.parseDecimal s with
  | none => rfl
  | some v =>
    simp only [strconv.minInt, strconv.maxInt]
    split_ifs <;> dsimp only <;> (try split_ifs) <;> omega

/-- C13 as amended: the list-merchant-payments handler passes to the core the
limit `pageLimit` and the offset `pageOffset` of the query parameters (one
listing call with the merchant id of the path).  The limit is 20 when the
parameter is missing, when its text is not a decimal integer, when the integer
is at most 0 and when the integer exceeds the largest `int`; it is the
parameter's own value when that is an integer greater than 0 that fits `int`.
The offset is 0 when the parameter is missing, is not a decimal integer, is
negative or exceeds the largest `int`, and the parameter's own value when that
is an integer at least 0 that fits `int`. -/
theorem pagination_sanitised (h : PaymentHandler) (merchantID : UUID)
    (limitQuery offsetQuery : Option String) (w : World) (s : String) (v : Int) :
    (h.GetMerchantPayments (some merchantID) limitQuery offsetQuery w).2.calls =
        w.calls ++ [.PaymentGetByMerchantID merchantID (PaymentHandler.pageLimit limitQuery)
          (PaymentHandler.pageOffset offsetQuery)] ∧
      PaymentHandler.pageLimit none = 20 ∧ PaymentHandler.pageOffset none = 0 ∧
      (strconv.parseDecimal s = none →
        PaymentHandler.pageLimit (some s) = 20 ∧ PaymentHandler.pageOffset (some s) = 0) ∧
      (strconv.parseDecimal s = some v →
        (v ≤ 0 → PaymentHandler.pageLimit (some s) = 20) ∧
        (0 < v → v ≤ strconv.maxInt → PaymentHandler.pageLimit (some s) = v) ∧
        (v < 0 → PaymentHandler.pageOffset (some s) = 0) ∧
        (0 ≤ v → v ≤ strconv.maxInt → PaymentHandler.pageOffset (some s) = v) ∧
        (strconv.maxInt < v →
          PaymentHandler.pageLimit (some s) = 20 ∧ PaymentHandler.pageOffset (some s) = 0)) := by
  refine ⟨?_, by decide, by decide, ?_, ?_⟩
  · simp only [PaymentHandler.GetMerchantPayments]
    have hc := GetMerchantPayments_calls h.paymentUseCase merchantID
      (PaymentHandler.pageLimit limitQuery) (PaymentHandler.pageOffset offsetQuery) w
    rcases hg : h.paymentUseCase.GetMerchantPayments merchantID
      (PaymentHandler.pageLimit limitQuery) (PaymentHandler.pageOffset offsetQuery) w with
      ⟨⟨ps, e⟩, w1⟩
    rw [hg] at hc
    cases e <;> exact hc
  · intro hs
    rw [pageLimit_eq, pageOffset_eq, hs]
    exact ⟨rfl, rfl⟩
  · intro hs
    rw [pageLimit_eq, pageOffset_eq, hs]
    simp only [strconv.maxInt]
    refine ⟨?_, ?_, ?_, ?_, ?_⟩
    · intro h1; split_ifs <;> omega
    · intro h1 h2; split_ifs <;> omega
    · intro h1; split_ifs <;> omega
    · intro h1 h2; split_ifs <;> omega
    · intro h1; constructor <;> split_ifs <;> omega

theorem pagination_sanitised_witness :
    strconv.parseDecimal "50" = some 50 ∧ (0 : Int) < 50 ∧ (50 : Int) ≤ strconv.maxInt ∧
      PaymentHandler.pageLimit (some "50") = 50 ∧ PaymentHandler.pageOffset (some "50") = 50 ∧
      strconv.parseDecimal "-3" = some (-3) ∧
      PaymentHandler.pageLimit (some "-3") = 20 ∧ PaymentHandler.pageOffset (some "-3") = 0 ∧
      strconv.parseDecimal "ten" = none ∧
      PaymentHandler.pageLimit (some "ten") = 20 ∧ PaymentHandler.pageOffset (some "ten") = 0 :=
  have h50 := (pagination_sanitised (NewPaymentHandler mainUseCase) 1 none none sampleWorld
    "50" 50).2.2.2.2 (by decide)
  have hneg := (pagination_sanitised (NewPaymentHandler mainUseCase) 1 none none sampleWorld
    "-3" (-3)).2.2.2.2 (by decide)
  have hten := (pagination_sanitised (NewPaymentHandler mainUseCase) 1 none none sampleWorld
    "ten" 0).2.2.2.1 (by decide)
  ⟨by decide, by decide, by decide, h50.2.1 (by decide) (by decide),
    h50.2.2.2.1 (by decide) (by decide), by decide, hneg.1 (by decide),
    hneg.2.2.1 (by decide), by decide, hten.1, hten.2⟩

/-- C14: whenever a storage-gateway call made by a core operation returns an
error e, the operation returns at once an error whose cause is e and whose
message names the step, returns no payment (no page), and the failed call is
the last gateway call in the log.  In order: the merchant lookup, the customer
lookup and the Create of CreatePayment; the payment lookup of GetPayment,
ProcessPayment and CancelPayment; the status update of ProcessPayment and of
CancelPayment; the listing of GetMerchantPayments. -/
theorem storage_failures_propagate (uc : paymentUseCase) (req : CreatePaymentRequest)
    (id merchantID : UUID) (limit offset : Int) (w : World) :
    (∀ x e w1, merchantRepository.GetByID req.MerchantID w = ((x, some e), w1) →
      ∃ E, uc.CreatePayment req w = (.returned (none, some E), w1) ∧
        E.Cause = some e ∧ E.Message = some "failed to get merchant" ∧
        w1.calls = w.calls ++ [.MerchantGetByID req.MerchantID]) ∧
    (∀ m w1 repo x e w2, merchantRepository.GetByID req.MerchantID w = ((some m, none), w1) →
      m.IsActive = true → uc.customerRepo = some repo →
      repo.GetByID req.CustomerID w1 = ((x, some e), w2) →
      ∃ E, uc.CreatePayment req w = (.returned (none, some E), w2) ∧
        E.Cause = some e ∧ E.Message = some "failed to get customer" ∧
        w2.calls = w.calls ++
          [.MerchantGetByID req.MerchantID, .CustomerGetByID req.CustomerID]) ∧
    (∀ m w1 repo x w2 e w3, merchantRepository.GetByID req.MerchantID w = ((some m, none), w1) →
      m.IsActive = true → uc.customerRepo = some repo →
      repo.GetByID req.CustomerID w1 = ((x, none), w2) →
      paymentRepository.Create (paymentUseCase.newPayment req w2).1
        (paymentUseCase.newPayment req w2).2 = (some e, w3) →
      ∃ E, uc.CreatePayment req w = (.returned (none, some E), w3) ∧
        E.Cause = some e ∧ E.Message = some "failed to create payment" ∧
        w3.calls = w.calls ++
          [.MerchantGetByID req.MerchantID, .CustomerGetByID req.CustomerID,
            .PaymentCreate (paymentUseCase.newPayment req w2).1]) ∧
    (∀ x e w1, paymentRepository.GetByID id w = ((x, some e), w1) →
      (∃ E, uc.GetPayment id w = ((none, some E), w1) ∧
        E.Cause = some e ∧ E.Message = some "failed to get payment") ∧
      (∃ E, uc.ProcessPayment id w = (.returned (some E), w1) ∧
        E.Cause = some e ∧ E.Message = some "failed to get payment") ∧
      (∃ E, uc.CancelPayment id w = (.returned (some E), w1) ∧
        E.Cause = some e ∧ E.Message = some "failed to get payment") ∧
      w1.calls = w.calls ++ [.PaymentGetByID id]) ∧
    (∀ p w1 e w2, paymentRepository.GetByID id w = ((some p, none), w1) →
      p.Status = PaymentStatusPending →
      paymentRepository.UpdateStatus id PaymentStatusCompleted w1 = (some e, w2) →
      ∃ E, uc.ProcessPayment id w = (.returned (some E), w2) ∧
        E.Cause = some e ∧ E.Message = some "failed to update payment status" ∧
        w2.calls = w.calls ++
          [.PaymentGetByID id, .PaymentUpdateStatus id PaymentStatusCompleted]) ∧
    (∀ p w1 e w2, paymentRepository.GetByID id w = ((some p, none), w1) →
      p.Status = PaymentStatusPending →
      paymentRepository.UpdateStatus id PaymentStatusCancelled w1 = (some e, w2) →
      ∃ E, uc.CancelPayment id w = (.returned (some E), w2) ∧
        E.Cause = some e ∧ E.Message = some "failed to update payment status" ∧
        w2.calls = w.calls ++
          [.PaymentGetByID id, .PaymentUpdateStatus id PaymentStatusCancelled]) ∧
    (∀ ps e w1, paymentRepository.GetByMerchantID merchantID limit offset w =
        ((ps, some e), w1) →
      ∃ E, uc.GetMerchantPayments merchantID limit offset w = (([], some E), w1) ∧
        E.Cause = some e ∧ E.Message = some "failed to get merchant payments" ∧
        w1.calls = w.calls ++ [.PaymentGetByMerchantID merchantID limit offset]) := by
  refine ⟨?_, ?_, ?_, ?_, ?_, ?_, ?_⟩
  · intro x e w1 hg
    have hf := merchant_GetByID_frame req.MerchantID w
    rw [hg] at hf
    refine ⟨.AppError "failed to get merchant" "" (some e) (usecaseFile w1) 54, ?_, rfl, rfl, hf.2.2.2.1⟩
    cases x <;> simp [paymentUseCase.CreatePayment, hg, errors.Wrap]
  · intro m w1 repo x e w2 hg hact hr hc
    have hf := merchant_GetByID_frame req.MerchantID w
    have hfc := customer_GetByID_frame repo req.CustomerID w1
    rw [hg] at hf
    rw [hc] at hfc
    simp only at hf hfc
    refine ⟨.AppError "failed to get customer" "" (some e) (usecaseFile w2) 63, ?_, rfl, rfl, ?_⟩
    · simp [paymentUseCase.CreatePayment, hg, hact, hr, hc, errors.Wrap]
    · rw [hfc.2.2.2.1, hf.2.2.2.1]; simp
  · intro m w1 repo x w2 e w3 hg hact hr hc hcr
    have hf := merchant_GetByID_frame req.MerchantID w
    have hfc := customer_GetByID_frame repo req.CustomerID w1
    have hcs := (Create_spec (paymentUseCase.newPayment req w2).1
      (paymentUseCase.newPayment req w2).2).1.2.2.1
    have hfn := (newPayment_frame req w2).2.2.2.1
    rw [hg] at hf
    rw [hc] at hfc
    rw [hcr] at hcs
    simp only at hf hfc hcs
    refine ⟨.AppError "failed to create payment" "" (some e) (usecaseFile w3) 82, ?_, rfl, rfl, ?_⟩
    · simp only [paymentUseCase.CreatePayment, hg, hact, hr, hc, Bool.not_true,
        Bool.false_eq_true, if_false]
      rcases hn : paymentUseCase.newPayment req w2 with ⟨p, w2'⟩
      rw [hn] at hcr
      simp only at hcr ⊢
      rw [hcr]
      simp [errors.Wrap]
    · rw [hcs, hfn, hfc.2.2.2.1, hf.2.2.2.1]; simp
  · intro x e w1 hg
    have hf := GetByID_frame id w
    rw [hg] at hf
    refine ⟨⟨.AppError "failed to get payment" "" (some e) (usecaseFile w1) 91, ?_, rfl, rfl⟩,
      ⟨.AppError "failed to get payment" "" (some e) (usecaseFile w1) 99, ?_, rfl, rfl⟩,
      ⟨.AppError "failed to get payment" "" (some e) (usecaseFile w1) 119, ?_, rfl, rfl⟩, hf.2.2.2.1⟩
    · simp [paymentUseCase.GetPayment, hg, errors.Wrap]
    · cases x <;> simp [paymentUseCase.ProcessPayment, hg, errors.Wrap]
    · cases x <;> simp [paymentUseCase.CancelPayment, hg, errors.Wrap]
  · intro p w1 e w2 hg hst hu
    have hf := GetByID_frame id w
    have hus := (UpdateStatus_spec id PaymentStatusCompleted w1).1.2.2.1
    rw [hg] at hf
    rw [hu] at hus
    simp only at hf hus
    refine ⟨.AppError "failed to update payment status" "" (some e) (usecaseFile w2) 110, ?_, rfl, rfl, ?_⟩
    · simp [paymentUseCase.ProcessPayment, hg, hst, hu, errors.Wrap]
    · rw [hus, hf.2.2.2.1]; simp
  · intro p w1 e w2 hg hst hu
    have hf := GetByID_frame id w
    have hus := (UpdateStatus_spec id PaymentStatusCancelled w1).1.2.2.1
    rw [hg] at hf
    rw [hu] at hus
    simp only at hf hus
    refine ⟨.AppError "failed to update payment status" "" (some e) (usecaseFile w2) 127, ?_, rfl, rfl, ?_⟩
    · simp [paymentUseCase.CancelPayment, hg, hst, hu, errors.Wrap]
    · rw [hus, hf.2.2.2.1]; simp
  · intro ps e w1 hg
    have hf := GetByMerchantID_calls merchantID limit offset w
    rw [hg] at hf
    refine ⟨.AppError "failed to get merchant payments" "" (some e) (usecaseFile w1) 136, ?_, rfl, rfl, hf⟩
    simp [paymentUseCase.GetMerchantPayments, hg, errors.Wrap]

theorem storage_failures_propagate_witness :
    (∃ E, ((NewPaymentUseCase (some {})).CreatePayment sampleRequest (faultyWorld 0)).1 =
        .returned (none, some E) ∧ E.Message = some "failed to get merchant") ∧
      (∃ E, ((NewPaymentUseCase (some {})).CreatePayment sampleRequest (faultyWorld 1)).1 =
        .returned (none, some E) ∧ E.Message = some "failed to get customer") ∧
      (∃ E, ((NewPaymentUseCase (some {})).CreatePayment sampleRequest (faultyWorld 2)).1 =
        .returned (none, some E) ∧ E.Message = some "failed to create payment") ∧
      (∃ E, ((NewPaymentUseCase (some {})).GetPayment 8 (faultyWorld 0)).1 = (none, some E) ∧
        E.Message = some "failed to get payment") ∧
      (∃ E, ((NewPaymentUseCase (some {})).ProcessPayment 8 (faultyWorld 1)).1 =
        .returned (some E) ∧ E.Message = some "failed to update payment status") ∧
      (∃ E, ((NewPaymentUseCase (some {})).CancelPayment 8 (faultyWorld 1)).1 =
        .returned (some E) ∧ E.Message = some "failed to update payment status") ∧
      (∃ E, ((NewPaymentUseCase (some {})).GetMerchantPayments 1 20 0 (faultyWorld 0)).1 =
        ([], some E) ∧ E.Message = some "failed to get merchant payments") :=
  have h0 := storage_failures_propagate (NewPaymentUseCase (some {})) sampleRequest 8 1 20 0
    (faultyWorld 0)
  have h1 := storage_failures_propagate (NewPaymentUseCase (some {})) sampleRequest 8 1 20 0
    (faultyWorld 1)
  have h2 := storage_failures_propagate (NewPaymentUseCase (some {})) sampleRequest 8 1 20 0
    (faultyWorld 2)
  ⟨(h0.1 _ _ _ rfl).imp (fun _ hE => ⟨congrArg Prod.fst hE.1, hE.2.2.1⟩),
    (h1.2.1 _ _ {} _ _ _ rfl rfl rfl rfl).imp
      (fun _ hE => ⟨congrArg Prod.fst hE.1, hE.2.2.1⟩),
    (h2.2.2.1 _ _ {} _ _ _ _ rfl rfl rfl rfl rfl).imp
      (fun _ hE => ⟨congrArg Prod.fst hE.1, hE.2.2.1⟩),
    (h0.2.2.2.1 _ _ _ rfl).1.imp (fun _ hE => ⟨congrArg Prod.fst hE.1, hE.2.2⟩),
    (h1.2.2.2.2.1 _ _ _ _ rfl rfl rfl).imp
      (fun _ hE => ⟨congrArg Prod.fst hE.1, hE.2.2.1⟩),
    (h1.2.2.2.2.2.1 _ _ _ _ rfl rfl rfl).imp
      (fun _ hE => ⟨congrArg Prod.fst hE.1, hE.2.2.1⟩),
    (h0.2.2.2.2.2.2 _ _ _ rfl).imp (fun _ hE => ⟨congrArg Prod.fst hE.1, hE.2.2.1⟩)⟩

/-- C15: GetPayment returns exactly what the payment gateway returns for the id
when the gateway returns no error, fails with the gateway's error as cause
otherwise, and so fails whenever no payment is stored under the id; it issues
the one lookup.  GetMerchantPayments issues the one listing call with the same
merchant id, limit and offset, and returns the gateway's page as it is (the
same list) when the gateway returns no error. -/
theorem reads_delegate (uc : paymentUseCase) (id merchantID : UUID) (limit offset : Int)
    (w : World) :
    (∀ p w1, paymentRepository.GetByID id w = ((p, none), w1) →
      uc.GetPayment id w = ((p, none), w1)) ∧
    (∀ x e w1, paymentRepository.GetByID id w = ((x, some e), w1) →
      ∃ E, uc.GetPayment id w = ((none, some E), w1) ∧ E.Cause = some e) ∧
    (w.storedPayment id = none → ∃ E, (uc.GetPayment id w).1 = (none, some E)) ∧
    (uc.GetPayment id w).2.calls = w.calls ++ [.PaymentGetByID id] ∧
    (∀ ps w1, paymentRepository.GetByMerchantID merchantID limit offset w = ((ps, none), w1) →
      uc.GetMerchantPayments merchantID limit offset w = ((ps, none), w1)) ∧
    (uc.GetMerchantPayments merchantID limit offset w).2.calls =
      w.calls ++ [.PaymentGetByMerchantID merchantID limit offset] := by
  refine ⟨?_, ?_, ?_, GetPayment_calls uc id w, ?_,
    GetMerchantPayments_calls uc merchantID limit offset w⟩
  · intro p w1 hg
    simp [paymentUseCase.GetPayment, hg]
  · intro x e w1 hg
    exact ⟨.AppError "failed to get payment" "" (some e) (usecaseFile w1) 91,
      by simp [paymentUseCase.GetPayment, hg, errors.Wrap], rfl⟩
  · intro hs
    rcases hg : paymentRepository.GetByID id w with ⟨⟨x, e⟩, w1⟩
    cases e with
    | some e =>
      exact ⟨.AppError "failed to get payment" "" (some e) (usecaseFile w1) 91,
        by simp [paymentUseCase.GetPayment, hg, errors.Wrap]⟩
    | none =>
      cases x with
      | none => exact absurd hg (fun h => GetByID_not_nil h)
      | some p =>
        have := (GetByID_found hg).2
        rw [hs] at this
        exact absurd this (by simp)
  · intro ps w1 hg
    simp [paymentUseCase.GetMerchantPayments, hg]

theorem reads_delegate_witness :
    (NewPaymentUseCase none).GetPayment 7 sampleWorld =
        ((some (samplePayment 7 PaymentStatusCompleted (some 4)), none),
          sampleWorld.record (.PaymentGetByID 7)) ∧
      sampleWorld.storedPayment 44 = none ∧
      (∃ E, ((NewPaymentUseCase none).GetPayment 44 sampleWorld).1 = (none, some E)) ∧
      (NewPaymentUseCase none).GetMerchantPayments 1 2 1 sampleWorld =
        (([samplePayment 8 PaymentStatusPending none,
            samplePayment 9 PaymentStatusCancelled none], none),
          sampleWorld.record (.PaymentGetByMerchantID 1 2 1)) :=
  ⟨(reads_delegate (NewPaymentUseCase none) 7 1 2 1 sampleWorld).1 _ _ rfl, rfl,
    (reads_delegate (NewPaymentUseCase none) 44 1 2 1 sampleWorld).2.2.1 rfl,
    (reads_delegate (NewPaymentUseCase none) 7 1 2 1 sampleWorld).2.2.2.2.1 _ _ rfl⟩

theorem bearer_key (rest : String) :
    strings.HasPrefix ("Bearer " ++ rest) "Bearer " = true ∧
      strings.TrimPrefix ("Bearer " ++ rest) "Bearer " = rest := by
  have h1 : strings.HasPrefix ("Bearer " ++ rest) "Bearer " = true := by
    simp [strings.HasPrefix, String.toList, String.data_append]
  refine ⟨h1, ?_⟩
  simp only [strings.TrimPrefix, h1, if_true]
  have hl : "Bearer ".length = 7 := by decide
  rw [hl]
  simp [String.toList, String.data_append]

/-- C16: the credential is the X-API-Key header or, when that is empty, what
follows the prefix "Bearer " in the Authorization header (empty when the prefix
is missing).  On a route behind the middleware: an empty credential is answered
401 with no gateway call; a failed merchant lookup by key is answered 401; an
inactive merchant is answered 403; in these three cases the handler is not run
(the response and the state do not depend on it, and the state has at most the
key lookup added).  The handler runs, on the state the lookup left, exactly
when the lookup returned an active merchant. -/
theorem auth_decides_before_core (hdr : AuthHeaders)
    (handler : World → Outcome HTTPResponse × World) (w : World) :
    ((hdr.XAPIKey ≠ "" → AuthMiddleware.apiKey hdr = hdr.XAPIKey) ∧
      (hdr.XAPIKey = "" → ∀ rest, hdr.Authorization = "Bearer " ++ rest →
        AuthMiddleware.apiKey hdr = rest) ∧
      (hdr.XAPIKey = "" → strings.HasPrefix hdr.Authorization "Bearer " = false →
        AuthMiddleware.apiKey hdr = "")) ∧
    (AuthMiddleware.apiKey hdr = "" →
      authenticated hdr handler w =
        (.returned (JSON 401 false .absent "" "API key is required"), w)) ∧
    (AuthMiddleware.apiKey hdr ≠ "" →
      (∀ x e w1, merchantRepository.GetByAPIKey (AuthMiddleware.apiKey hdr) w =
          ((x, some e), w1) →
        authenticated hdr handler w =
          (.returned (JSON 401 false .absent "" "Invalid API key"), w1)) ∧
      (∀ m w1, merchantRepository.GetByAPIKey (AuthMiddleware.apiKey hdr) w =
          ((some m, none), w1) → m.IsActive = false →
        authenticated hdr handler w =
          (.returned (JSON 403 false .absent "" "Merchant account is inactive"), w1)) ∧
      (∀ m w1, merchantRepository.GetByAPIKey (AuthMiddleware.apiKey hdr) w =
          ((some m, none), w1) → m.IsActive = true →
        AuthMiddleware.APIKeyAuth hdr w = (.next m, w1) ∧
        authenticated hdr handler w = handler w1)) ∧
    (∀ m w1, AuthMiddleware.APIKeyAuth hdr w = (.next m, w1) →
      AuthMiddleware.apiKey hdr ≠ "" ∧
      merchantRepository.GetByAPIKey (AuthMiddleware.apiKey hdr) w = ((some m, none), w1) ∧
      m.IsActive = true) := by
  refine ⟨⟨?_, ?_, ?_⟩, ?_, ?_, ?_⟩
  · intro hx
    simp [AuthMiddleware.apiKey, hx]
  · intro hx rest hr
    simp [AuthMiddleware.apiKey, hx, hr, (bearer_key rest).1, (bearer_key rest).2]
  · intro hx hp
    simp [AuthMiddleware.apiKey, hx, hp]
  · intro hk
    simp [authenticated, AuthMiddleware.APIKeyAuth, hk]
  · intro hk
    refine ⟨?_, ?_, ?_⟩
    · intro x e w1 hg
      cases x <;> simp [authenticated, AuthMiddleware.APIKeyAuth, hk, hg]
    · intro m w1 hg hact
      simp [authenticated, AuthMiddleware.APIKeyAuth, hk, hg, hact]
    · intro m w1 hg hact
      simp [authenticated, AuthMiddleware.APIKeyAuth, hk, hg, hact]
  · intro m w1 hn
    by_cases hk : AuthMiddleware.apiKey hdr = ""
    · simp [AuthMiddleware.APIKeyAuth, hk] at hn
    · refine ⟨hk, ?_⟩
      simp only [AuthMiddleware.APIKeyAuth, beq_iff_eq, hk, if_false] at hn
      rcases hg : merchantRepository.GetByAPIKey (AuthMiddleware.apiKey hdr) w with
        ⟨⟨x, e⟩, w2⟩
      rw [hg] at hn
      cases e with
      | some e => cases x <;> simp at hn
      | none =>
        cases x with
        | none => simp at hn
        | some m' =>
          cases hact : m'.IsActive with
          | false => simp [hact] at hn
          | true =>
            simp [hact] at hn
            obtain ⟨rfl, rfl⟩ := hn
            exact ⟨rfl, hact⟩

theorem auth_decides_before_core_witness :
    AuthMiddleware.apiKey ⟨"", "Bearer key-1"⟩ = "key-1" ∧
      authenticated ⟨"", ""⟩ ((NewPaymentHandler mainUseCase).ProcessPayment (some 8))
          sampleWorld =
        (.returned (JSON 401 false .absent "" "API key is required"), sampleWorld) ∧
      authenticated ⟨"no-such-key", ""⟩ ((NewPaymentHandler mainUseCase).ProcessPayment (some 8))
          sampleWorld =
        (.returned (JSON 401 false .absent "" "Invalid API key"),
          sampleWorld.record (.MerchantGetByAPIKey "no-such-key")) ∧
      authenticated ⟨"key-3", ""⟩ ((NewPaymentHandler mainUseCase).ProcessPayment (some 8))
          sampleWorld =
        (.returned (JSON 403 false .absent "" "Merchant account is inactive"),
          sampleWorld.record (.MerchantGetByAPIKey "key-3")) ∧
      authenticated ⟨"", "Bearer key-1"⟩ ((NewPaymentHandler mainUseCase).ProcessPayment (some 8))
          sampleWorld =
        (NewPaymentHandler mainUseCase).ProcessPayment (some 8)
          (sampleWorld.record (.MerchantGetByAPIKey "key-1")) :=
  ⟨(auth_decides_before_core ⟨"", "Bearer key-1"⟩ (fun w => (.panicked, w)) sampleWorld).1.2.1
      rfl "key-1" rfl,
    (auth_decides_before_core ⟨"", ""⟩ _ sampleWorld).2.1 rfl,
    ((auth_decides_before_core ⟨"no-such-key", ""⟩ _ sampleWorld).2.2.1 (by decide)).1
      _ _ _ rfl,
    ((auth_decides_before_core ⟨"key-3", ""⟩ _ sampleWorld).2.2.1 (by decide)).2.1
      _ _ rfl rfl,
    (((auth_decides_before_core ⟨"", "Bearer key-1"⟩ _ sampleWorld).2.2.1 (by decide)).2.2
      _ _ rfl rfl).2⟩

set_option maxRecDepth 100000 in
/-- C17 fails as stated: when the driver refuses the lookup of ProcessPayment
with "connection reset by peer", the repository returns an error e and the body
of the 500 response carries the whole text of e, the driver's message, and the
path and line of the repository source file. -/
theorem storage_error_text_is_served :
    ∃ e text, (paymentRepository.GetByID 8 (faultyWorld 0)).1 = (none, some e) ∧
      ((NewPaymentHandler mainUseCase).ProcessPayment (some 8) (faultyWorld 0)).1 =
        .returned (JSON 500 false .absent "" text) ∧
      occursIn e.Error text ∧ occursIn "connection reset by peer" text ∧
      occursIn "/app/internal/infrastructure/database/payment_repository_impl.go:51" text :=
  ⟨_, _, rfl, rfl, by decide, by decide, by decide⟩

theorem wrap_text (message : String) (e : GoError) (file : String) (line : Nat) :
    (GoError.AppError message "" (some e) file line).Error =
        message ++ ": " ++ e.Error ++ " (at " ++ file ++ ":" ++ toString line ++ ")" ∧
      occursIn e.Error (GoError.AppError message "" (some e) file line).Error ∧
      occursIn file (GoError.AppError message "" (some e) file line).Error := by
  refine ⟨rfl, ?_, ?_⟩
  · simp only [GoError.Error]
    have := occursIn_mid (message ++ ": ") e.Error
      (" (at " ++ file ++ ":" ++ toString line ++ ")")
    simpa [String.append_assoc] using this
  · simp only [GoError.Error]
    have := occursIn_mid (message ++ ": " ++ e.Error ++ " (at ") file
      (":" ++ toString line ++ ")")
    simpa [String.append_assoc] using this

/-- C17 as amended: when a core operation fails because a storage-gateway call
returned an error e, the handler puts into the error field of the body the
`Error()` text of the wrapped error: the name of the failed step, then ": " and
the whole text of e, then " (at ", the path of the use-case source file, ":",
the line of the call site and ")".  The status is 500 for the create-payment,
process-payment, cancel-payment and list-merchant-payments handlers and 404 for
the get-payment handler.  In order: the merchant lookup, the customer lookup and
the Create of create-payment; the lookup of get-payment; the lookup and the
status update of process-payment; the lookup and the status update of
cancel-payment; the listing of list-merchant-payments. -/
theorem storage_errors_are_served_verbatim (h : PaymentHandler)
    (decoded : Except String CreatePaymentRequest) (req : CreatePaymentRequest)
    (id merchantID : UUID) (limitQuery offsetQuery : Option String) (w : World) :
    (ShouldBindJSON decoded = .ok req →
      ∀ x e w1, merchantRepository.GetByID req.MerchantID w = ((x, some e), w1) →
        h.CreatePayment decoded w =
          (.returned (JSON 500 false .absent ""
            ("failed to get merchant" ++ ": " ++ e.Error ++ " (at " ++ usecaseFile w1 ++ ":" ++
              toString 54 ++ ")")), w1) ∧
        occursIn e.Error ("failed to get merchant" ++ ": " ++ e.Error ++ " (at " ++
          usecaseFile w1 ++ ":" ++ toString 54 ++ ")")) ∧
    (ShouldBindJSON decoded = .ok req →
      ∀ m w1 repo x e w2, merchantRepository.GetByID req.MerchantID w = ((some m, none), w1) →
        m.IsActive = true → h.paymentUseCase.customerRepo = some repo →
        repo.GetByID req.CustomerID w1 = ((x, some e), w2) →
        h.CreatePayment decoded w =
          (.returned (JSON 500 false .absent ""
            ("failed to get customer" ++ ": " ++ e.Error ++ " (at " ++ usecaseFile w2 ++ ":" ++
              toString 63 ++ ")")), w2) ∧
        occursIn e.Error ("failed to get customer" ++ ": " ++ e.Error ++ " (at " ++
          usecaseFile w2 ++ ":" ++ toString 63 ++ ")")) ∧
    (ShouldBindJSON decoded = .ok req →
      ∀ m w1 repo x w2 e w3, merchantRepository.GetByID req.MerchantID w = ((some m, none), w1) →
        m.IsActive = true → h.paymentUseCase.customerRepo = some repo →
        repo.GetByID req.CustomerID w1 = ((x, none), w2) →
        paymentRepository.Create (paymentUseCase.newPayment req w2).1
          (paymentUseCase.newPayment req w2).2 = (some e, w3) →
        h.CreatePayment decoded w =
          (.returned (JSON 500 false .absent ""
            ("failed to create payment" ++ ": " ++ e.Error ++ " (at " ++ usecaseFile w3 ++ ":" ++
              toString 82 ++ ")")), w3) ∧
        occursIn e.Error ("failed to create payment" ++ ": " ++ e.Error ++ " (at " ++
          usecaseFile w3 ++ ":" ++ toString 82 ++ ")")) ∧
    (∀ x e w1, paymentRepository.GetByID id w = ((x, some e), w1) →
      h.GetPayment (some id) w =
        (.returned (JSON 404 false .absent ""
          ("failed to get payment" ++ ": " ++ e.Error ++ " (at " ++ usecaseFile w1 ++ ":" ++
            toString 91 ++ ")")), w1) ∧
      occursIn e.Error ("failed to get payment" ++ ": " ++ e.Error ++ " (at " ++
        usecaseFile w1 ++ ":" ++ toString 91 ++ ")")) ∧
    (∀ x e w1, paymentRepository.GetByID id w = ((x, some e), w1) →
      h.ProcessPayment (some id) w =
        (.returned (JSON 500 false .absent ""
          ("failed to get payment" ++ ": " ++ e.Error ++ " (at " ++ usecaseFile w1 ++ ":" ++
            toString 99 ++ ")")), w1) ∧
      occursIn e.Error ("failed to get payment" ++ ": " ++ e.Error ++ " (at " ++
        usecaseFile w1 ++ ":" ++ toString 99 ++ ")")) ∧
    (∀ p w1 e w2, paymentRepository.GetByID id w = ((some p, none), w1) →
      p.Status = PaymentStatusPending →
      paymentRepository.UpdateStatus id PaymentStatusCompleted w1 = (some e, w2) →
      h.ProcessPayment (some id) w =
        (.returned (JSON 500 false .absent ""
          ("failed to update payment status" ++ ": " ++ e.Error ++ " (at " ++ usecaseFile w2 ++
            ":" ++ toString 110 ++ ")")), w2) ∧
      occursIn e.Error ("failed to update payment status" ++ ": " ++ e.Error ++ " (at " ++
        usecaseFile w2 ++ ":" ++ toString 110 ++ ")")) ∧
    (∀ x e w1, paymentRepository.GetByID id w = ((x, some e), w1) →
      h.CancelPayment (some id) w =
        (.returned (JSON 500 false .absent ""
          ("failed to get payment" ++ ": " ++ e.Error ++ " (at " ++ usecaseFile w1 ++ ":" ++
            toString 119 ++ ")")), w1) ∧
      occursIn e.Error ("failed to get payment" ++ ": " ++ e.Error ++ " (at " ++
        usecaseFile w1 ++ ":" ++ toString 119 ++ ")")) ∧
    (∀ p w1 e w2, paymentRepository.GetByID id w = ((some p, none), w1) →
      p.Status = PaymentStatusPending →
      paymentRepository.UpdateStatus id PaymentStatusCancelled w1 = (some e, w2) →
      h.CancelPayment (some id) w =
        (.returned (JSON 500 false .absent ""
          ("failed to update payment status" ++ ": " ++ e.Error ++ " (at " ++ usecaseFile w2 ++
            ":" ++ toString 127 ++ ")")), w2) ∧
      occursIn e.Error ("failed to update payment status" ++ ": " ++ e.Error ++ " (at " ++
        usecaseFile w2 ++ ":" ++ toString 127 ++ ")")) ∧
    (∀ ps e w1, paymentRepository.GetByMerchantID merchantID
        (PaymentHandler.pageLimit limitQuery) (PaymentHandler.pageOffset offsetQuery) w =
          ((ps, some e), w1) →
      h.GetMerchantPayments (some merchantID) limitQuery offsetQuery w =
        (.returned (JSON 500 false .absent ""
          ("failed to get merchant payments" ++ ": " ++ e.Error ++ " (at " ++ usecaseFile w1 ++
            ":" ++ toString 136 ++ ")")), w1) ∧
      occursIn e.Error ("failed to get merchant payments" ++ ": " ++ e.Error ++ " (at " ++
        usecaseFile w1 ++ ":" ++ toString 136 ++ ")")) := by
  refine ⟨?_, ?_, ?_, ?_, ?_, ?_, ?_, ?_, ?_⟩
  · intro hb x e w1 hg
    have ht := wrap_text "failed to get merchant" e (usecaseFile w1) 54
    rw [ht.1] at ht
    refine ⟨?_, ht.2.1⟩
    cases x <;>
      simp [PaymentHandler.CreatePayment, hb, paymentUseCase.CreatePayment, hg, errors.Wrap,
        GoError.Error]
  · intro hb m w1 repo x e w2 hg hact hr hc
    have ht := wrap_text "failed to get customer" e (usecaseFile w2) 63
    rw [ht.1] at ht
    refine ⟨?_, ht.2.1⟩
    simp [PaymentHandler.CreatePayment, hb, paymentUseCase.CreatePayment, hg, hact, hr, hc,
      errors.Wrap, GoError.Error]
  · intro hb m w1 repo x w2 e w3 hg hact hr hc hcr
    have ht := wrap_text "failed to create payment" e (usecaseFile w3) 82
    rw [ht.1] at ht
    refine ⟨?_, ht.2.1⟩
    simp only [PaymentHandler.CreatePayment, hb, paymentUseCase.CreatePayment, hg, hact, hr, hc,
      Bool.not_true, Bool.false_eq_true, if_false]
    rcases hn : paymentUseCase.newPayment req w2 with ⟨p, w2'⟩
    rw [hn] at hcr
    simp only at hcr ⊢
    rw [hcr]
    simp [errors.Wrap, GoError.Error]
  · intro x e w1 hg
    have ht := wrap_text "failed to get payment" e (usecaseFile w1) 91
    rw [ht.1] at ht
    refine ⟨?_, ht.2.1⟩
    simp [PaymentHandler.GetPayment, paymentUseCase.GetPayment, hg, errors.Wrap,
      GoError.Error]
  · intro x e w1 hg
    have ht := wrap_text "failed to get payment" e (usecaseFile w1) 99
    rw [ht.1] at ht
    refine ⟨?_, ht.2.1⟩
    cases x <;>
      simp [PaymentHandler.ProcessPayment, paymentUseCase.ProcessPayment, hg, errors.Wrap,
        GoError.Error]
  · intro p w1 e w2 hg hst hu
    have ht := wrap_text "failed to update payment status" e (usecaseFile w2) 110
    rw [ht.1] at ht
    refine ⟨?_, ht.2.1⟩
    simp [PaymentHandler.ProcessPayment, paymentUseCase.ProcessPayment, hg, hst, hu,
      errors.Wrap, GoError.Error]
  · intro x e w1 hg
    have ht := wrap_text "failed to get payment" e (usecaseFile w1) 119
    rw [ht.1] at ht
    refine ⟨?_, ht.2.1⟩
    cases x <;>
      simp [PaymentHandler.CancelPayment, paymentUseCase.CancelPayment, hg, errors.Wrap,
        GoError.Error]
  · intro p w1 e w2 hg hst hu
    have ht := wrap_text "failed to update payment status" e (usecaseFile w2) 127
    rw [ht.1] at ht
    refine ⟨?_, ht.2.1⟩
    simp [PaymentHandler.CancelPayment, paymentUseCase.CancelPayment, hg, hst, hu,
      errors.Wrap, GoError.Error]
  · intro ps e w1 hg
    have ht := wrap_text "failed to get merchant payments" e (usecaseFile w1) 136
    rw [ht.1] at ht
    refine ⟨?_, ht.2.1⟩
    simp [PaymentHandler.GetMerchantPayments, paymentUseCase.GetMerchantPayments, hg,
      errors.Wrap, GoError.Error]

/-- With a driver fault scheduled at the merchant lookup, at the customer
lookup, at the payment lookup of get-payment, at the status update of
process-payment and at the listing, the body carries the step name, the text of
the gateway error and the use-case call site; the customer repository hands the
driver error on unwrapped, the other repositories wrap it first. -/
theorem storage_errors_are_served_verbatim_witness :
    ShouldBindJSON (.ok sampleRequest) = .ok sampleRequest ∧
      ((NewPaymentHandler (NewPaymentUseCase (some {}))).CreatePayment (.ok sampleRequest)
          (faultyWorld 0)).1 =
        .returned (JSON 500 false .absent ""
          ("failed to get merchant" ++ ": " ++
            (GoError.AppError "failed to get merchant by id" ""
              (some (.driver "connection reset by peer"))
              (merchantRepoFile sampleWorld) 49).Error ++
            " (at " ++ usecaseFile sampleWorld ++ ":" ++ toString 54 ++ ")")) ∧
      ((NewPaymentHandler (NewPaymentUseCase (some {}))).CreatePayment (.ok sampleRequest)
          (faultyWorld 1)).1 =
        .returned (JSON 500 false .absent ""
          ("failed to get customer" ++ ": " ++
            (GoError.driver "connection reset by peer").Error ++
            " (at " ++ usecaseFile sampleWorld ++ ":" ++ toString 63 ++ ")")) ∧
      ((NewPaymentHandler (NewPaymentUseCase (some {}))).GetPayment (some 8)
          (faultyWorld 0)).1 =
        .returned (JSON 404 false .absent ""
          ("failed to get payment" ++ ": " ++
            (GoError.AppError "failed to get payment by id" ""
              (some (.driver "connection reset by peer"))
              (paymentRepoFile sampleWorld) 51).Error ++
            " (at " ++ usecaseFile sampleWorld ++ ":" ++ toString 91 ++ ")")) ∧
      ((NewPaymentHandler (NewPaymentUseCase (some {}))).ProcessPayment (some 8)
          (faultyWorld 1)).1 =
        .returned (JSON 500 false .absent ""
          ("failed to update payment status" ++ ": " ++
            (GoError.AppError "failed to update payment status" ""
              (some (.driver "connection reset by peer"))
              (paymentRepoFile sampleWorld) 87).Error ++
            " (at " ++ usecaseFile sampleWorld ++ ":" ++ toString 110 ++ ")")) ∧
      ((NewPaymentHandler (NewPaymentUseCase (some {}))).GetMerchantPayments (some 1) none none
          (faultyWorld 0)).1 =
        .returned (JSON 500 false .absent ""
          ("failed to get merchant payments" ++ ": " ++
            (GoError.AppError "failed to get payments by merchant id" ""
              (some (.driver "connection reset by peer"))
              (paymentRepoFile sampleWorld) 113).Error ++
            " (at " ++ usecaseFile sampleWorld ++ ":" ++ toString 136 ++ ")")) :=
  have h0 := storage_errors_are_served_verbatim (NewPaymentHandler (NewPaymentUseCase (some {})))
    (.ok sampleRequest) sampleRequest 8 1 none none (faultyWorld 0)
  have h1 := storage_errors_are_served_verbatim (NewPaymentHandler (NewPaymentUseCase (some {})))
    (.ok sampleRequest) sampleRequest 8 1 none none (faultyWorld 1)
  ⟨rfl, congrArg Prod.fst (h0.1 rfl _ _ _ rfl).1,
    congrArg Prod.fst (h1.2.1 rfl _ _ {} _ _ _ rfl rfl rfl rfl).1,
    congrArg Prod.fst (h0.2.2.2.1 _ _ _ rfl).1,
    congrArg Prod.fst (h1.2.2.2.2.2.1 _ _ _ _ rfl rfl rfl).1,
    congrArg Prod.fst (h0.2.2.2.2.2.2.2.2 _ _ _ rfl).1⟩

theorem driver_quiet {w : World} (hf : w.faults = []) : w.driver = (none, w) := by
  simp [World.driver, hf]

theorem GetByID_quiet {id : UUID} {w : World} {p : Payment} (hf : w.faults = [])
    (hp : w.storedPayment id = some p) :
    paymentRepository.GetByID id w = ((some p, none), w.record (.PaymentGetByID id)) := by
  have hd : (w.record (.PaymentGetByID id)).driver = (none, w.record (.PaymentGetByID id)) :=
    driver_quiet (by simpa [World.record] using hf)
  have hs : (w.record (.PaymentGetByID id)).storedPayment id = some p := by
    simpa [World.storedPayment, World.record] using hp
  simp only [paymentRepository.GetByID, hd, hs]

theorem UpdateStatus_quiet {id : UUID} (st : PaymentStatus) {w : World} {p : Payment}
    (hf : w.faults = []) (hp : w.storedPayment id = some p) :
    (paymentRepository.UpdateStatus id st w).1 = none ∧
      (paymentRepository.UpdateStatus id st w).2.faults = [] ∧
      (paymentRepository.UpdateStatus id st w).2.calls =
        w.calls ++ [.PaymentUpdateStatus id st] ∧
      ∃ t c, (paymentRepository.UpdateStatus id st w).2.payments =
        w.payments.map (paymentRepository.setStatus id st t c) := by
  have hmem : w.payments.filter (fun x => x.ID == id) ≠ [] := by
    have h1 := List.mem_of_find?_eq_some hp
    have h2 := List.find?_some hp
    intro hnil
    have : p ∈ w.payments.filter (fun x => x.ID == id) := List.mem_filter.2 ⟨h1, h2⟩
    rw [hnil] at this
    exact absurd this (List.not_mem_nil _)
  have hlen : ((w.payments.filter (fun x => x.ID == id)).length == 0) = false := by
    cases hl : w.payments.filter (fun x => x.ID == id) with
    | nil => exact absurd hl hmem
    | cons a l => rfl
  simp only [paymentRepository.UpdateStatus]
  cases hc : (st == PaymentStatusCompleted)
  · simp only [Bool.false_eq_true, if_false, World.record, World.timeNow, World.driver, hf,
      hlen]
    exact ⟨trivial, trivial, trivial, _, _, rfl⟩
  · simp only [if_true, World.record, World.timeNow, World.driver, hf, hlen]
    exact ⟨rfl, rfl, rfl, _, _, rfl⟩

theorem ProcessPayment_split (uc : paymentUseCase) (id : UUID) (w : World) :
    uc.ProcessPayment id w =
      match uc.ProcessPaymentCheck id w with
      | (some r, w1) => (r, w1)
      | (none, w1) => uc.ProcessPaymentUpdate id w1 := by
  simp only [paymentUseCase.ProcessPayment, paymentUseCase.ProcessPaymentCheck,
    paymentUseCase.ProcessPaymentUpdate]
  rcases paymentRepository.GetByID id w with ⟨⟨x, e⟩, w1⟩
  cases e with
  | some e => cases x <;> rfl
  | none =>
    cases x with
    | none => rfl
    | some p =>
      simp only
      split <;> rfl

theorem CancelPayment_split (uc : paymentUseCase) (id : UUID) (w : World) :
    uc.CancelPayment id w =
      match uc.CancelPaymentCheck id w with
      | (some r, w1) => (r, w1)
      | (none, w1) => uc.CancelPaymentUpdate id w1 := by
  simp only [paymentUseCase.CancelPayment, paymentUseCase.CancelPaymentCheck,
    paymentUseCase.CancelPaymentUpdate]
  rcases paymentRepository.GetByID id w with ⟨⟨x, e⟩, w1⟩
  cases e with
  | some e => cases x <;> rfl
  | none =>
    cases x with
    | none => rfl
    | some p =>
      simp only
      split <;> rfl

/-- With no driver fault, `UpdateStatus` on a stored payment succeeds and writes
the new status, whatever the current one is. -/
theorem UpdateStatus_overwrites {id : UUID} (st : PaymentStatus) {w : World} {p : Payment}
    (hf : w.faults = []) (hp : w.storedPayment id = some p) :
    (paymentRepository.UpdateStatus id st w).1 = none ∧
      (paymentRepository.UpdateStatus id st w).2.faults = [] ∧
      (paymentRepository.UpdateStatus id st w).2.calls =
        w.calls ++ [.PaymentUpdateStatus id st] ∧
      ∃ q, (paymentRepository.UpdateStatus id st w).2.storedPayment id = some q ∧
        q.Status = st := by
  obtain ⟨h1, h2, h3, t, c, h4⟩ := UpdateStatus_quiet st hf hp
  refine ⟨h1, h2, h3, paymentRepository.setStatus id st t c p, ?_, ?_⟩
  · simp only [World.storedPayment, h4]
    exact find_setStatus id st t c _ p hp
  · have hid : p.ID = id := by simpa using List.find?_some hp
    simp [paymentRepository.setStatus, hid]

theorem check_passes_quiet (uc : paymentUseCase) {id : UUID} {w : World} {p : Payment}
    (hf : w.faults = []) (hp : w.storedPayment id = some p)
    (hst : p.Status = PaymentStatusPending) :
    uc.ProcessPaymentCheck id w = (none, w.record (.PaymentGetByID id)) ∧
      uc.CancelPaymentCheck id w = (none, w.record (.PaymentGetByID id)) := by
  simp [paymentUseCase.ProcessPaymentCheck, paymentUseCase.CancelPaymentCheck,
    GetByID_quiet hf hp, hst]

/-- C18: on a store with no driver fault in which the payment under an id is
pending, interleave one ProcessPayment and one CancelPayment call on that id so
that both run their lookup and status check before either runs its update (the
call log shows the two lookups, then the two updates).  Both calls return no
error, and the status stored at the end is that of the update written last:
cancelled when ProcessPayment updates first, completed when CancelPayment does.
`UpdateStatus` itself, on any such store and for any current status, writes the
status it is given.  Each call run alone is its check followed by its update. -/
theorem check_then_update_races (uc : paymentUseCase) (id : UUID) (w : World) (p : Payment)
    (hf : w.faults = []) (hp : w.storedPayment id = some p)
    (hst : p.Status = PaymentStatusPending) :
    ((uc.raceProcessCancel id true w).1 = (.returned none, .returned none) ∧
      (uc.raceProcessCancel id true w).2.calls =
        w.calls ++ [.PaymentGetByID id, .PaymentGetByID id,
          .PaymentUpdateStatus id PaymentStatusCompleted,
          .PaymentUpdateStatus id PaymentStatusCancelled] ∧
      ∃ q, (uc.raceProcessCancel id true w).2.storedPayment id = some q ∧
        q.Status = PaymentStatusCancelled) ∧
    ((uc.raceProcessCancel id false w).1 = (.returned none, .returned none) ∧
      (uc.raceProcessCancel id false w).2.calls =
        w.calls ++ [.PaymentGetByID id, .PaymentGetByID id,
          .PaymentUpdateStatus id PaymentStatusCancelled,
          .PaymentUpdateStatus id PaymentStatusCompleted] ∧
      ∃ q, (uc.raceProcessCancel id false w).2.storedPayment id = some q ∧
        q.Status = PaymentStatusCompleted) ∧
    (∀ (st : PaymentStatus) (w0 : World) (q : Payment), w0.faults = [] →
      w0.storedPayment id = some q →
      (paymentRepository.UpdateStatus id st w0).1 = none ∧
      ∃ r, (paymentRepository.UpdateStatus id st w0).2.storedPayment id = some r ∧
        r.Status = st) ∧
    (uc.ProcessPayment id w =
        match uc.ProcessPaymentCheck id w with
        | (some r, w1) => (r, w1)
        | (none, w1) => uc.ProcessPaymentUpdate id w1) ∧
    (uc.CancelPayment id w =
        match uc.CancelPaymentCheck id w with
        | (some r, w1) => (r, w1)
        | (none, w1) => uc.CancelPaymentUpdate id w1) := by
  have hf1 : (w.record (.PaymentGetByID id)).faults = [] := by simpa [World.record] using hf
  have hp1 : (w.record (.PaymentGetByID id)).storedPayment id = some p := by
    simpa [World.storedPayment, World.record] using hp
  have hf2 : ((w.record (.PaymentGetByID id)).record (.PaymentGetByID id)).faults = [] := by
    simpa [World.record] using hf
  have hp2 : ((w.record (.PaymentGetByID id)).record (.PaymentGetByID id)).storedPayment id =
      some p := by
    simpa [World.storedPayment, World.record] using hp
  have hc2 : ((w.record (.PaymentGetByID id)).record (.PaymentGetByID id)).calls =
      w.calls ++ [.PaymentGetByID id, .PaymentGetByID id] := by
    simp [World.record]
  have hk1 := (check_passes_quiet uc hf hp hst).1
  have hk2 := (check_passes_quiet uc hf1 hp1 hst).2
  refine ⟨?_, ?_, ?_, ProcessPayment_split uc id w, CancelPayment_split uc id w⟩
  · obtain ⟨a1, a2, a3, q1, a4, _⟩ :=
      UpdateStatus_overwrites PaymentStatusCompleted hf2 hp2
    obtain ⟨b1, _, b3, q2, b4, b5⟩ :=
      UpdateStatus_overwrites PaymentStatusCancelled a2 a4
    simp only [paymentUseCase.raceProcessCancel, hk1, hk2, if_true,
      paymentUseCase.ProcessPaymentUpdate, paymentUseCase.CancelPaymentUpdate]
    rcases hu1 : paymentRepository.UpdateStatus id PaymentStatusCompleted
      ((w.record (.PaymentGetByID id)).record (.PaymentGetByID id)) with ⟨e1, w3⟩
    rw [hu1] at a1 a3 b1 b3 b4
    simp only at a1 a3 b1 b3 b4
    subst a1
    simp only
    rcases hu2 : paymentRepository.UpdateStatus id PaymentStatusCancelled w3 with ⟨e2, w4⟩
    rw [hu2] at b1 b3 b4
    simp only at b1 b3 b4
    subst b1
    refine ⟨rfl, ?_, q2, b4, b5⟩
    simp only
    rw [b3, a3, hc2]; simp
  · obtain ⟨a1, a2, a3, q1, a4, _⟩ :=
      UpdateStatus_overwrites PaymentStatusCancelled hf2 hp2
    obtain ⟨b1, _, b3, q2, b4, b5⟩ :=
      UpdateStatus_overwrites PaymentStatusCompleted a2 a4
    simp only [paymentUseCase.raceProcessCancel, hk1, hk2, Bool.false_eq_true, if_false,
      paymentUseCase.ProcessPaymentUpdate, paymentUseCase.CancelPaymentUpdate]
    rcases hu1 : paymentRepository.UpdateStatus id PaymentStatusCancelled
      ((w.record (.PaymentGetByID id)).record (.PaymentGetByID id)) with ⟨e1, w3⟩
    rw [hu1] at a1 a3 b1 b3 b4
    simp only at a1 a3 b1 b3 b4
    subst a1
    simp only
    rcases hu2 : paymentRepository.UpdateStatus id PaymentStatusCompleted w3 with ⟨e2, w4⟩
    rw [hu2] at b1 b3 b4
    simp only at b1 b3 b4
    subst b1
    refine ⟨rfl, ?_, q2, b4, b5⟩
    simp only
    rw [b3, a3, hc2]; simp
  · intro st w0 q hf0 hq
    obtain ⟨c1, _, _, r, c4, c5⟩ := UpdateStatus_overwrites st hf0 hq
    exact ⟨c1, r, c4, c5⟩

theorem check_then_update_races_witness :
    sampleWorld.faults = [] ∧
      sampleWorld.storedPayment 8 = some (samplePayment 8 PaymentStatusPending none) ∧
      (mainUseCase.raceProcessCancel 8 true sampleWorld).1 = (.returned none, .returned none) ∧
      (∃ q, (mainUseCase.raceProcessCancel 8 true sampleWorld).2.storedPayment 8 = some q ∧
        q.Status = PaymentStatusCancelled) ∧
      (∃ q, (mainUseCase.raceProcessCancel 8 false sampleWorld).2.storedPayment 8 = some q ∧
        q.Status = PaymentStatusCompleted) :=
  have h := check_then_update_races mainUseCase 8 sampleWorld
    (samplePayment 8 PaymentStatusPending none) rfl rfl rfl
  ⟨rfl, rfl, h.1.1, h.1.2.2, h.2.1.2.2⟩

theorem step_calls (uc : paymentUseCase) (op : Op) (w : World) :
    ∃ added, (uc.step op w).calls = w.calls ++ added ∧
      (added.filter Call.mutating).length ≤ 1 := by
  cases op with
  | CreatePayment req =>
    simp only [paymentUseCase.step]
    rcases CreatePayment_calls uc req w with h | h | ⟨p, h⟩ <;>
      exact ⟨_, h, by simp [List.filter, Call.mutating]⟩
  | GetPayment id =>
    exact ⟨_, GetPayment_calls uc id w, by simp [List.filter, Call.mutating]⟩
  | ProcessPayment id =>
    simp only [paymentUseCase.step]
    rcases ProcessPayment_calls uc id w with h | h <;>
      exact ⟨_, h, by simp [List.filter, Call.mutating]⟩
  | CancelPayment id =>
    simp only [paymentUseCase.step]
    rcases CancelPayment_calls uc id w with h | h <;>
      exact ⟨_, h, by simp [List.filter, Call.mutating]⟩
  | GetMerchantPayments mid limit offset =>
    exact ⟨_, GetMerchantPayments_calls uc mid limit offset w,
      by simp [List.filter, Call.mutating]⟩

/-- C19: every core operation adds to the call log at most one Create or
UpdateStatus call.  GetPayment and GetMerchantPayments add their one read call
and nothing else.  A CreatePayment that returns a payment adds the two lookups
and exactly one Create (of that payment), no UpdateStatus; a ProcessPayment or
CancelPayment that returns no error adds the lookup and exactly one
UpdateStatus, no Create.  An operation whose lookup fails or whose precondition
fails (inactive merchant, payment not pending) adds lookups only. -/
theorem at_most_one_mutating_call (uc : paymentUseCase) (req : CreatePaymentRequest)
    (id merchantID : UUID) (limit offset : Int) (w : World) :
    (∀ op, ∃ added, (uc.step op w).calls = w.calls ++ added ∧
      (added.filter Call.mutating).length ≤ 1) ∧
    (uc.GetPayment id w).2.calls = w.calls ++ [.PaymentGetByID id] ∧
    (uc.GetMerchantPayments merchantID limit offset w).2.calls =
      w.calls ++ [.PaymentGetByMerchantID merchantID limit offset] ∧
    (∀ p e, (uc.CreatePayment req w).1 = .returned (some p, e) →
      (uc.CreatePayment req w).2.calls =
        w.calls ++ [.MerchantGetByID req.MerchantID, .CustomerGetByID req.CustomerID,
          .PaymentCreate p]) ∧
    ((uc.ProcessPayment id w).1 = .returned none →
      (uc.ProcessPayment id w).2.calls =
        w.calls ++ [.PaymentGetByID id, .PaymentUpdateStatus id PaymentStatusCompleted]) ∧
    ((uc.CancelPayment id w).1 = .returned none →
      (uc.CancelPayment id w).2.calls =
        w.calls ++ [.PaymentGetByID id, .PaymentUpdateStatus id PaymentStatusCancelled]) ∧
    (∀ x w1, paymentRepository.GetByID id w = (x, w1) →
      (x.2 ≠ none ∨ ∃ p, x.1 = some p ∧ p.Status ≠ PaymentStatusPending) →
      (uc.ProcessPayment id w).2.calls = w.calls ++ [.PaymentGetByID id] ∧
      (uc.CancelPayment id w).2.calls = w.calls ++ [.PaymentGetByID id]) ∧
    (∀ x w1, merchantRepository.GetByID req.MerchantID w = (x, w1) →
      (x.2 ≠ none ∨ ∃ m, x.1 = some m ∧ m.IsActive = false) →
      (uc.CreatePayment req w).2.calls = w.calls ++ [.MerchantGetByID req.MerchantID]) ∧
    (∀ m w1 repo x e w2, merchantRepository.GetByID req.MerchantID w = ((some m, none), w1) →
      m.IsActive = true → uc.customerRepo = some repo →
      repo.GetByID req.CustomerID w1 = ((x, some e), w2) →
      (uc.CreatePayment req w).2.calls =
        w.calls ++ [.MerchantGetByID req.MerchantID, .CustomerGetByID req.CustomerID]) := by
  have hfg := GetByID_frame id w
  have hfm := merchant_GetByID_frame req.MerchantID w
  refine ⟨fun op => step_calls uc op w, GetPayment_calls uc id w,
    GetMerchantPayments_calls uc merchantID limit offset w, ?_, ?_, ?_, ?_, ?_, ?_⟩
  · intro p e hret
    rcases CreatePayment_cases uc req w with ⟨x, e', w1, hg, hr⟩ | ⟨m, w1, hg, _, hr⟩ |
      ⟨m, w1, hg, _, _, hr⟩ | ⟨m, w1, repo, x, e', w2, hg, _, _, hc, hr⟩ |
      ⟨m, w1, repo, x, w2, hg, _, _, hc, hr⟩
    · rw [hr] at hret; simp at hret
    · rw [hr] at hret; simp at hret
    · rw [hr] at hret; simp at hret
    · rw [hr] at hret; simp at hret
    · have hfc := customer_GetByID_frame repo req.CustomerID w1
      rw [hg] at hfm; rw [hc] at hfc
      simp only at hfm hfc
      have hcs := (Create_spec (paymentUseCase.newPayment req w2).1
        (paymentUseCase.newPayment req w2).2).1.2.2.1
      have hfn := (newPayment_frame req w2).2.2.2.1
      rcases hr with ⟨e', _, hr⟩ | ⟨_, hr⟩
      · rw [hr] at hret; simp at hret
      · rw [hr] at hret ⊢
        simp only [Outcome.returned.injEq, Prod.mk.injEq, Option.some.injEq] at hret
        rw [← hret.1]
        simp only
        rw [hcs, hfn, hfc.2.2.2.1, hfm.2.2.2.1]; simp
  · intro hret
    rcases ProcessPayment_cases uc id w with ⟨x, e, w1, hg, hr⟩ | ⟨p, w1, hg, _, hr⟩ |
      ⟨p, w1, hg, _, hr⟩
    · rw [hr] at hret; simp [errors.Wrap] at hret
    · rw [hr] at hret; simp at hret
    · rw [hr]; rw [hg] at hfg
      simp only at hfg ⊢
      rw [(UpdateStatus_spec id PaymentStatusCompleted w1).1.2.2.1, hfg.2.2.2.1]; simp
  · intro hret
    rcases CancelPayment_cases uc id w with ⟨x, e, w1, hg, hr⟩ | ⟨p, w1, hg, _, hr⟩ |
      ⟨p, w1, hg, _, hr⟩
    · rw [hr] at hret; simp [errors.Wrap] at hret
    · rw [hr] at hret; simp at hret
    · rw [hr]; rw [hg] at hfg
      simp only at hfg ⊢
      rw [(UpdateStatus_spec id PaymentStatusCancelled w1).1.2.2.1, hfg.2.2.2.1]; simp
  · intro x w1 hg hfail
    have hx : ∀ p, x = (some p, none) → p.Status ≠ PaymentStatusPending := by
      intro p hxp
      rcases hfail with h | ⟨q, hq, hqs⟩
      · rw [hxp] at h; exact absurd rfl h
      · rw [hxp] at hq
        simp only [Option.some.injEq] at hq
        rw [hq]; exact hqs
    constructor
    · rcases ProcessPayment_cases uc id w with ⟨y, e, w1', hg', hr⟩ | ⟨p, w1', hg', _, hr⟩ |
        ⟨p, w1', hg', hst, hr⟩
      · rw [hr]; rw [hg'] at hfg; exact hfg.2.2.2.1
      · rw [hr]; rw [hg'] at hfg; exact hfg.2.2.2.1
      · rw [hg] at hg'
        exact absurd hst (hx p (congrArg Prod.fst hg'))
    · rcases CancelPayment_cases uc id w with ⟨y, e, w1', hg', hr⟩ | ⟨p, w1', hg', _, hr⟩ |
        ⟨p, w1', hg', hst, hr⟩
      · rw [hr]; rw [hg'] at hfg; exact hfg.2.2.2.1
      · rw [hr]; rw [hg'] at hfg; exact hfg.2.2.2.1
      · rw [hg] at hg'
        exact absurd hst (hx p (congrArg Prod.fst hg'))
  · intro x w1 hg hfail
    rcases CreatePayment_cases uc req w with ⟨y, e', w1', hg', hr⟩ | ⟨m, w1', hg', _, hr⟩ |
      ⟨m, w1', hg', hact, _, hr⟩ | ⟨m, w1', repo, y, e', w2, hg', hact, _, hc, hr⟩ |
      ⟨m, w1', repo, y, w2, hg', hact, _, hc, hr⟩
    · rw [hr]; rw [hg'] at hfm; exact hfm.2.2.2.1
    · rw [hr]; rw [hg'] at hfm; exact hfm.2.2.2.1
    · rw [hr]; rw [hg'] at hfm; exact hfm.2.2.2.1
    all_goals
      rw [hg] at hg'
      have hxe := congrArg Prod.fst hg'
      simp only at hxe
      rcases hfail with h | ⟨q, hq, hqs⟩
      · rw [hxe] at h; exact absurd rfl h
      · rw [hxe] at hq
        simp only [Option.some.injEq] at hq
        rw [hq] at hact; rw [hact] at hqs
        exact absurd hqs (by decide)
  · intro m w1 repo x e w2 hg hact hr hc
    have hfc := customer_GetByID_frame repo req.CustomerID w1
    rw [hg] at hfm; rw [hc] at hfc
    simp only at hfm hfc
    have hrun : (uc.CreatePayment req w).2 = w2 := by
      simp [paymentUseCase.CreatePayment, hg, hact, hr, hc]
    rw [hrun, hfc.2.2.2.1, hfm.2.2.2.1]; simp

theorem at_most_one_mutating_call_witness :
    ((NewPaymentUseCase (some {})).ProcessPayment 8 sampleWorld).1 = .returned none ∧
      ((NewPaymentUseCase (some {})).ProcessPayment 8 sampleWorld).2.calls =
        [.PaymentGetByID 8, .PaymentUpdateStatus 8 PaymentStatusCompleted] ∧
      ((NewPaymentUseCase (some {})).CancelPayment 8 sampleWorld).2.calls =
        [.PaymentGetByID 8, .PaymentUpdateStatus 8 PaymentStatusCancelled] ∧
      ((NewPaymentUseCase (some {})).CancelPayment 7 sampleWorld).2.calls =
        [.PaymentGetByID 7] ∧
      (∃ p, ((NewPaymentUseCase (some {})).CreatePayment sampleRequest sampleWorld).2.calls =
        [.MerchantGetByID 1, .CustomerGetByID 2, .PaymentCreate p]) ∧
      ((NewPaymentUseCase (some {})).CreatePayment { sampleRequest with MerchantID := 3 }
        sampleWorld).2.calls = [.MerchantGetByID 3] ∧
      ((NewPaymentUseCase (some {})).CreatePayment { sampleRequest with CustomerID := 99 }
        sampleWorld).2.calls = [.MerchantGetByID 1, .CustomerGetByID 99] :=
  have h8 := at_most_one_mutating_call (NewPaymentUseCase (some {})) sampleRequest 8 1 20 0
    sampleWorld
  have h7 := at_most_one_mutating_call (NewPaymentUseCase (some {})) sampleRequest 7 1 20 0
    sampleWorld
  have h3 := at_most_one_mutating_call (NewPaymentUseCase (some {}))
    { sampleRequest with MerchantID := 3 } 8 1 20 0 sampleWorld
  have h99 := at_most_one_mutating_call (NewPaymentUseCase (some {}))
    { sampleRequest with CustomerID := 99 } 8 1 20 0 sampleWorld
  ⟨rfl, h8.2.2.2.2.1 rfl, h8.2.2.2.2.2.1 rfl,
    (h7.2.2.2.2.2.2.1 _ _ rfl (Or.inr ⟨_, rfl, by decide⟩)).2,
    ⟨_, h8.2.2.2.1 _ _ rfl⟩,
    h3.2.2.2.2.2.2.2.1 _ _ rfl (Or.inr ⟨_, rfl, rfl⟩),
    h99.2.2.2.2.2.2.2.2 _ _ {} _ _ _ rfl rfl rfl rfl⟩

/-- C20: with the use case built as in `main` (nil customer repository),
CreatePayment never returns a payment.  For every request and store it ends in
one of three ways, decided by the merchant lookup: the lookup failed and the
wrapped lookup error is returned; the merchant is inactive and "merchant is not
active" is returned; or the merchant is active and the call panics at the
customer lookup on the nil repository, with only the merchant lookup in the
call log and nothing persisted. -/
theorem main_wiring_never_creates (req : CreatePaymentRequest) (w : World) :
    mainUseCase.customerRepo = none ∧
    (∀ p e, (mainUseCase.CreatePayment req w).1 ≠ .returned (some p, e)) ∧
    ((∃ x e w1, merchantRepository.GetByID req.MerchantID w = ((x, some e), w1) ∧
        mainUseCase.CreatePayment req w =
          (.returned (none, some (.AppError "failed to get merchant" "" (some e)
            (usecaseFile w1) 54)), w1)) ∨
      (∃ m w1, merchantRepository.GetByID req.MerchantID w = ((some m, none), w1) ∧
        m.IsActive = false ∧
        mainUseCase.CreatePayment req w =
          (.returned (none, some (errors.New "merchant is not active" (usecaseFile w1) 57)),
            w1)) ∨
      (∃ m w1, merchantRepository.GetByID req.MerchantID w = ((some m, none), w1) ∧
        m.IsActive = true ∧
        mainUseCase.CreatePayment req w = (.panicked, w1))) ∧
    (mainUseCase.CreatePayment req w).2.calls = w.calls ++ [.MerchantGetByID req.MerchantID] ∧
    (mainUseCase.CreatePayment req w).2.payments = w.payments := by
  have hfm := merchant_GetByID_frame req.MerchantID w
  have hmain : mainUseCase.customerRepo = none := rfl
  have hcases := CreatePayment_cases mainUseCase req w
  rcases hcases with ⟨x, e, w1, hg, hr⟩ | ⟨m, w1, hg, hact, hr⟩ |
    ⟨m, w1, hg, hact, _, hr⟩ | ⟨m, w1, repo, x, e, w2, hg, _, hrepo, hc, hr⟩ |
    ⟨m, w1, repo, x, w2, hg, _, hrepo, hc, hr⟩
  · rw [hg] at hfm
    refine ⟨rfl, ?_, Or.inl ⟨x, e, w1, hg, hr⟩, ?_, ?_⟩
    · intro p e'; rw [hr]; simp [errors.Wrap]
    · rw [hr]; exact hfm.2.2.2.1
    · rw [hr]; exact hfm.1
  · rw [hg] at hfm
    refine ⟨rfl, ?_, Or.inr (Or.inl ⟨m, w1, hg, hact, hr⟩), ?_, ?_⟩
    · intro p e'; rw [hr]; simp
    · rw [hr]; exact hfm.2.2.2.1
    · rw [hr]; exact hfm.1
  · rw [hg] at hfm
    refine ⟨rfl, ?_, Or.inr (Or.inr ⟨m, w1, hg, hact, hr⟩), ?_, ?_⟩
    · intro p e'; rw [hr]; simp
    · rw [hr]; exact hfm.2.2.2.1
    · rw [hr]; exact hfm.1
  · rw [hmain] at hrepo; exact absurd hrepo (by simp)
  · rw [hmain] at hrepo; exact absurd hrepo (by simp)

/-! ## Independence of the call log -/

theorem sameStore_refl (w : World) : w.sameStore w :=
  ⟨rfl, rfl, rfl, rfl, rfl, rfl, rfl⟩

theorem sameStore_record {w w' : World} (h : w.sameStore w') (c c' : Call) :
    (w.record c).sameStore (w'.record c') := h

theorem sameStore_driver {w w' : World} (h : w.sameStore w') :
    w.driver.1 = w'.driver.1 ∧ w.driver.2.sameStore w'.driver.2 := by
  rcases w with ⟨p, m, c, f, l, n, u, r⟩
  rcases w' with ⟨p', m', c', f', l', n', u', r'⟩
  simp only [World.sameStore] at h
  obtain ⟨rfl, rfl, rfl, rfl, rfl, rfl, rfl⟩ := h
  cases f <;> simp [World.driver, World.sameStore]

theorem sameStore_timeNow {w w' : World} (h : w.sameStore w') :
    w.timeNow.1 = w'.timeNow.1 ∧ w.timeNow.2.sameStore w'.timeNow.2 := by
  obtain ⟨h1, h2, h3, h4, h5, h6, h7⟩ := h
  exact ⟨h5, h1, h2, h3, h4, by simp [World.timeNow, h5], h6, h7⟩

/-- The payment lookup returns the same, and leaves the same store, on two
states that differ in the call log only. -/
theorem GetByID_same (id : UUID) {w w' : World} (h : w.sameStore w') :
    (paymentRepository.GetByID id w).1 = (paymentRepository.GetByID id w').1 ∧
      (paymentRepository.GetByID id w).2.sameStore (paymentRepository.GetByID id w').2 := by
  have hd := sameStore_driver (sameStore_record h (.PaymentGetByID id) (.PaymentGetByID id))
  simp only [paymentRepository.GetByID]
  rcases h1 : (w.record (.PaymentGetByID id)).driver with ⟨f, v⟩
  rcases h2 : (w'.record (.PaymentGetByID id)).driver with ⟨f', v'⟩
  rw [h1, h2] at hd
  obtain ⟨hf, hs⟩ := hd
  simp only at hf hs
  subst hf
  have hst : v.storedPayment id = v'.storedPayment id := by
    simp only [World.storedPayment, hs.1]
  have hfile : paymentRepoFile v = paymentRepoFile v' := by
    simp only [paymentRepoFile, hs.2.2.2.2.2.2]
  cases f with
  | some e => simp only [hfile]; exact ⟨trivial, hs⟩
  | none =>
    simp only [hst, hfile]
    cases v'.storedPayment id <;> exact ⟨rfl, hs⟩

theorem GetByMerchantID_same (mid : UUID) (limit offset : Int) {w w' : World}
    (h : w.sameStore w') :
    (paymentRepository.GetByMerchantID mid limit offset w).1 =
        (paymentRepository.GetByMerchantID mid limit offset w').1 ∧
      (paymentRepository.GetByMerchantID mid limit offset w).2.sameStore
        (paymentRepository.GetByMerchantID mid limit offset w').2 := by
  have hd := sameStore_driver (sameStore_record h (.PaymentGetByMerchantID mid limit offset)
    (.PaymentGetByMerchantID mid limit offset))
  simp only [paymentRepository.GetByMerchantID]
  rcases h1 : (w.record (.PaymentGetByMerchantID mid limit offset)).driver with ⟨f, v⟩
  rcases h2 : (w'.record (.PaymentGetByMerchantID mid limit offset)).driver with ⟨f', v'⟩
  rw [h1, h2] at hd
  obtain ⟨hf, hs⟩ := hd
  simp only at hf hs
  subst hf
  have hfile : paymentRepoFile v = paymentRepoFile v' := by
    simp only [paymentRepoFile, hs.2.2.2.2.2.2]
  cases f with
  | some e => simp only [hfile]; exact ⟨trivial, hs⟩
  | none =>
    simp only [hfile, hs.1]
    split
    · exact ⟨rfl, hs⟩
    · split <;> exact ⟨rfl, hs⟩

theorem UpdateStatus_same (id : UUID) (st : PaymentStatus) {w w' : World}
    (h : w.sameStore w') :
    (paymentRepository.UpdateStatus id st w).1 = (paymentRepository.UpdateStatus id st w').1 ∧
      (paymentRepository.UpdateStatus id st w).2.sameStore
        (paymentRepository.UpdateStatus id st w').2 := by
  rcases w with ⟨p, m, c, f, l, n, u, r⟩
  rcases w' with ⟨p', m', c', f', l', n', u', r'⟩
  simp only [World.sameStore] at h
  obtain ⟨rfl, rfl, rfl, rfl, rfl, rfl, rfl⟩ := h
  simp only [paymentRepository.UpdateStatus, World.record, World.timeNow, World.driver,
    paymentRepoFile, World.sameStore]
  cases (st == PaymentStatusCompleted) <;>
    (simp only [Bool.false_eq_true, if_false, if_true]
     rcases f with _ | ⟨a, rest⟩
     · simp only
       split <;> simp
     · cases a with
       | some t => simp [errors.Wrap]
       | none =>
         simp only [Option.map_none']
         rcases rest with _ | ⟨b, rest2⟩
         · simp only
           split <;> simp
         · cases b with
           | some t => simp [errors.Wrap]
           | none =>
             simp only [Option.map_none']
             split <;> simp)

theorem usecaseFile_same {w w' : World} (h : w.sameStore w') :
    usecaseFile w = usecaseFile w' := by
  simp only [usecaseFile, h.2.2.2.2.2.2]

theorem GetPayment_same (uc : paymentUseCase) (id : UUID) {w w' : World}
    (h : w.sameStore w') :
    (uc.GetPayment id w).1 = (uc.GetPayment id w').1 ∧
      (uc.GetPayment id w).2.sameStore (uc.GetPayment id w').2 := by
  have hg := GetByID_same id h
  simp only [paymentUseCase.GetPayment]
  rcases h1 : paymentRepository.GetByID id w with ⟨⟨x, e⟩, v⟩
  rcases h2 : paymentRepository.GetByID id w' with ⟨⟨x', e'⟩, v'⟩
  rw [h1, h2] at hg
  obtain ⟨hr, hs⟩ := hg
  simp only [Prod.mk.injEq] at hr
  obtain ⟨rfl, rfl⟩ := hr
  have hfile := usecaseFile_same hs
  cases e with
  | some e => simp only [hfile]; exact ⟨trivial, hs⟩
  | none => exact ⟨rfl, hs⟩

theorem GetMerchantPayments_same (uc : paymentUseCase) (mid : UUID) (limit offset : Int)
    {w w' : World} (h : w.sameStore w') :
    (uc.GetMerchantPayments mid limit offset w).1 =
        (uc.GetMerchantPayments mid limit offset w').1 ∧
      (uc.GetMerchantPayments mid limit offset w).2.sameStore
        (uc.GetMerchantPayments mid limit offset w').2 := by
  have hg := GetByMerchantID_same mid limit offset h
  simp only [paymentUseCase.GetMerchantPayments]
  rcases h1 : paymentRepository.GetByMerchantID mid limit offset w with ⟨⟨x, e⟩, v⟩
  rcases h2 : paymentRepository.GetByMerchantID mid limit offset w' with ⟨⟨x', e'⟩, v'⟩
  rw [h1, h2] at hg
  obtain ⟨hr, hs⟩ := hg
  simp only [Prod.mk.injEq] at hr
  obtain ⟨rfl, rfl⟩ := hr
  have hfile := usecaseFile_same hs
  cases e with
  | some e => simp only [hfile]; exact ⟨trivial, hs⟩
  | none => exact ⟨rfl, hs⟩

theorem ProcessPayment_same (uc : paymentUseCase) (id : UUID) {w w' : World}
    (h : w.sameStore w') :
    (uc.ProcessPayment id w).1 = (uc.ProcessPayment id w').1 ∧
      (uc.ProcessPayment id w).2.sameStore (uc.ProcessPayment id w').2 := by
  have hg := GetByID_same id h
  simp only [paymentUseCase.ProcessPayment]
  rcases h1 : paymentRepository.GetByID id w with ⟨⟨x, e⟩, v⟩
  rcases h2 : paymentRepository.GetByID id w' with ⟨⟨x', e'⟩, v'⟩
  rw [h1, h2] at hg
  obtain ⟨hr, hs⟩ := hg
  simp only [Prod.mk.injEq] at hr
  obtain ⟨rfl, rfl⟩ := hr
  have hfile := usecaseFile_same hs
  cases e with
  | some e => cases x <;> (simp only [hfile]; exact ⟨trivial, hs⟩)
  | none =>
    cases x with
    | none => exact ⟨rfl, hs⟩
    | some p =>
      simp only [hfile]
      split
      · exact ⟨rfl, hs⟩
      · have hu := UpdateStatus_same id PaymentStatusCompleted hs
        rcases h3 : paymentRepository.UpdateStatus id PaymentStatusCompleted v with ⟨e3, v3⟩
        rcases h4 : paymentRepository.UpdateStatus id PaymentStatusCompleted v' with ⟨e4, v4⟩
        rw [h3, h4] at hu
        obtain ⟨he, hs2⟩ := hu
        simp only at he hs2
        subst he
        have hfile2 := usecaseFile_same hs2
        cases e3 with
        | some e => simp only [hfile2]; exact ⟨trivial, hs2⟩
        | none => exact ⟨rfl, hs2⟩

theorem CancelPayment_same (uc : paymentUseCase) (id : UUID) {w w' : World}
    (h : w.sameStore w') :
    (uc.CancelPayment id w).1 = (uc.CancelPayment id w').1 ∧
      (uc.CancelPayment id w).2.sameStore (uc.CancelPayment id w').2 := by
  have hg := GetByID_same id h
  simp only [paymentUseCase.CancelPayment]
  rcases h1 : paymentRepository.GetByID id w with ⟨⟨x, e⟩, v⟩
  rcases h2 : paymentRepository.GetByID id w' with ⟨⟨x', e'⟩, v'⟩
  rw [h1, h2] at hg
  obtain ⟨hr, hs⟩ := hg
  simp only [Prod.mk.injEq] at hr
  obtain ⟨rfl, rfl⟩ := hr
  have hfile := usecaseFile_same hs
  cases e with
  | some e => cases x <;> (simp only [hfile]; exact ⟨trivial, hs⟩)
  | none =>
    cases x with
    | none => exact ⟨rfl, hs⟩
    | some p =>
      simp only [hfile]
      split
      · exact ⟨rfl, hs⟩
      · have hu := UpdateStatus_same id PaymentStatusCancelled hs
        rcases h3 : paymentRepository.UpdateStatus id PaymentStatusCancelled v with ⟨e3, v3⟩
        rcases h4 : paymentRepository.UpdateStatus id PaymentStatusCancelled v' with ⟨e4, v4⟩
        rw [h3, h4] at hu
        obtain ⟨he, hs2⟩ := hu
        simp only at he hs2
        subst he
        have hfile2 := usecaseFile_same hs2
        cases e3 with
        | some e => simp only [hfile2]; exact ⟨trivial, hs2⟩
        | none => exact ⟨rfl, hs2⟩

theorem handler_GetPayment_same (h : PaymentHandler) (idParam : Option UUID) {w w' : World}
    (hs : w.sameStore w') :
    (h.GetPayment idParam w).1 = (h.GetPayment idParam w').1 ∧
      (h.GetPayment idParam w).2.sameStore (h.GetPayment idParam w').2 := by
  cases idParam with
  | none => exact ⟨rfl, hs⟩
  | some id =>
    have hg := GetPayment_same h.paymentUseCase id hs
    simp only [PaymentHandler.GetPayment]
    rcases h1 : h.paymentUseCase.GetPayment id w with ⟨⟨x, e⟩, v⟩
    rcases h2 : h.paymentUseCase.GetPayment id w' with ⟨⟨x', e'⟩, v'⟩
    rw [h1, h2] at hg
    obtain ⟨hr, hv⟩ := hg
    simp only [Prod.mk.injEq] at hr
    obtain ⟨rfl, rfl⟩ := hr
    cases e <;> exact ⟨rfl, hv⟩

theorem handler_ProcessPayment_same (h : PaymentHandler) (idParam : Option UUID)
    {w w' : World} (hs : w.sameStore w') :
    (h.ProcessPayment idParam w).1 = (h.ProcessPayment idParam w').1 ∧
      (h.ProcessPayment idParam w).2.sameStore (h.ProcessPayment idParam w').2 := by
  cases idParam with
  | none => exact ⟨rfl, hs⟩
  | some id =>
    have hg := ProcessPayment_same h.paymentUseCase id hs
    simp only [PaymentHandler.ProcessPayment]
    rcases h1 : h.paymentUseCase.ProcessPayment id w with ⟨x, v⟩
    rcases h2 : h.paymentUseCase.ProcessPayment id w' with ⟨x', v'⟩
    rw [h1, h2] at hg
    obtain ⟨hr, hv⟩ := hg
    simp only at hr hv
    subst hr
    rcases x with (_ | e) | _
    · exact ⟨rfl, hv⟩
    · exact ⟨rfl, hv⟩
    · exact ⟨rfl, hv⟩

theorem handler_CancelPayment_same (h : PaymentHandler) (idParam : Option UUID)
    {w w' : World} (hs : w.sameStore w') :
    (h.CancelPayment idParam w).1 = (h.CancelPayment idParam w').1 ∧
      (h.CancelPayment idParam w).2.sameStore (h.CancelPayment idParam w').2 := by
  cases idParam with
  | none => exact ⟨rfl, hs⟩
  | some id =>
    have hg := CancelPayment_same h.paymentUseCase id hs
    simp only [PaymentHandler.CancelPayment]
    rcases h1 : h.paymentUseCase.CancelPayment id w with ⟨x, v⟩
    rcases h2 : h.paymentUseCase.CancelPayment id w' with ⟨x', v'⟩
    rw [h1, h2] at hg
    obtain ⟨hr, hv⟩ := hg
    simp only at hr hv
    subst hr
    rcases x with (_ | e) | _
    · exact ⟨rfl, hv⟩
    · exact ⟨rfl, hv⟩
    · exact ⟨rfl, hv⟩

theorem handler_GetMerchantPayments_same (h : PaymentHandler) (merchantIDParam : Option UUID)
    (limitQuery offsetQuery : Option String) {w w' : World} (hs : w.sameStore w') :
    (h.GetMerchantPayments merchantIDParam limitQuery offsetQuery w).1 =
        (h.GetMerchantPayments merchantIDParam limitQuery offsetQuery w').1 ∧
      (h.GetMerchantPayments merchantIDParam limitQuery offsetQuery w).2.sameStore
        (h.GetMerchantPayments merchantIDParam limitQuery offsetQuery w').2 := by
  cases merchantIDParam with
  | none => exact ⟨rfl, hs⟩
  | some mid =>
    have hg := GetMerchantPayments_same h.paymentUseCase mid
      (PaymentHandler.pageLimit limitQuery) (PaymentHandler.pageOffset offsetQuery) hs
    simp only [PaymentHandler.GetMerchantPayments]
    rcases h1 : h.paymentUseCase.GetMerchantPayments mid (PaymentHandler.pageLimit limitQuery)
      (PaymentHandler.pageOffset offsetQuery) w with ⟨⟨x, e⟩, v⟩
    rcases h2 : h.paymentUseCase.GetMerchantPayments mid (PaymentHandler.pageLimit limitQuery)
      (PaymentHandler.pageOffset offsetQuery) w' with ⟨⟨x', e'⟩, v'⟩
    rw [h1, h2] at hg
    obtain ⟨hr, hv⟩ := hg
    simp only [Prod.mk.injEq] at hr
    obtain ⟨rfl, rfl⟩ := hr
    cases e <;> exact ⟨rfl, hv⟩

theorem GetByAPIKey_store (k k' : String) (w : World) :
    (merchantRepository.GetByAPIKey k w).2.sameStore
      (merchantRepository.GetByAPIKey k' w).2 := by
  have hd := sameStore_driver
    (sameStore_record (sameStore_refl w) (.MerchantGetByAPIKey k) (.MerchantGetByAPIKey k'))
  simp only [merchantRepository.GetByAPIKey]
  rcases h1 : (w.record (.MerchantGetByAPIKey k)).driver with ⟨f, v⟩
  rcases h2 : (w.record (.MerchantGetByAPIKey k')).driver with ⟨f', v'⟩
  rw [h1, h2] at hd
  obtain ⟨hf, hv⟩ := hd
  simp only at hf hv
  subst hf
  cases f with
  | some e => exact hv
  | none =>
    simp only
    cases v.merchantByKey k <;> cases v'.merchantByKey k' <;> exact hv

theorem APIKeyAuth_store {hdr : AuthHeaders} {w w1 : World} {m : Merchant}
    (h : AuthMiddleware.APIKeyAuth hdr w = (.next m, w1)) :
    w1 = (merchantRepository.GetByAPIKey (AuthMiddleware.apiKey hdr) w).2 ∧
      m.IsActive = true := by
  simp only [AuthMiddleware.APIKeyAuth] at h
  split at h
  · simp at h
  · rcases hg : merchantRepository.GetByAPIKey (AuthMiddleware.apiKey hdr) w with ⟨⟨x, e⟩, v⟩
    rw [hg] at h
    cases e with
    | some e => cases x <;> simp at h
    | none =>
      cases x with
      | none => simp at h
      | some mm =>
        simp only at h
        split at h
        · simp at h
        · simp only [Prod.mk.injEq, AuthDecision.next.injEq] at h
          obtain ⟨rfl, rfl⟩ := h
          refine ⟨rfl, ?_⟩
          simpa using ‹¬ (!mm.IsActive) = true›

theorem authenticated_next {hdr : AuthHeaders} {w w1 : World} {m : Merchant}
    (h : AuthMiddleware.APIKeyAuth hdr w = (.next m, w1))
    (handler : World → Outcome HTTPResponse × World) :
    authenticated hdr handler w = handler w1 := by
  simp only [authenticated, h]

/-! ## The authenticated merchant and the payment endpoints -/

/-- C21: the responses of the payment endpoints do not depend on which merchant
authenticated. Let two requests reach the same store, one authenticated by the
middleware as merchant A and the other as merchant B (both therefore active).
For the get-payment, process-payment, cancel-payment and list-merchant-payments
routes, with the same path identifier and query parameters, the two requests
receive the same response and leave the same store: the same tables, fault
schedule, clock, identifier stream. Nothing is assumed about who owns the
payment or merchant the path names. -/
theorem responses_independent_of_merchant (h : PaymentHandler) (hdrA hdrB : AuthHeaders)
    (w wA wB : World) (A B : Merchant)
    (hA : AuthMiddleware.APIKeyAuth hdrA w = (.next A, wA))
    (hB : AuthMiddleware.APIKeyAuth hdrB w = (.next B, wB))
    (idParam : Option UUID) (limitQuery offsetQuery : Option String) :
    (A.IsActive = true ∧ B.IsActive = true) ∧
    ((authenticated hdrA (h.GetPayment idParam) w).1 =
        (authenticated hdrB (h.GetPayment idParam) w).1 ∧
      (authenticated hdrA (h.GetPayment idParam) w).2.sameStore
        (authenticated hdrB (h.GetPayment idParam) w).2) ∧
    ((authenticated hdrA (h.ProcessPayment idParam) w).1 =
        (authenticated hdrB (h.ProcessPayment idParam) w).1 ∧
      (authenticated hdrA (h.ProcessPayment idParam) w).2.sameStore
        (authenticated hdrB (h.ProcessPayment idParam) w).2) ∧
    ((authenticated hdrA (h.CancelPayment idParam) w).1 =
        (authenticated hdrB (h.CancelPayment idParam) w).1 ∧
      (authenticated hdrA (h.CancelPayment idParam) w).2.sameStore
        (authenticated hdrB (h.CancelPayment idParam) w).2) ∧
    ((authenticated hdrA (h.GetMerchantPayments idParam limitQuery offsetQuery) w).1 =
        (authenticated hdrB (h.GetMerchantPayments idParam limitQuery offsetQuery) w).1 ∧
      (authenticated hdrA (h.GetMerchantPayments idParam limitQuery offsetQuery) w).2.sameStore
        (authenticated hdrB (h.GetMerchantPayments idParam limitQuery offsetQuery) w).2) := by
  have hwA := APIKeyAuth_store hA
  have hwB := APIKeyAuth_store hB
  have hs : wA.sameStore wB := by
    rw [hwA.1, hwB.1]
    exact GetByAPIKey_store _ _ w
  simp only [authenticated_next hA, authenticated_next hB]
  exact ⟨⟨hwA.2, hwB.2⟩, handler_GetPayment_same h idParam hs,
    handler_ProcessPayment_same h idParam hs, handler_CancelPayment_same h idParam hs,
    handler_GetMerchantPayments_same h idParam limitQuery offsetQuery hs⟩

/-- In the store with several merchants, a request with the key of merchant 4 and
a request with the bearer token of merchant 5 both pass the middleware; neither
merchant owns payment 8. -/
theorem responses_independent_of_merchant_witness :
    AuthMiddleware.APIKeyAuth ⟨"key-4", ""⟩ severalMerchantWorld =
        (.next sampleOtherMerchant,
          (merchantRepository.GetByAPIKey "key-4" severalMerchantWorld).2) ∧
      AuthMiddleware.APIKeyAuth ⟨"", "Bearer key-5"⟩ severalMerchantWorld =
        (.next sampleThirdMerchant,
          (merchantRepository.GetByAPIKey "key-5" severalMerchantWorld).2) ∧
      (severalMerchantWorld.storedPayment 8).map (fun p => p.MerchantID) = some 1 ∧
      (authenticated ⟨"key-4", ""⟩
          ((NewPaymentHandler mainUseCase).ProcessPayment (some 8)) severalMerchantWorld).1 =
        (authenticated ⟨"", "Bearer key-5"⟩
          ((NewPaymentHandler mainUseCase).ProcessPayment (some 8)) severalMerchantWorld).1 ∧
      (authenticated ⟨"key-4", ""⟩
          ((NewPaymentHandler mainUseCase).ProcessPayment (some 8)) severalMerchantWorld).2.sameStore
        (authenticated ⟨"", "Bearer key-5"⟩
          ((NewPaymentHandler mainUseCase).ProcessPayment (some 8)) severalMerchantWorld).2 :=
  ⟨rfl, rfl, rfl,
    (responses_independent_of_merchant (NewPaymentHandler mainUseCase) ⟨"key-4", ""⟩
      ⟨"", "Bearer key-5"⟩ severalMerchantWorld _ _ sampleOtherMerchant sampleThirdMerchant
      rfl rfl (some 8) none none).2.2.1⟩

/-- In the store with several merchants, the request of merchant 4 to process
payment 8 of merchant 1 is answered 200 and the payment is completed. -/
theorem foreign_payment_is_processed :
    (authenticated ⟨"key-4", ""⟩
        ((NewPaymentHandler mainUseCase).ProcessPayment (some 8)) severalMerchantWorld).1 =
      .returned (JSON 200 true .absent "Payment processed successfully" "") ∧
    ((authenticated ⟨"key-4", ""⟩
        ((NewPaymentHandler mainUseCase).ProcessPayment (some 8))
          severalMerchantWorld).2.storedPayment 8).map (fun p => (p.MerchantID, p.Status)) =
      some (1, PaymentStatusCompleted) :=
  ⟨rfl, rfl⟩

end PaymentService
